import Mathlib

/-!
# ow18b: a verification development

A shallow embedding of `src/src/ow18b.c` (with the types of `src/include/ow18b.h`):
the notification validator and the sample decoder of the receive loop of `ow_recv`,
the advertising-report scanner `ow_scan_for_address`, the session sequencing of
`ow_recv` over an explicit transport state, and the bounded consumer of `ow_recv_n`.

Conventions of the embedding.

* A byte (`uint8_t`) is a `Fin 256`; the other machine integers are `Nat` or `Int`,
  all values that occur stay far below the width of their C type.
* `*(uint16_t*)&buf[i]` is read little-endian (the byte order of the hosts BlueZ
  runs this code on): `buf[i] + 256 * buf[i+1]`.
* A `double` is an IEEE 754 binary64 value: `none` is `NAN`, and a finite value is a
  `binary64`, its sign bit and its magnitude as a rational. The product of two
  `double`s is the exact product rounded to the nearest value with a 53-bit
  significand, ties to even (`binary64_round`), as the default rounding mode does
  when a product is evaluated in binary64 itself (`FLT_EVAL_METHOD` 0, as on the
  x86-64 and ARM hosts of BlueZ). A decimal constant is the binary64 value nearest to
  it. Infinities are left out: the operands the decoder multiplies are at most 16383.
* The transport (BlueZ / the kernel) is not part of the repository. Every transport
  call takes its outcome from a record of scripted outcomes, acts on an explicit
  `World` (current capture filter, `errno`, log of issued calls), and a blocking
  `read` that never returns is the result `none`.
-/

namespace Ow18b

/-! ## Bytes and words -/

/-- A `uint8_t`. -/
abbrev Byte := Fin 256

/-- The value of `buf[i]`. -/
def byteAt (buf : List Byte) (i : Nat) : Nat := (buf.getD i 0).val

/-- The value of `*(uint16_t*)&buf[i]` on a little-endian host. -/
def u16At (buf : List Byte) (i : Nat) : Nat := byteAt buf i + 256 * byteAt buf (i + 1)

/-! ## Constants -/

/-- Embeds `OW_SAMPLE_LENGTH` (ow18b.c:30). -/
def OW_SAMPLE_LENGTH : Nat := 18

/-- Embeds `OW_L2CAP_DEST_CID` (ow18b.c:33). -/
def OW_L2CAP_DEST_CID : Nat := 0x0004

/-- Embeds `OW_ATT_OPCODE_HANDLE_VALUE_NOTIFICATION` (ow18b.c:34), `(uint8_t)0x001B`. -/
def OW_ATT_OPCODE_HANDLE_VALUE_NOTIFICATION : Nat := 0x001B % 256

/-- Embeds `OW_ATT_HANDLE` (ow18b.c:35). -/
def OW_ATT_HANDLE : Nat := 0x001B

/-- Modelled from the spec: `HCI_ACLDATA_PKT` comes from the BlueZ header
`<bluetooth/hci.h>`, which is not under `src/`; it is the packet type
"asynchronous connection data", value `0x02`. -/
def HCI_ACLDATA_PKT : Nat := 0x02

/-! ## Samples (ow18b.h:95-163) -/

/-- Embeds `ow_unit_t` (ow18b.h:96-123). -/
inductive ow_unit_t
  | OW_UNIT_MILLIVOLT
  | OW_UNIT_VOLT
  | OW_UNIT_MICROAMPERE
  | OW_UNIT_MILLIAMPERE
  | OW_UNIT_AMPERE
  | OW_UNIT_OHM
  | OW_UNIT_KILOOHM
  | OW_UNIT_MEGAOHM
  | OW_UNIT_NANOFARAD
  | OW_UNIT_MICROFARAD
  | OW_UNIT_MILLIFARAD
  | OW_UNIT_FARAD
  | OW_UNIT_HERTZ
  | OW_UNIT_PERCENT
  | OW_UNIT_CELSIUS
  | OW_UNIT_FAHRENHEIT
  | OW_UNIT_NEARFIELD
  | OW_UNIT_UNKNOWN
  deriving DecidableEq

/-- Embeds `ow_current_type_t` (ow18b.h:126-130). -/
inductive ow_current_type_t
  | OW_CURRENT_TYPE_DC
  | OW_CURRENT_TYPE_AC
  deriving DecidableEq

/-! ## The `double` values -/

/-- A finite `double` (IEEE 754 binary64): the sign bit and the magnitude. The value
`-0.0` is the one with the sign bit and magnitude 0. -/
structure binary64 where
  negative : Bool
  magnitude : ℚ
  deriving DecidableEq

/-- The real number a finite `double` stands for. -/
def binary64.toRat (a : binary64) : ℚ :=
  if a.negative = true then -a.magnitude else a.magnitude

/-- Rounding to the nearest integer, a tie to the even one. -/
def round_half_even (q : ℚ) : ℤ :=
  if q - ⌊q⌋ < 1 / 2 then ⌊q⌋
  else if 1 / 2 < q - ⌊q⌋ then ⌊q⌋ + 1
  else if ⌊q⌋ % 2 = 0 then ⌊q⌋ else ⌊q⌋ + 1

/-- The exponent of the unit in the last place of the binary64 values around a
magnitude `q > 0`: with `2^e ≤ q < 2^(e+1)` it is `e - 52` (a significand of 53 bits),
and `-1074` in the subnormal range. -/
def binary64_exponent (q : ℚ) : ℤ := max (Int.log 2 q - 52) (-1074)

/-- The magnitude of the binary64 value nearest to a magnitude `q ≥ 0`, ties to even:
the rounding of IEEE 754 in its default mode, below the overflow threshold. -/
def binary64_round (q : ℚ) : ℚ :=
  if q = 0 then 0
  else (round_half_even (q / 2 ^ binary64_exponent q) : ℚ) * 2 ^ binary64_exponent q

/-- The product `a * b` of two finite `double`s: the sign bits are combined and the
exact product of the magnitudes is rounded. -/
def binary64.mul (a b : binary64) : binary64 :=
  { negative := xor a.negative b.negative,
    magnitude := binary64_round (a.magnitude * b.magnitude) }

/-- The conversion `(double)n` of a nonnegative integer. -/
def binary64.of_nat (n : Nat) : binary64 :=
  { negative := false, magnitude := binary64_round n }

/-- Embeds `ow_sample_t` (ow18b.h:133-163). The `double value` is a finite `binary64`,
or `none` for `NAN`. -/
structure ow_sample_t where
  unit : ow_unit_t
  current_type : ow_current_type_t
  value : Option binary64
  is_continuity_test : Bool
  is_diode_test : Bool
  is_data_hold : Bool
  is_relative : Bool
  is_auto_range : Bool
  is_low_battery : Bool
  deriving DecidableEq

open ow_unit_t ow_current_type_t

/-! ## The notification validator (ow18b.c:612-659) -/

/-- The chain of `continue` tests of the receive loop (ow18b.c:612-659) on the
`bytes_read` bytes that `read` delivered: `true` when none of them fires, that is
when the loop goes on to decode the frame and call the callback. -/
def validate (hci_handle : Nat) (buf : List Byte) : Bool :=
  if buf.length ≠ OW_SAMPLE_LENGTH then false
  else if byteAt buf 0 ≠ HCI_ACLDATA_PKT then false
  else if (u16At buf 1 &&& 0x0FFF) ≠ hci_handle then false
  else if u16At buf 3 ≠ OW_SAMPLE_LENGTH - 5 then false
  else if u16At buf 5 ≠ OW_SAMPLE_LENGTH - 9 then false
  else if u16At buf 7 ≠ OW_L2CAP_DEST_CID then false
  else if byteAt buf 9 ≠ OW_ATT_OPCODE_HANDLE_VALUE_NOTIFICATION then false
  else if u16At buf 10 ≠ OW_ATT_HANDLE then false
  else true

/-! ## The sample decoder (ow18b.c:661-730) -/

/-- The `switch (unit_places & 0xFFF8)` of ow18b.c:670-698. It assigns into the
`sample` variable of the loop, which lives across iterations: the fields a case
does not assign keep what the variable held before. -/
def decodeUnit (sample : ow_sample_t) (unit_places : Nat) : ow_sample_t :=
  let c := unit_places &&& 0xFFF8
  if c = 0xF018 then { sample with unit := OW_UNIT_MILLIVOLT, current_type := OW_CURRENT_TYPE_DC }
  else if c = 0xF058 then { sample with unit := OW_UNIT_MILLIVOLT, current_type := OW_CURRENT_TYPE_AC }
  else if c = 0xF020 then
    { sample with unit := OW_UNIT_VOLT, current_type := OW_CURRENT_TYPE_DC, is_diode_test := false }
  else if c = 0xF060 then
    { sample with unit := OW_UNIT_VOLT, current_type := OW_CURRENT_TYPE_AC, is_diode_test := false }
  else if c = 0xF2A0 then
    { sample with unit := OW_UNIT_VOLT, current_type := OW_CURRENT_TYPE_DC, is_diode_test := true }
  else if c = 0xF090 then { sample with unit := OW_UNIT_MICROAMPERE, current_type := OW_CURRENT_TYPE_DC }
  else if c = 0xF0D0 then { sample with unit := OW_UNIT_MICROAMPERE, current_type := OW_CURRENT_TYPE_AC }
  else if c = 0xF098 then { sample with unit := OW_UNIT_MILLIAMPERE, current_type := OW_CURRENT_TYPE_DC }
  else if c = 0xF0D8 then { sample with unit := OW_UNIT_MILLIAMPERE, current_type := OW_CURRENT_TYPE_AC }
  else if c = 0xF0A0 then { sample with unit := OW_UNIT_AMPERE, current_type := OW_CURRENT_TYPE_DC }
  else if c = 0xF0E0 then { sample with unit := OW_UNIT_AMPERE, current_type := OW_CURRENT_TYPE_AC }
  else if c = 0xF120 then { sample with unit := OW_UNIT_OHM, is_continuity_test := false }
  else if c = 0xF2E0 then { sample with unit := OW_UNIT_OHM, is_continuity_test := true }
  else if c = 0xF128 then { sample with unit := OW_UNIT_KILOOHM }
  else if c = 0xF130 then { sample with unit := OW_UNIT_MEGAOHM }
  else if c = 0xF148 then { sample with unit := OW_UNIT_NANOFARAD }
  else if c = 0xF150 then { sample with unit := OW_UNIT_MICROFARAD }
  else if c = 0xF158 then { sample with unit := OW_UNIT_MILLIFARAD }
  else if c = 0xF160 then { sample with unit := OW_UNIT_FARAD }
  else if c = 0xF1A0 then { sample with unit := OW_UNIT_HERTZ }
  else if c = 0xF1E0 then { sample with unit := OW_UNIT_PERCENT }
  else if c = 0xF220 then { sample with unit := OW_UNIT_CELSIUS }
  else if c = 0xF260 then { sample with unit := OW_UNIT_FAHRENHEIT }
  else if c = 0xF360 then { sample with unit := OW_UNIT_NEARFIELD }
  else { sample with unit := OW_UNIT_UNKNOWN }

/-- The `double factor` of ow18b.c:709-717, `switch (unit_places & 0x0003)`: the
integer 1 converted, or the `double` nearest to the decimal constant `0.1`, `0.01`,
`0.001`. The switch has the four cases 0..3 and no default; the last branch here is
never taken, since the masked value is below 4. -/
def decodeFactor (unit_places : Nat) : binary64 :=
  let c := unit_places &&& 0x0003
  if c = 0 then binary64.of_nat 1
  else if c = 1 then { negative := false, magnitude := binary64_round (1 / 10) }
  else if c = 2 then { negative := false, magnitude := binary64_round (1 / 100) }
  else if c = 3 then { negative := false, magnitude := binary64_round (1 / 1000) }
  else binary64.of_nat 0

/-- The sign `((value_sign & 0x8000) ? -1.0 : 1.0)` of ow18b.c:720. -/
def decodeSign (value_sign : Nat) : binary64 :=
  if value_sign &&& 0x8000 ≠ 0 then { negative := true, magnitude := 1 }
  else { negative := false, magnitude := 1 }

/-- The value of ow18b.c:700-721: `NAN` when bit 2 of `unit_places` is set, else the
`double` product `sign * factor * (double)(value_sign & 0x3FFF)`, evaluated from left
to right. -/
def decodeValue (unit_places value_sign : Nat) : Option binary64 :=
  if unit_places &&& (1 <<< 2) ≠ 0 then none
  else some (((decodeSign value_sign).mul (decodeFactor unit_places)).mul
    (binary64.of_nat (value_sign &&& 0x3FFF)))

/-- The body of the receive loop from ow18b.c:661 to 730: what the `sample`
variable holds when it is passed to the callback, from what it held before and
the frame in `buf`. -/
def decode (sample : ow_sample_t) (buf : List Byte) : ow_sample_t :=
  let value_sign := u16At buf 16
  let unit_places := u16At buf 12
  let sample := decodeUnit sample unit_places
  let sample := { sample with value := decodeValue unit_places value_sign }
  let flags := byteAt buf 14
  { sample with
    is_data_hold := (flags &&& (1 <<< 0)) != 0
    is_relative := (flags &&& (1 <<< 1)) != 0
    is_auto_range := (flags &&& (1 <<< 2)) != 0
    is_low_battery := (flags &&& (1 <<< 3)) != 0 }

/-! ## The transport: outcomes, world, log -/

/-- Modelled from the spec: `EINTR` ("interrupted", a transient read error) with its
value in `<errno.h>` (Linux), a header that is not under `src/`. -/
def EINTR : Nat := 4

/-- Modelled from the spec: `EAGAIN` ("would block", a transient read error) of
`<errno.h>` (Linux). -/
def EAGAIN : Nat := 11

/-- Modelled from the spec: `ENODEV` of `<errno.h>` (Linux). -/
def ENODEV : Nat := 19

/-- Modelled from the spec: `EINVAL` of `<errno.h>` (Linux). -/
def EINVAL : Nat := 22

/-- Modelled from the spec: `ENODATA` of `<errno.h>` (Linux). -/
def ENODATA : Nat := 61

/-- Modelled from the spec: `HCI_EVENT_PKT` of `<bluetooth/hci.h>`. -/
def HCI_EVENT_PKT : Nat := 0x04

/-- Modelled from the spec: `EVT_LE_META_EVENT` of `<bluetooth/hci.h>`. -/
def EVT_LE_META_EVENT : Nat := 0x3E

/-- Modelled from the spec: `HCI_EVENT_HDR_SIZE` of `<bluetooth/hci.h>`. -/
def HCI_EVENT_HDR_SIZE : Nat := 2

/-- Modelled from the spec: `HCI_MAX_EVENT_SIZE` of `<bluetooth/hci.h>`, the size of
the read buffers. -/
def HCI_MAX_EVENT_SIZE : Nat := 260

/-- Modelled from the spec: `sizeof(evt_le_meta_event)` (one `subevent` byte followed
by a flexible `data` member), from `<bluetooth/hci.h>`. -/
def EVT_LE_META_EVENT_SIZE : Nat := 1

/-- Modelled from the spec: `sizeof(le_advertising_info)` (`evt_type`, `bdaddr_type`,
six address bytes, `length`, then a flexible `data` member), from `<bluetooth/hci.h>`. -/
def LE_ADVERTISING_INFO_SIZE : Nat := 9

/-- Modelled from the spec: `LE_PUBLIC_ADDRESS` of `<bluetooth/hci.h>`. -/
def LE_PUBLIC_ADDRESS : Nat := 0x00

/-- Modelled from the spec: `LE_RANDOM_ADDRESS` of `<bluetooth/hci.h>`. -/
def LE_RANDOM_ADDRESS : Nat := 0x01

/-- Modelled from the spec: `HCI_OE_USER_ENDED_CONNECTION` of `<bluetooth/hci.h>`. -/
def HCI_OE_USER_ENDED_CONNECTION : Nat := 0x13

/-- Embeds `OW_SCAN_ENABLE` (ow18b.c:13). -/
def OW_SCAN_ENABLE : Nat := 0x01

/-- Embeds `OW_SCAN_DISABLE` (ow18b.c:14). -/
def OW_SCAN_DISABLE : Nat := 0x00

/-- Embeds `OW_SCAN_FILTER_FLAGS_TYPE` (ow18b.c:15). -/
def OW_SCAN_FILTER_FLAGS_TYPE : Nat := 0x01

/-- Embeds `OW_SCAN_FILTER_FLAGS_LIMITED` (ow18b.c:16). -/
def OW_SCAN_FILTER_FLAGS_LIMITED : Nat := 1 <<< 0

/-- Embeds `OW_SCAN_FILTER_FLAGS_GENERAL` (ow18b.c:17). -/
def OW_SCAN_FILTER_FLAGS_GENERAL : Nat := 1 <<< 1

/-- Embeds `OW_SCAN_SHORT_DEVICE_NAME` (ow18b.c:18). -/
def OW_SCAN_SHORT_DEVICE_NAME : Nat := 0x08

/-- Embeds `OW_SCAN_DEVICE_NAME` (ow18b.c:19). -/
def OW_SCAN_DEVICE_NAME : Nat := 0x09

/-- Embeds `OW_SCAN_SUBEVENT_ADVERTISING_INFO` (ow18b.c:20). -/
def OW_SCAN_SUBEVENT_ADVERTISING_INFO : Nat := 0x02

/-- Embeds `OW_SCAN_META_OFFSET` (ow18b.c:23). -/
def OW_SCAN_META_OFFSET : Nat := 1 + HCI_EVENT_HDR_SIZE

/-- Embeds `OW_SCAN_MIN_LENGTH` (ow18b.c:24). -/
def OW_SCAN_MIN_LENGTH : Nat :=
  OW_SCAN_META_OFFSET + EVT_LE_META_EVENT_SIZE + 1 + LE_ADVERTISING_INFO_SIZE

/-- Embeds `OW_MAX_NAME_LENGTH` (ow18b.c:27). -/
def OW_MAX_NAME_LENGTH : Nat := 29

/-- Embeds `OW_DEV_ID_AUTOMATIC` (ow18b.h:12). -/
def OW_DEV_ID_AUTOMATIC : Int := -1

/-- Embeds `OW_SCAN_MODE_NONE` (ow18b.h:16). -/
def OW_SCAN_MODE_NONE : Nat := 0

/-- Embeds `OW_SCAN_MODE_AUTOMATIC` (ow18b.h:17). -/
def OW_SCAN_MODE_AUTOMATIC : Nat := 1

/-- Embeds `OW_SCAN_MODE_MANUAL` (ow18b.h:18). -/
def OW_SCAN_MODE_MANUAL : Nat := 2

/-- Embeds `OW_SCAN_FILTER_TYPE_ALL` (ow18b.h:23). -/
def OW_SCAN_FILTER_TYPE_ALL : Nat := 0

/-- Embeds `OW_SCAN_FILTER_TYPE_LIMITED` (ow18b.h:24). -/
def OW_SCAN_FILTER_TYPE_LIMITED : Nat := 1

/-- Embeds `OW_SCAN_FILTER_TYPE_GENERAL` (ow18b.h:25). -/
def OW_SCAN_FILTER_TYPE_GENERAL : Nat := 2

/-- Embeds `OW_CONNECT_MODE_AUTOMATIC` (ow18b.h:50). -/
def OW_CONNECT_MODE_AUTOMATIC : Nat := 0

/-- Embeds `OW_CONNECT_MODE_MANUAL` (ow18b.h:51). -/
def OW_CONNECT_MODE_MANUAL : Nat := 1

/-- Modelled from the spec: `struct hci_filter` of `<bluetooth/hci.h>`, the capture
filter of a socket: a mask of packet types, a 64-bit mask of events in two words,
and an opcode. -/
structure hci_filter where
  type_mask : Nat
  event_mask0 : Nat
  event_mask1 : Nat
  opcode : Nat
  deriving DecidableEq

/-- Embeds `ow_scan_params` (ow18b.h:28-46). `filter_type` is the integer value of the enum;
`name` holds the bytes of the C string; the member `to` is named `timeout` here. -/
structure ow_scan_params where
  active_scan : Bool
  interval : Nat
  window : Nat
  use_public_addr : Bool
  use_whitelist : Bool
  timeout : Int
  filter_dup : Bool
  filter_type : Nat
  name : List Byte
  deriving DecidableEq

/-- Embeds `ow_connect_params` (ow18b.h:54-69); the member `to` is named `timeout` here. -/
structure ow_connect_params where
  interval : Nat
  window : Nat
  use_whitelist : Bool
  use_peer_public_addr : Bool
  use_own_public_addr : Bool
  min_interval : Nat
  max_interval : Nat
  latency : Nat
  supervision_timeout : Nat
  min_ce_length : Nat
  max_ce_length : Nat
  timeout : Int
  deriving DecidableEq

/-- Embeds `ow_config_t` (ow18b.h:71-93). The two members of the anonymous union are kept
side by side: `addr` is read only in scan mode `NONE`, `scan_params` only in
`MANUAL`. The modes hold the integer value of their enum. -/
structure ow_config_t where
  dev_id : Int
  scan_mode : Nat
  addr : List Byte
  scan_params : ow_scan_params
  connect_mode : Nat
  connect_params : ow_connect_params
  deriving DecidableEq

/-- Embeds `automatic_scan_params` (ow18b.c:46-62); the name is `"BDM"`. -/
def automatic_scan_params : ow_scan_params :=
  { active_scan := true, interval := 16, window := 16, use_public_addr := true,
    use_whitelist := false, timeout := 10000, filter_dup := true,
    filter_type := OW_SCAN_FILTER_TYPE_ALL, name := [66, 68, 77] }

/-- Embeds `automatic_connect_params` (ow18b.c:65-80). -/
def automatic_connect_params : ow_connect_params :=
  { interval := 4, window := 4, use_whitelist := false, use_peer_public_addr := true,
    use_own_public_addr := true, min_interval := 15, max_interval := 15, latency := 0,
    supervision_timeout := 3200, min_ce_length := 1, max_ce_length := 1, timeout := 25000 }

/-- Outcome of one transport call: it succeeds with a result, or it fails and sets
`errno`. -/
inductive Outcome (α : Type) where
  | ok (a : α)
  | fail (errno : Nat)
  deriving DecidableEq

/-- The transport calls `ow_recv` issues, with their arguments. -/
inductive Op where
  | get_route
  | open_dev (dev_id : Int)
  | get_filter (bt_sock : Nat)
  | set_filter (bt_sock : Nat) (filter : hci_filter)
  | le_set_scan_parameters (bt_sock : Nat) (type interval window own_type filter : Nat) (timeout : Int)
  | le_set_scan_enable (bt_sock : Nat) (enable filter_dup : Nat) (timeout : Int)
  | read (bt_sock : Nat)
  | le_create_conn (bt_sock : Nat) (params : ow_connect_params) (addr : List Byte)
  | disconnect (bt_sock : Nat) (handle : Nat) (reason : Nat) (timeout : Int)
  | close_dev (bt_sock : Nat)
  deriving DecidableEq

/-- The outcomes of the transport calls of one run of `ow_recv`. Every call site
other than the two `read`s is executed at most once per run, so it has one field;
the two read loops take their results from a list, in order. -/
structure Script where
  /-- Outcome of `hci_get_route(NULL)`: the adapter id, negative when there is none. -/
  route : Int
  /-- Outcome of `hci_open_dev`: the socket. -/
  open_dev : Outcome Nat
  /-- Outcome of `getsockopt(..., HCI_FILTER, ...)` of `ow_get_hci_filter`. -/
  get_filter : Outcome Unit
  /-- Outcome of `setsockopt` of the event filter in `ow_scan_for_address`. -/
  scan_set_filter : Outcome Unit
  /-- Outcome of `hci_le_set_scan_parameters`. -/
  scan_parameters : Outcome Unit
  /-- Outcome of `hci_le_set_scan_enable(..., OW_SCAN_ENABLE, ...)`. -/
  scan_enable : Outcome Unit
  /-- The results of `read` in the scan loop. -/
  scan_reads : List (Outcome (List Byte))
  /-- Outcome of `hci_le_set_scan_enable(..., OW_SCAN_DISABLE, ...)`. -/
  scan_disable : Outcome Unit
  /-- Outcome of `setsockopt` of the saved filter at `restore_out` in `ow_scan_for_address`. -/
  scan_restore : Outcome Unit
  /-- Outcome of `hci_le_create_conn`: the connection handle. -/
  create_conn : Outcome Nat
  /-- Outcome of `setsockopt` of the ACL-data filter in `ow_recv`. -/
  recv_set_filter : Outcome Unit
  /-- The results of `read` in the receive loop. -/
  recv_reads : List (Outcome (List Byte))
  /-- Outcome of `setsockopt` of the saved filter at `restore_disc_close_out`. -/
  restore : Outcome Unit
  /-- Outcome of `hci_disconnect`. -/
  disconnect : Outcome Unit
  /-- Outcome of `hci_close_dev`. -/
  close_dev : Outcome Unit

/-- The state the transport calls act on: the capture filter in effect on the
adapter's socket, `errno`, and the log of the calls issued so far (oldest first). -/
structure World where
  filter : hci_filter
  errno : Nat
  log : List Op
  deriving DecidableEq

/-- A transport call that changes nothing but `errno` (on failure) and the log. -/
def World.call {α : Type} (w : World) (op : Op) (r : Outcome α) : World :=
  match r with
  | .ok _ => { w with log := w.log ++ [op] }
  | .fail e => { w with log := w.log ++ [op], errno := e }

/-- Embeds `ow_get_default_device_id` (ow18b.c:115-127): the id `hci_get_route` returned,
or failure with `errno = ENODEV`. -/
def ow_get_default_device_id (route : Int) (w : World) : Option Int × World :=
  let w := { w with log := w.log ++ [Op.get_route] }
  if route < 0 then (none, { w with errno := ENODEV }) else (some route, w)

/-- Embeds `ow_open_socket` (ow18b.c:129-133). -/
def ow_open_socket (dev_id : Int) (r : Outcome Nat) (w : World) : Option Nat × World :=
  match r with
  | .ok bt_sock => (some bt_sock, w.call (Op.open_dev dev_id) r)
  | .fail _ => (none, w.call (Op.open_dev dev_id) r)

/-- Embeds `ow_get_hci_filter` (ow18b.c:135-142): on success the filter in effect. -/
def ow_get_hci_filter (bt_sock : Nat) (r : Outcome Unit) (w : World) : Option hci_filter × World :=
  match r with
  | .ok _ => (some w.filter, w.call (Op.get_filter bt_sock) r)
  | .fail _ => (none, w.call (Op.get_filter bt_sock) r)

/-- Embeds `ow_set_hci_filter` (ow18b.c:144-148): a successful `setsockopt` installs the
filter, a failing one leaves the filter in effect unchanged. -/
def ow_set_hci_filter (bt_sock : Nat) (filter : hci_filter) (r : Outcome Unit) (w : World) :
    Bool × World :=
  match r with
  | .ok _ => (true, { w with filter := filter, log := w.log ++ [Op.set_filter bt_sock filter] })
  | .fail e => (false, { w with errno := e, log := w.log ++ [Op.set_filter bt_sock filter] })

/-- Modelled from the spec: the filter built at ow18b.c:254-258 by the BlueZ inline
helpers `hci_filter_clear`, `hci_filter_set_ptype(HCI_EVENT_PKT)` and
`hci_filter_set_event(EVT_LE_META_EVENT)`: events only, LE meta events only. -/
def event_filter : hci_filter :=
  { type_mask := 1 <<< HCI_EVENT_PKT, event_mask0 := 0,
    event_mask1 := 1 <<< (EVT_LE_META_EVENT - 32), opcode := 0 }

/-- Modelled from the spec: the filter built at ow18b.c:570-573 by `hci_filter_clear`
and `hci_filter_set_ptype(HCI_ACLDATA_PKT)`: asynchronous data packets only. -/
def async_filter : hci_filter :=
  { type_mask := 1 <<< HCI_ACLDATA_PKT, event_mask0 := 0, event_mask1 := 0, opcode := 0 }

/-! ## Advertising reports (ow18b.c:150-247) -/

/-- Modelled from the spec: `le_advertising_info` of `<bluetooth/hci.h>`, as it is
laid over the read buffer: event type, address type, the six address bytes, the
declared data length, and the bytes that follow it in the buffer. -/
structure le_advertising_info where
  evt_type : Nat
  bdaddr_type : Nat
  bdaddr : List Byte
  length : Nat
  data : List Byte
  deriving DecidableEq

/-- The `while` loop of `ow_scan_read_flags` (ow18b.c:155-177) from a given `offset`.
The first argument bounds the number of iterations; `none` means the bound was
reached with the loop still running, `some none` is `return false`, and
`some (some flags)` is `return true` with `*flags` written. -/
def ow_scan_read_flags_loop (info : le_advertising_info) : Nat → Nat → Option (Option Nat)
  | 0, offset => if offset < info.length then none else some none
  | fuel + 1, offset =>
    if offset < info.length then
      let length := byteAt info.data offset
      if length = 0 ∨ offset + length ≥ info.length then some none
      else
        let type := byteAt info.data (offset + 1)
        if type = OW_SCAN_FILTER_FLAGS_TYPE ∧ length ≥ 2 then
          some (some (byteAt info.data (offset + 2)))
        else ow_scan_read_flags_loop info fuel (offset + 1 + length)
    else some none

/-- Embeds `ow_scan_read_flags` (ow18b.c:150-180). -/
def ow_scan_read_flags (info : le_advertising_info) : Option (Option Nat) :=
  ow_scan_read_flags_loop info info.length 0

/-- Embeds `ow_scan_filter_matches_info` (ow18b.c:182-205); the returned `flags & ...` is
converted to `bool`, so it is `true` when nonzero. `none` only when the walk of
`ow_scan_read_flags` does not end. -/
def ow_scan_filter_matches_info (filter_type : Nat) (info : le_advertising_info) : Option Bool :=
  if filter_type = OW_SCAN_FILTER_TYPE_ALL then some true
  else
    match ow_scan_read_flags info with
    | none => none
    | some none => some false
    | some (some flags) =>
      if filter_type = OW_SCAN_FILTER_TYPE_LIMITED then
        some ((flags &&& OW_SCAN_FILTER_FLAGS_LIMITED) != 0)
      else if filter_type = OW_SCAN_FILTER_TYPE_GENERAL then
        some ((flags &&& (OW_SCAN_FILTER_FLAGS_LIMITED ||| OW_SCAN_FILTER_FLAGS_GENERAL)) != 0)
      else some false

/-- The `while` loop of `ow_scan_parse_friendly_name` (ow18b.c:212-244) from a given
`offset`, bounded like `ow_scan_read_flags_loop`. On `return true` the result holds
what the code wrote into `name`: the `name_length` bytes that `memcpy` stored,
followed by the terminator of `name[name_length] = 0`. -/
def ow_scan_parse_friendly_name_loop (info : le_advertising_info) :
    Nat → Nat → Option (Option (List Byte))
  | 0, offset => if offset < info.length then none else some none
  | fuel + 1, offset =>
    if offset < info.length then
      let length := byteAt info.data offset
      if length = 0 ∨ offset + length ≥ info.length then some none
      else
        let type := byteAt info.data (offset + 1)
        if (type = OW_SCAN_SHORT_DEVICE_NAME ∨ type = OW_SCAN_DEVICE_NAME)
            ∧ length - 1 ≤ OW_MAX_NAME_LENGTH then
          some (some ((List.range (length - 1)).map (fun i => info.data.getD (offset + 2 + i) 0)
            ++ [0]))
        else ow_scan_parse_friendly_name_loop info fuel (offset + 1 + length)
    else some none

/-- Embeds `ow_scan_parse_friendly_name` (ow18b.c:207-247). -/
def ow_scan_parse_friendly_name (info : le_advertising_info) : Option (Option (List Byte)) :=
  ow_scan_parse_friendly_name_loop info info.length 0

/-- The C string a buffer holds: its bytes before the first zero byte. -/
def cstr (bytes : List Byte) : List Byte := bytes.takeWhile (fun b => b != 0)

/-- The test `strcmp(a, b) == 0` for two buffers that each hold a terminator within or
right after the listed bytes. -/
def strcmp_eq (a b : List Byte) : Bool := cstr a == cstr b

/-! ## The scanner (ow18b.c:249-372) -/

/-- The `le_advertising_info` that ow18b.c:316-325 lays over the read buffer: `meta`
is at `OW_SCAN_META_OFFSET`, `info` one byte after `meta->data`. -/
def info_of_buf (buf : List Byte) : le_advertising_info :=
  let base := OW_SCAN_META_OFFSET + EVT_LE_META_EVENT_SIZE + 1
  { evt_type := byteAt buf base
    bdaddr_type := byteAt buf (base + 1)
    bdaddr := (List.range 6).map (fun i => buf.getD (base + 2 + i) 0)
    length := byteAt buf (base + 8)
    data := buf.drop (base + LE_ADVERTISING_INFO_SIZE) }

/-- The read loop of `ow_scan_for_address` (ow18b.c:282-355). It returns the value
of `error` at `disable_restore_out` (0 after a match) and the content of `*addr`;
`none` when no `read` result is left (the `read` blocks for ever) or a walk of the
report does not end. -/
def ow_scan_loop (bt_sock : Nat) (params : ow_scan_params) :
    List (Outcome (List Byte)) → List Byte → World → Option (Nat × List Byte × World)
  | [], _, _ => none
  | r :: rest, addr, w =>
    let w := w.call (Op.read bt_sock) r
    match r with
    | .fail e =>
      if e = EAGAIN ∨ e = EINTR then ow_scan_loop bt_sock params rest addr w
      else some (e, addr, w)
    | .ok bytes =>
      let buf := bytes.take HCI_MAX_EVENT_SIZE
      let bytes_read := buf.length
      if bytes_read = 0 then some (ENODATA, addr, w)
      else if bytes_read < OW_SCAN_MIN_LENGTH then ow_scan_loop bt_sock params rest addr w
      else if byteAt buf OW_SCAN_META_OFFSET ≠ OW_SCAN_SUBEVENT_ADVERTISING_INFO then
        some (ENODATA, addr, w)
      else
        let info := info_of_buf buf
        if bytes_read < OW_SCAN_MIN_LENGTH + info.length then
          ow_scan_loop bt_sock params rest addr w
        else
          match ow_scan_filter_matches_info params.filter_type info with
          | none => none
          | some false => ow_scan_loop bt_sock params rest addr w
          | some true =>
            match ow_scan_parse_friendly_name info with
            | none => none
            | some none => ow_scan_loop bt_sock params rest addr w
            | some (some name) =>
              if strcmp_eq name params.name then some (0, info.bdaddr, w)
              else ow_scan_loop bt_sock params rest addr w

/-- The label `restore_out` of `ow_scan_for_address` (ow18b.c:361-371). -/
def scan_restore_out (bt_sock : Nat) (old_hci_filter : hci_filter) (t : Script)
    (error : Nat) (addr : List Byte) (w : World) : Bool × List Byte × World :=
  let w := (ow_set_hci_filter bt_sock old_hci_filter t.scan_restore w).2
  if error ≠ 0 then (false, addr, { w with errno := error }) else (true, addr, w)

/-- The label `disable_restore_out` of `ow_scan_for_address` (ow18b.c:357-371). -/
def scan_disable_restore_out (bt_sock : Nat) (params : ow_scan_params)
    (old_hci_filter : hci_filter) (t : Script) (error : Nat) (addr : List Byte) (w : World) :
    Bool × List Byte × World :=
  let w := w.call (Op.le_set_scan_enable bt_sock OW_SCAN_DISABLE
    (if params.filter_dup then 1 else 0) params.timeout) t.scan_disable
  scan_restore_out bt_sock old_hci_filter t error addr w

/-- Embeds `ow_scan_for_address` (ow18b.c:249-372). `addr` is what `*addr` holds on entry;
the result is the returned `bool`, what `*addr` holds on return, and the world. -/
def ow_scan_for_address (bt_sock : Nat) (params : ow_scan_params) (old_hci_filter : hci_filter)
    (addr : List Byte) (t : Script) (w : World) : Option (Bool × List Byte × World) :=
  match ow_set_hci_filter bt_sock event_filter t.scan_set_filter w with
  | (false, w) => some (false, addr, w)
  | (true, w) =>
    let w := w.call (Op.le_set_scan_parameters bt_sock (if params.active_scan then 1 else 0)
      params.interval params.window
      (if params.use_public_addr then LE_PUBLIC_ADDRESS else LE_RANDOM_ADDRESS)
      (if params.use_whitelist then 1 else 0) params.timeout) t.scan_parameters
    match t.scan_parameters with
    | .fail _ => some (scan_restore_out bt_sock old_hci_filter t w.errno addr w)
    | .ok _ =>
      let w := w.call (Op.le_set_scan_enable bt_sock OW_SCAN_ENABLE
        (if params.filter_dup then 1 else 0) params.timeout) t.scan_enable
      match t.scan_enable with
      | .fail _ => some (scan_restore_out bt_sock old_hci_filter t w.errno addr w)
      | .ok _ =>
        match ow_scan_loop bt_sock params t.scan_reads addr w with
        | none => none
        | some (error, addr, w) =>
          some (scan_disable_restore_out bt_sock params old_hci_filter t error addr w)

/-- Embeds `ow_connect` (ow18b.c:374-377): on success the handle that `hci_le_create_conn`
stored in the `uint16_t` `*hci_handle`. -/
def ow_connect (bt_sock : Nat) (addr : List Byte) (params : ow_connect_params)
    (r : Outcome Nat) (w : World) : Option Nat × World :=
  match r with
  | .ok handle => (some (handle % 65536), w.call (Op.le_create_conn bt_sock params addr) r)
  | .fail _ => (none, w.call (Op.le_create_conn bt_sock params addr) r)

/-! ## The session: `ow_recv` (ow18b.c:466-760) -/

/-- The label `close_out` of `ow_recv` (ow18b.c:747-759). -/
def close_out (t : Script) (bt_sock : Nat) (error : Nat) (w : World) : Bool × World :=
  let w := w.call (Op.close_dev bt_sock) t.close_dev
  if error = 0 then (true, w) else (false, { w with errno := error })

/-- The label `disc_close_out` of `ow_recv` (ow18b.c:743-759). -/
def disc_close_out (t : Script) (bt_sock hci_handle : Nat) (error : Nat) (w : World) :
    Bool × World :=
  let w := w.call (Op.disconnect bt_sock hci_handle HCI_OE_USER_ENDED_CONNECTION 10000)
    t.disconnect
  close_out t bt_sock error w

/-- The label `restore_disc_close_out` of `ow_recv` (ow18b.c:739-759). -/
def restore_disc_close_out (t : Script) (bt_sock hci_handle : Nat) (old_hci_filter : hci_filter)
    (error : Nat) (w : World) : Bool × World :=
  let w := (ow_set_hci_filter bt_sock old_hci_filter t.restore w).2
  disc_close_out t bt_sock hci_handle error w

/-- The `do ... while (shall_continue)` loop of `ow_recv` (ow18b.c:585-734). The
callback acts on its context `σ`. The result is the value of `error` at
`restore_disc_close_out` (0 when the callback returned `false`), the context and the
world; `none` when no `read` result is left, that is when the `read` blocks for
ever. `sample` is the content of the variable `sample`, declared before the loop. -/
def ow_recv_loop {σ : Type} (callback : ow_sample_t → σ → Bool × σ) (bt_sock hci_handle : Nat) :
    List (Outcome (List Byte)) → ow_sample_t → σ → World → Option (Nat × σ × World)
  | [], _, _, _ => none
  | r :: rest, sample, context, w =>
    let w := w.call (Op.read bt_sock) r
    match r with
    | .fail e =>
      if e = EAGAIN ∨ e = EINTR then ow_recv_loop callback bt_sock hci_handle rest sample context w
      else some (e, context, w)
    | .ok bytes =>
      let buf := bytes.take HCI_MAX_EVENT_SIZE
      if buf.length = 0 then some (ENODATA, context, w)
      else if validate hci_handle buf = false then
        ow_recv_loop callback bt_sock hci_handle rest sample context w
      else
        let sample := decode sample buf
        match callback sample context with
        | (true, context) => ow_recv_loop callback bt_sock hci_handle rest sample context w
        | (false, context) => some (0, context, w)

/-- The part of `ow_recv` from ow18b.c:569 on: install the ACL-data filter, run the receive
loop, tear down. -/
def ow_recv_receive {σ : Type} (callback : ow_sample_t → σ → Bool × σ) (context : σ)
    (sample : ow_sample_t) (bt_sock hci_handle : Nat) (old_hci_filter : hci_filter)
    (t : Script) (w : World) : Option (Bool × σ × World) :=
  match ow_set_hci_filter bt_sock async_filter t.recv_set_filter w with
  | (false, w) =>
    let r := disc_close_out t bt_sock hci_handle w.errno w
    some (r.1, context, r.2)
  | (true, w) =>
    match ow_recv_loop callback bt_sock hci_handle t.recv_reads sample context w with
    | none => none
    | some (error, context, w) =>
      let r := restore_disc_close_out t bt_sock hci_handle old_hci_filter error w
      some (r.1, context, r.2)

/-- The part of `ow_recv` from ow18b.c:538 on: the `switch (config->connect_mode)`, then the
rest. -/
def ow_recv_connect {σ : Type} (config : ow_config_t) (callback : ow_sample_t → σ → Bool × σ)
    (context : σ) (sample : ow_sample_t) (bt_sock : Nat) (old_hci_filter : hci_filter)
    (addr : List Byte) (t : Script) (w : World) : Option (Bool × σ × World) :=
  if config.connect_mode = OW_CONNECT_MODE_AUTOMATIC then
    match ow_connect bt_sock addr automatic_connect_params t.create_conn w with
    | (none, w) => let r := close_out t bt_sock w.errno w; some (r.1, context, r.2)
    | (some hci_handle, w) =>
      ow_recv_receive callback context sample bt_sock hci_handle old_hci_filter t w
  else if config.connect_mode = OW_CONNECT_MODE_MANUAL then
    match ow_connect bt_sock addr config.connect_params t.create_conn w with
    | (none, w) => let r := close_out t bt_sock w.errno w; some (r.1, context, r.2)
    | (some hci_handle, w) =>
      ow_recv_receive callback context sample bt_sock hci_handle old_hci_filter t w
  else
    let r := close_out t bt_sock EINVAL w
    some (r.1, context, r.2)

/-- The part of `ow_recv` from ow18b.c:502 on: the `switch (config->scan_mode)`, then the rest.
`addr` is the content of the local `addr` before the switch. -/
def ow_recv_scan {σ : Type} (config : ow_config_t) (callback : ow_sample_t → σ → Bool × σ)
    (context : σ) (sample : ow_sample_t) (bt_sock : Nat) (old_hci_filter : hci_filter)
    (addr : List Byte) (t : Script) (w : World) : Option (Bool × σ × World) :=
  if config.scan_mode = OW_SCAN_MODE_NONE then
    ow_recv_connect config callback context sample bt_sock old_hci_filter config.addr t w
  else if config.scan_mode = OW_SCAN_MODE_AUTOMATIC then
    match ow_scan_for_address bt_sock automatic_scan_params old_hci_filter addr t w with
    | none => none
    | some (false, _, w) => let r := close_out t bt_sock w.errno w; some (r.1, context, r.2)
    | some (true, addr, w) =>
      ow_recv_connect config callback context sample bt_sock old_hci_filter addr t w
  else if config.scan_mode = OW_SCAN_MODE_MANUAL then
    match ow_scan_for_address bt_sock config.scan_params old_hci_filter addr t w with
    | none => none
    | some (false, _, w) => let r := close_out t bt_sock w.errno w; some (r.1, context, r.2)
    | some (true, addr, w) =>
      ow_recv_connect config callback context sample bt_sock old_hci_filter addr t w
  else
    let r := close_out t bt_sock EINVAL w
    some (r.1, context, r.2)

/-- Embeds `ow_recv` (ow18b.c:466-760). `sample` and `addr` are the indeterminate contents
of the uninitialised locals `sample` and `addr`. The result is the returned `bool`,
the callback's context and the world at return; `none` when a `read` blocks for
ever. -/
def ow_recv {σ : Type} (config : ow_config_t) (callback : ow_sample_t → σ → Bool × σ)
    (context : σ) (sample : ow_sample_t) (addr : List Byte) (t : Script) (w : World) :
    Option (Bool × σ × World) :=
  match (if config.dev_id = OW_DEV_ID_AUTOMATIC then ow_get_default_device_id t.route w
         else (some config.dev_id, w)) with
  | (none, w) => some (false, context, w)
  | (some dev_id, w) =>
    match ow_open_socket dev_id t.open_dev w with
    | (none, w) => some (false, context, w)
    | (some bt_sock, w) =>
      match ow_get_hci_filter bt_sock t.get_filter w with
      | (none, w) => let r := close_out t bt_sock w.errno w; some (r.1, context, r.2)
      | (some old_hci_filter, w) =>
        ow_recv_scan config callback context sample bt_sock old_hci_filter addr t w

/-! ## The bounded variant: `ow_recv_n` (ow18b.c:379-389, 762-774) -/

/-- Embeds `ow_recv_n_context_t` (ow18b.c:38-43). The destination array `samples` is
represented by the cells written so far: index and stored sample, in the order of
the writes. -/
structure ow_recv_n_context_t where
  samples : List (Int × ow_sample_t)
  n : Int
  count : Int
  deriving DecidableEq

/-- Embeds `ow_recv_n_sample` (ow18b.c:379-389): `samples[count++] = sample`, then
`return count < n`. -/
def ow_recv_n_sample (sample : ow_sample_t) (context : ow_recv_n_context_t) :
    Bool × ow_recv_n_context_t :=
  let context :=
    { context with samples := context.samples ++ [(context.count, sample)]
                   count := context.count + 1 }
  (decide (context.count < context.n), context)

/-- Embeds `ow_recv_n` (ow18b.c:762-774): the returned `bool`, the context at return (with
the cells of `samples` that were written) and the world. -/
def ow_recv_n (config : ow_config_t) (n : Int) (sample : ow_sample_t) (addr : List Byte)
    (t : Script) (w : World) : Option (Bool × ow_recv_n_context_t × World) :=
  ow_recv config ow_recv_n_sample { samples := [], n := n, count := 0 } sample addr t w

/-! ## Well-formed outcomes, and the reference for `ow_recv_n` -/

/-- A failing call sets `errno` to an error number, which is never 0. -/
def Outcome.sets_errno {α : Type} : Outcome α → Bool
  | .ok _ => true
  | .fail e => e != 0

/-- Every call of the script that can fail before the teardown sets a nonzero
`errno` when it fails. Nothing is asked of the teardown calls (scan disable, the two
restores, disconnect, close): the code never reads their result. -/
def Script.sets_errno (t : Script) : Bool :=
  t.open_dev.sets_errno && t.get_filter.sets_errno && t.scan_set_filter.sets_errno
    && t.scan_parameters.sets_errno && t.scan_enable.sets_errno
    && t.scan_reads.all Outcome.sets_errno && t.create_conn.sets_errno
    && t.recv_set_filter.sets_errno && t.recv_reads.all Outcome.sets_errno

/-- Reference, in the words of the claim: the accepted notification frames of a
stream of read results, in arrival order; failed reads and rejected frames
contribute nothing. -/
def accepted (hci_handle : Nat) : List (Outcome (List Byte)) → List (List Byte)
  | [] => []
  | .ok bytes :: rest =>
    if validate hci_handle bytes = true then bytes :: accepted hci_handle rest
    else accepted hci_handle rest
  | .fail _ :: rest => accepted hci_handle rest

/-- Reference: the samples the accepted frames decode to, one after the other, from
the content `sample` of the loop's variable before the first of them. -/
def decodeAll (sample : ow_sample_t) : List (List Byte) → List ow_sample_t
  | [] => []
  | buf :: rest => decode sample buf :: decodeAll (decode sample buf) rest

/-- Reference: samples stored at consecutive indices from `start` on. -/
def stored (start : Int) : List ow_sample_t → List (Int × ow_sample_t)
  | [] => []
  | d :: ds => (start, d) :: stored (start + 1) ds

/-! ## References for the claims about the reports and the scanner -/

/-- Reference, in the words of the claim: the structure at offset `o` of a report of
declared length `n` is valid iff its length byte `l` is not 0 and `o + 1 + l ≤ n`. -/
def tlv_valid (data : List Byte) (n o : Nat) : Bool :=
  decide (byteAt data o ≠ 0 ∧ o + 1 + byteAt data o ≤ n)

/-- Reference: the offsets of the structures the walk visits from offset `o` on: the
structure at `o` when `o < n` and it is valid, then the walk from `o + 1 + l`; the
walk stops at the first invalid structure or at `o ≥ n`. The first argument bounds the
number of structures. -/
def tlv_walk (data : List Byte) (n : Nat) : Nat → Nat → List Nat
  | 0, _ => []
  | fuel + 1, o =>
    if o < n ∧ tlv_valid data n o = true then
      o :: tlv_walk data n fuel (o + 1 + byteAt data o)
    else []

/-- Reference: the offsets of the valid structures of a report, from offset 0. -/
def tlv_structs (info : le_advertising_info) : List Nat :=
  tlv_walk info.data info.length info.length 0

/-- Reference: the flags of a report: the byte at `o + 2` of the first valid structure
whose type byte is `0x01` and whose length byte is at least 2. -/
def flags_ref (info : le_advertising_info) : Option Nat :=
  ((tlv_structs info).find?
      (fun o => decide (byteAt info.data (o + 1) = 0x01 ∧ byteAt info.data o ≥ 2))).map
    (fun o => byteAt info.data (o + 2))

/-- Reference: the name of a report: the `l - 1` bytes at `o + 2 .. o + l` of the first
valid structure whose type byte is `0x08` or `0x09` and whose name length `l - 1` is at
most 29, followed by a zero terminator. -/
def name_ref (info : le_advertising_info) : Option (List Byte) :=
  ((tlv_structs info).find?
      (fun o => decide ((byteAt info.data (o + 1) = 0x08 ∨ byteAt info.data (o + 1) = 0x09)
        ∧ byteAt info.data o - 1 ≤ 29))).map
    (fun o => (info.data.drop (o + 2)).take (byteAt info.data o - 1) ++ [0])

/-- Reference: the advertising filter on the decoded flags (`none`: no flags byte was
decoded). -/
def filter_ref (filter_type : Nat) (flags : Option Nat) : Bool :=
  match flags with
  | none => decide (filter_type = 0)
  | some f =>
    decide (filter_type = 0) || (decide (filter_type = 1) && f.testBit 0)
      || (decide (filter_type = 2) && (f.testBit 0 || f.testBit 1))

/-- The loop of `ow_scan_read_flags` (ow18b.c:155-177) once more, this time with the
list of the indices of `info->data` it reads, in order, next to its result. -/
def ow_scan_read_flags_traced (info : le_advertising_info) :
    Nat → Nat → List Nat × Option (Option Nat)
  | 0, offset => if offset < info.length then ([], none) else ([], some none)
  | fuel + 1, offset =>
    if offset < info.length then
      let length := byteAt info.data offset
      if length = 0 ∨ offset + length ≥ info.length then ([offset], some none)
      else
        let type := byteAt info.data (offset + 1)
        if type = OW_SCAN_FILTER_FLAGS_TYPE ∧ length ≥ 2 then
          ([offset, offset + 1, offset + 2], some (some (byteAt info.data (offset + 2))))
        else
          let r := ow_scan_read_flags_traced info fuel (offset + 1 + length)
          (offset :: (offset + 1) :: r.1, r.2)
    else ([], some none)

/-- The loop of `ow_scan_parse_friendly_name` (ow18b.c:212-244) once more, with the
list of the indices of `info->data` it reads (the length byte, the type byte, and the
bytes `memcpy` copies) next to its result. -/
def ow_scan_parse_friendly_name_traced (info : le_advertising_info) :
    Nat → Nat → List Nat × Option (Option (List Byte))
  | 0, offset => if offset < info.length then ([], none) else ([], some none)
  | fuel + 1, offset =>
    if offset < info.length then
      let length := byteAt info.data offset
      if length = 0 ∨ offset + length ≥ info.length then ([offset], some none)
      else
        let type := byteAt info.data (offset + 1)
        if (type = OW_SCAN_SHORT_DEVICE_NAME ∨ type = OW_SCAN_DEVICE_NAME)
            ∧ length - 1 ≤ OW_MAX_NAME_LENGTH then
          (offset :: (offset + 1) :: (List.range (length - 1)).map (fun i => offset + 2 + i),
           some (some ((List.range (length - 1)).map (fun i => info.data.getD (offset + 2 + i) 0)
            ++ [0])))
        else
          let r := ow_scan_parse_friendly_name_traced info fuel (offset + 1 + length)
          (offset :: (offset + 1) :: r.1, r.2)
    else ([], some none)

/-- How the scan loop can end: with a fatal error, or with the address of the
device. -/
inductive ScanEnd where
  | fatal (error : Nat)
  | found (addr : List Byte)
  deriving DecidableEq

/-- Reference, in the words of the claim: what one read result does to the scan.
`none`: the read is skipped. A transient error is skipped, another error `e` is fatal
with `e`, a zero-byte read is fatal with `ENODATA`, a frame shorter than 14 bytes is
skipped, a longer frame whose byte 3 is not `0x02` is fatal with `ENODATA`, a frame
whose declared data length (byte 13) exceeds `bytes_read - 14` is skipped, a frame
that fails the filter, has no name, or another name than the target is skipped, and
any other frame ends the scan with its address bytes 7-12. -/
def scan_step (params : ow_scan_params) (r : Outcome (List Byte)) : Option ScanEnd :=
  match r with
  | .fail e => if e = EAGAIN ∨ e = EINTR then none else some (.fatal e)
  | .ok bytes =>
    let buf := bytes.take HCI_MAX_EVENT_SIZE
    if buf.length = 0 then some (.fatal ENODATA)
    else if buf.length < 14 then none
    else if byteAt buf 3 ≠ 0x02 then some (.fatal ENODATA)
    else if byteAt buf 13 > buf.length - 14 then none
    else if filter_ref params.filter_type (flags_ref (info_of_buf buf)) = false then none
    else
      match name_ref (info_of_buf buf) with
      | none => none
      | some name =>
        if cstr name = cstr params.name then some (.found ((buf.drop 7).take 6)) else none

/-- Reference: the first read of a stream that is not skipped, with the number of
reads up to and including it; `none` when every read is skipped. -/
def scan_verdict (params : ow_scan_params) : List (Outcome (List Byte)) → Option (ScanEnd × Nat)
  | [] => none
  | r :: rest =>
    match scan_step params r with
    | none => (scan_verdict params rest).map (fun p => (p.1, p.2 + 1))
    | some e => some (e, 1)

/-- The value of `error` a scan ends with. -/
def ScanEnd.error : ScanEnd → Nat
  | .fatal e => e
  | .found _ => 0

/-- The content of `*addr` a scan ends with, from its content `addr` before. -/
def ScanEnd.addr (addr : List Byte) : ScanEnd → List Byte
  | .fatal _ => addr
  | .found a => a

/-! ## References for the claims about the receive loop and the session -/

/-- Reference: a read result that ends the receive loop by itself: a zero-byte read,
or an error other than `EAGAIN` and `EINTR`. -/
def is_fatal (r : Outcome (List Byte)) : Bool :=
  match r with
  | .fail e => !decide (e = EAGAIN ∨ e = EINTR)
  | .ok bytes => bytes.isEmpty

/-- Reference: the error code of a read result that ends the loop. -/
def fatal_code (r : Outcome (List Byte)) : Nat :=
  match r with
  | .fail e => e
  | .ok _ => ENODATA

/-- Reference: the reads of a stream before the first one that ends the loop. -/
def live (reads : List (Outcome (List Byte))) : List (Outcome (List Byte)) :=
  reads.takeWhile (fun r => !is_fatal r)

/-- Reference: the callback is invoked on the samples in order, once each, up to and
including the first invocation that returns `false`. The result is the number of
invocations, the context after them, and whether the last one returned `false`. -/
def feed {σ : Type} (callback : ow_sample_t → σ → Bool × σ) :
    List ow_sample_t → σ → Nat × σ × Bool
  | [], context => (0, context, false)
  | s :: rest, context =>
    if (callback s context).1 = true then
      ((feed callback rest (callback s context).2).1 + 1,
       (feed callback rest (callback s context).2).2)
    else (1, (callback s context).2, true)

/-- Reference: the length of the shortest prefix of a stream that holds `j` accepted
frames (the whole stream when it has fewer). -/
def reads_for (hci_handle : Nat) : Nat → List (Outcome (List Byte)) → Nat
  | 0, _ => 0
  | _ + 1, [] => 0
  | j + 1, r :: rest =>
    if (accepted hci_handle [r]).length = 1 then reads_for hci_handle j rest + 1
    else reads_for hci_handle (j + 1) rest + 1

/-- Reference: how the receive loop ends. `none`: it never ends. `some none`: the
callback returned `false`. `some (some e)`: a read ended it with the code `e`. -/
def loop_failure {σ : Type} (callback : ow_sample_t → σ → Bool × σ) (hci_handle : Nat)
    (reads : List (Outcome (List Byte))) (sample : ow_sample_t) (context : σ) :
    Option (Option Nat) :=
  if (feed callback (decodeAll sample (accepted hci_handle (live reads))) context).2.2 = true then
    some none
  else
    match reads.drop (live reads).length with
    | [] => none
    | r :: _ => some (some (fatal_code r))

/-- Reference: how a scan ends, from the outcomes of its calls alone; the outcomes of
the scan-disable and of the restore are not looked at. `some none`: a match. -/
def scan_failure (params : ow_scan_params) (t : Script) : Option (Option Nat) :=
  match t.scan_set_filter with
  | .fail e => some (some e)
  | .ok _ =>
    match t.scan_parameters with
    | .fail e => some (some e)
    | .ok _ =>
      match t.scan_enable with
      | .fail e => some (some e)
      | .ok _ =>
        match scan_verdict params t.scan_reads with
        | none => none
        | some (.fatal e, _) => some (some e)
        | some (.found _, _) => some none

/-- Reference: the first failing step of a session and its error code, from the
configuration and the outcomes of the calls before the teardown; the outcomes of the
teardown calls are not looked at. `none`: the session never ends. `some none`: no step
fails and the callback ends the receive loop. `some (some e)`: the first failing step
has the code `e`. -/
def session_failure {σ : Type} (config : ow_config_t) (callback : ow_sample_t → σ → Bool × σ)
    (context : σ) (sample : ow_sample_t) (t : Script) : Option (Option Nat) :=
  if config.dev_id = OW_DEV_ID_AUTOMATIC ∧ t.route < 0 then some (some ENODEV)
  else
    match t.open_dev with
    | .fail e => some (some e)
    | .ok _ =>
      match t.get_filter with
      | .fail e => some (some e)
      | .ok _ =>
        match (if config.scan_mode = OW_SCAN_MODE_NONE then some none
               else if config.scan_mode = OW_SCAN_MODE_AUTOMATIC then
                 scan_failure automatic_scan_params t
               else if config.scan_mode = OW_SCAN_MODE_MANUAL then
                 scan_failure config.scan_params t
               else some (some EINVAL)) with
        | none => none
        | some (some e) => some (some e)
        | some none =>
          if config.connect_mode = OW_CONNECT_MODE_AUTOMATIC
              ∨ config.connect_mode = OW_CONNECT_MODE_MANUAL then
            match t.create_conn with
            | .fail e => some (some e)
            | .ok handle =>
              match t.recv_set_filter with
              | .fail e => some (some e)
              | .ok _ => loop_failure callback (handle % 65536) t.recv_reads sample context
          else some (some EINVAL)

/-- Classifier of the log: a `hci_open_dev`. -/
def Op.is_open : Op → Bool
  | .open_dev _ => true
  | _ => false

/-- Classifier of the log: a `hci_le_create_conn`. -/
def Op.is_create_conn : Op → Bool
  | .le_create_conn _ _ _ => true
  | _ => false

/-- Classifier of the log: a `hci_disconnect`. -/
def Op.is_disconnect : Op → Bool
  | .disconnect _ _ _ _ => true
  | _ => false

/-- Classifier of the log: a `hci_close_dev`. -/
def Op.is_close : Op → Bool
  | .close_dev _ => true
  | _ => false

/-- Classifier of the log: a `hci_le_set_scan_parameters` or `hci_le_set_scan_enable`. -/
def Op.is_scan_command : Op → Bool
  | .le_set_scan_parameters _ _ _ _ _ _ _ => true
  | .le_set_scan_enable _ _ _ _ => true
  | _ => false

/-- Classifier of the log: a `setsockopt` of a capture filter. -/
def Op.is_set_filter : Op → Bool
  | .set_filter _ _ => true
  | _ => false

/-- The content of the `sample` variable after the accepted frames `frames`, from its
content `sample` before them. -/
def sample_after (sample : ow_sample_t) (frames : List (List Byte)) : ow_sample_t :=
  frames.foldl decode sample

/-! ## Concrete inputs used by the witnesses -/

/-- An 18-byte handle-value notification as the multimeter sends it: ACL header with
the given handle word, L2CAP header, ATT opcode and handle, then the six payload
bytes (unit word, status byte, one unused byte, value word). -/
def notification (handle_word unit_places flags pad value_sign : Nat) : List Byte :=
  [0x02, Fin.ofNat (handle_word % 256), Fin.ofNat (handle_word / 256), 0x0D, 0x00, 0x09, 0x00,
   0x04, 0x00, 0x1B, 0x1B, 0x00, Fin.ofNat (unit_places % 256), Fin.ofNat (unit_places / 256),
   Fin.ofNat flags, Fin.ofNat pad, Fin.ofNat (value_sign % 256), Fin.ofNat (value_sign / 256)]

/-- Some content of the `sample` variable before the first frame. -/
def sample0 : ow_sample_t :=
  { unit := OW_UNIT_UNKNOWN, current_type := OW_CURRENT_TYPE_DC, value := none,
    is_continuity_test := false, is_diode_test := false, is_data_hold := false,
    is_relative := false, is_auto_range := false, is_low_battery := false }

/-- A world before the call: some filter in effect, nothing logged. -/
def world0 : World :=
  { filter := { type_mask := 0x10, event_mask0 := 0xFFFFFFFF, event_mask1 := 0xFFFFFFFF,
                opcode := 0 },
    errno := 0, log := [] }

/-- A configuration with an explicit address and the automatic connect parameters. -/
def config0 : ow_config_t :=
  { dev_id := 0, scan_mode := OW_SCAN_MODE_NONE, addr := [0x11, 0x22, 0x33, 0x44, 0x55, 0x66],
    scan_params := automatic_scan_params, connect_mode := OW_CONNECT_MODE_AUTOMATIC,
    connect_params := automatic_connect_params }

/-- A run in which every transport call succeeds: socket 3, connection handle
`0x040`, and the given results of `read` in the scan loop and in the receive loop. -/
def script_ok (scan_reads recv_reads : List (Outcome (List Byte))) : Script :=
  { route := 0, open_dev := .ok 3, get_filter := .ok (), scan_set_filter := .ok (),
    scan_parameters := .ok (), scan_enable := .ok (), scan_reads := scan_reads,
    scan_disable := .ok (), scan_restore := .ok (), create_conn := .ok 0x40,
    recv_set_filter := .ok (), recv_reads := recv_reads, restore := .ok (),
    disconnect := .ok (), close_dev := .ok () }

/-- A stream of seven reads: five notifications of the connection `0x040`
(1800 V, 1.8 V, -1800 V, 12.34 kOhm, 500 mV AC), with two unrelated frames among
them (a notification of connection `0x041`, and an HCI event). -/
def stream7 : List (Outcome (List Byte)) :=
  [.ok (notification 0x2040 0xF020 0 0 0x0708),
   .ok (notification 0x2041 0xF020 0 0 0x0001),
   .ok (notification 0x2040 0xF023 0 0 0x0708),
   .ok (notification 0x2040 0xF020 0 0 0x8708),
   .ok [0x04, 0x3E, 0x02, 0x02, 0x00],
   .ok (notification 0x2040 0xF12A 0 0 0x04D2),
   .ok (notification 0x2040 0xF058 0 0 0x01F4)]

/-- An LE advertising report event as `read` delivers it in the scan loop: packet
type, event code, parameter length, subevent `0x02`, one report, event type, address
type, the address `66:55:44:33:22:11`, data length 8, a flags structure
(`02 01 06`), a complete-name structure with the name `"BDM"` (`04 09 42 44 4D`),
and the RSSI byte. -/
def adv_bdm : List Byte :=
  [0x04, 0x3E, 0x14, 0x02, 0x01, 0x00, 0x00, 0x11, 0x22, 0x33, 0x44, 0x55, 0x66, 0x08,
   0x02, 0x01, 0x06, 0x04, 0x09, 0x42, 0x44, 0x4D, 0xC0]

/-- A configuration that asks for the default adapter and an automatic scan. -/
def config_auto : ow_config_t :=
  { dev_id := OW_DEV_ID_AUTOMATIC, scan_mode := OW_SCAN_MODE_AUTOMATIC, addr := [],
    scan_params := automatic_scan_params, connect_mode := OW_CONNECT_MODE_AUTOMATIC,
    connect_params := automatic_connect_params }

/-- A report with the given data bytes and the matching declared length, from the
address `66:55:44:33:22:11`. -/
def report (data : List Byte) : le_advertising_info :=
  { evt_type := 0, bdaddr_type := 0, bdaddr := [0x11, 0x22, 0x33, 0x44, 0x55, 0x66],
    length := data.length, data := data }

/-- A report whose first name structure is too long (30 name bytes) and whose second
one holds the short name `"OW"`. -/
def report_long_name : le_advertising_info :=
  report ([0x1F, 0x09] ++ List.replicate 30 0x41 ++ [0x03, 0x08, 0x4F, 0x57])

/-- The report of `adv_bdm` with the name in lower case, `"bdm"`. -/
def adv_lower : List Byte :=
  [0x04, 0x3E, 0x14, 0x02, 0x01, 0x00, 0x00, 0x11, 0x22, 0x33, 0x44, 0x55, 0x66, 0x08,
   0x02, 0x01, 0x06, 0x04, 0x09, 0x62, 0x64, 0x6D, 0xC0]

/-- An LE meta event of 14 bytes whose subevent (byte 3) is `0x01`, a connection
complete event, not an advertising report. -/
def evt_other : List Byte :=
  [0x04, 0x3E, 0x0B, 0x01, 0x00, 0x40, 0x00, 0x00, 0x00, 0x11, 0x22, 0x33, 0x44, 0x55]

/-- The `hci_le_set_scan_parameters` call of ow18b.c:268, as it is logged. -/
def op_scan_parameters (bt_sock : Nat) (params : ow_scan_params) : Op :=
  Op.le_set_scan_parameters bt_sock (if params.active_scan then 1 else 0)
    params.interval params.window
    (if params.use_public_addr then LE_PUBLIC_ADDRESS else LE_RANDOM_ADDRESS)
    (if params.use_whitelist then 1 else 0) params.timeout

/-- The `hci_le_set_scan_enable` calls of ow18b.c:275 and 359, as they are logged. -/
def op_scan_enable (bt_sock : Nat) (params : ow_scan_params) (enable : Nat) : Op :=
  Op.le_set_scan_enable bt_sock enable (if params.filter_dup then 1 else 0) params.timeout

/-- A stream for the scan loop: a transient error, a 5-byte frame, a report with the
name `"bdm"`, the report of `adv_bdm`, and a further frame that is never read. -/
def scan_stream : List (Outcome (List Byte)) :=
  [.fail EAGAIN, .ok [0x04, 0x3E, 0x02, 0x01, 0x00], .ok adv_lower, .ok adv_bdm, .ok evt_other]

/-- A callback that records the unit of every sample it is given and asks to stop
(returns `false`) at its `k`-th invocation. -/
def record_until (k : Nat) (sample : ow_sample_t) (seen : List ow_unit_t) :
    Bool × List ow_unit_t :=
  (decide ((seen ++ [sample.unit]).length < k), seen ++ [sample.unit])

/-! ## References for the verdict and the operations of a session -/

/-- What a caller sees of a result of `ow_recv`: the returned `bool`, and the error
code in `errno` when it is `false` (0 stands for "none" when it is `true`). -/
def returned {σ : Type} (r : Bool × σ × World) : Bool × Nat :=
  (r.1, if r.1 = true then 0 else r.2.2.errno)

/-- What a caller is to see for a verdict of the reference: `true` when no step
fails, `false` and the code of the failing step otherwise. -/
def reported (v : Option Nat) : Bool × Nat :=
  match v with
  | none => (true, 0)
  | some e => (false, e)

/-- Whether a call succeeded. -/
def Outcome.is_ok {α : Type} : Outcome α → Bool
  | .ok _ => true
  | .fail _ => false

/-- An operation that neither opens nor closes the socket and neither creates nor
ends a connection. -/
def Op.quiet (op : Op) : Bool :=
  !(op.is_open || op.is_create_conn || op.is_disconnect || op.is_close)

/-- The socket a trace of operations has opened: the one `hci_open_dev` returned, when
it was called and succeeded. -/
def sock_ref (t : Script) (body : List Op) : Option Nat :=
  if body.any Op.is_open = true then
    match t.open_dev with
    | .ok bt_sock => some bt_sock
    | .fail _ => none
  else none

/-- The connection a trace of operations has created: the handle
`hci_le_create_conn` returned (16 bits), when it was called and succeeded. -/
def conn_ref (t : Script) (body : List Op) : Option Nat :=
  if body.any Op.is_create_conn = true then
    match t.create_conn with
    | .ok handle => some (handle % 65536)
    | .fail _ => none
  else none

/-- The teardown on a socket: the restore of the saved filter when the receive filter
was installed, then the disconnect when there is a connection, then the close. -/
def teardown_from (bt_sock : Nat) (old : hci_filter) (conn : Option Nat) (installed : Bool) :
    List Op :=
  (if installed = true then [Op.set_filter bt_sock old] else [])
    ++ (match conn with
        | some hci_handle =>
          [Op.disconnect bt_sock hci_handle HCI_OE_USER_ENDED_CONNECTION 10000]
        | none => [])
    ++ [Op.close_dev bt_sock]

/-- The teardown that is to follow a trace of operations: nothing when no socket was
opened; the receive filter is installed when the connection was created and the
install succeeded. -/
def teardown_ref (t : Script) (old : hci_filter) (body : List Op) : List Op :=
  match sock_ref t body with
  | none => []
  | some bt_sock =>
    teardown_from bt_sock old (conn_ref t body)
      ((conn_ref t body).isSome && t.recv_set_filter.is_ok)

/-! ## The TLV walks with the values of `offset` recorded -/

/-- Embeds `ow_scan_read_flags` as `ow_scan_read_flags_loop` does, and records the
value of `offset` at every evaluation of the loop condition `offset < info->length`.
An iteration of the loop body runs for each recorded value below `info->length`. -/
def ow_scan_read_flags_offsets (info : le_advertising_info) :
    Nat → Nat → List Nat × Option (Option Nat)
  | 0, offset => if offset < info.length then ([offset], none) else ([offset], some none)
  | fuel + 1, offset =>
    if offset < info.length then
      let length := byteAt info.data offset
      if length = 0 ∨ offset + length ≥ info.length then ([offset], some none)
      else
        let type := byteAt info.data (offset + 1)
        if type = OW_SCAN_FILTER_FLAGS_TYPE ∧ length ≥ 2 then
          ([offset], some (some (byteAt info.data (offset + 2))))
        else
          let r := ow_scan_read_flags_offsets info fuel (offset + 1 + length)
          (offset :: r.1, r.2)
    else ([offset], some none)

/-- Embeds `ow_scan_parse_friendly_name` as `ow_scan_parse_friendly_name_loop` does,
and records the value of `offset` at every evaluation of the loop condition. -/
def ow_scan_parse_friendly_name_offsets (info : le_advertising_info) :
    Nat → Nat → List Nat × Option (Option (List Byte))
  | 0, offset => if offset < info.length then ([offset], none) else ([offset], some none)
  | fuel + 1, offset =>
    if offset < info.length then
      let length := byteAt info.data offset
      if length = 0 ∨ offset + length ≥ info.length then ([offset], some none)
      else
        let type := byteAt info.data (offset + 1)
        if (type = OW_SCAN_SHORT_DEVICE_NAME ∨ type = OW_SCAN_DEVICE_NAME)
            ∧ length - 1 ≤ OW_MAX_NAME_LENGTH then
          ([offset],
           some (some ((List.range (length - 1)).map (fun i => info.data.getD (offset + 2 + i) 0)
            ++ [0])))
        else
          let r := ow_scan_parse_friendly_name_offsets info fuel (offset + 1 + length)
          (offset :: r.1, r.2)
    else ([offset], some none)

/-! # Theorems -/

/-! ## Bit-level helper lemmas -/

theorem land_two_pow (x i : Nat) : x &&& 2 ^ i = if x.testBit i then 2 ^ i else 0 := by
  apply Nat.eq_of_testBit_eq
  intro j
  rw [Nat.testBit_and, Nat.testBit_two_pow]
  by_cases hij : i = j
  · subst hij
    by_cases hx : x.testBit i <;> simp [hx, Nat.testBit_two_pow_self]
  · by_cases hx : x.testBit i <;> simp [hx, hij, Nat.testBit_two_pow]

theorem land_two_pow_ne_zero (x i : Nat) : (x &&& 2 ^ i ≠ 0) ↔ x.testBit i = true := by
  rw [land_two_pow]
  by_cases hx : x.testBit i <;> simp [hx]

theorem land_split (lo hi mlo mhi : Nat) (h1 : lo < 256) (h2 : mlo < 256) :
    (lo + 256 * hi) &&& (mlo + 256 * mhi) = (lo &&& mlo) + 256 * (hi &&& mhi) := by
  apply Nat.eq_of_testBit_eq
  intro i
  have e1 : lo + 256 * hi = 2 ^ 8 * hi + lo := by omega
  have e2 : mlo + 256 * mhi = 2 ^ 8 * mhi + mlo := by omega
  have h3 : (lo &&& mlo) < 2 ^ 8 := lt_of_le_of_lt Nat.and_le_left (by simpa using h1)
  have e3 : (lo &&& mlo) + 256 * (hi &&& mhi) = 2 ^ 8 * (hi &&& mhi) + (lo &&& mlo) := by omega
  rw [e1, e2, e3, Nat.testBit_and, Nat.testBit_mul_pow_two_add _ (by simpa using h1),
    Nat.testBit_mul_pow_two_add _ (by simpa using h2), Nat.testBit_mul_pow_two_add _ h3]
  split <;> simp

set_option maxRecDepth 100000 in
theorem land_byte_F8 : ∀ b : Fin 256, b.val &&& 0xF8 = b.val / 8 * 8 := by decide

theorem land_FFF8 (w : Nat) (hw : w < 65536) : w &&& 0xFFF8 = w / 8 * 8 := by
  have h := land_split (w % 256) (w / 256) 0xF8 0xFF (Nat.mod_lt _ (by norm_num)) (by norm_num)
  have e : w % 256 + 256 * (w / 256) = w := Nat.mod_add_div w 256
  rw [e] at h
  have hb := land_byte_F8 ⟨w % 256, Nat.mod_lt _ (by norm_num)⟩
  have hh : w / 256 &&& 0xFF = w / 256 :=
    Nat.and_pow_two_sub_one_of_lt_two_pow (n := 8) (by omega)
  simp only at hb
  have h16 : (0xF8 + 256 * 0xFF : Nat) = 0xFFF8 := by norm_num
  rw [h16] at h
  rw [h, hb, hh]
  omega

theorem land_0003 (w : Nat) : w &&& 0x0003 = w % 4 := Nat.and_pow_two_sub_one_eq_mod w 2

theorem land_3FFF (w : Nat) : w &&& 0x3FFF = w % 16384 := Nat.and_pow_two_sub_one_eq_mod w 14

theorem land_0FFF (w : Nat) : w &&& 0x0FFF = w % 4096 := Nat.and_pow_two_sub_one_eq_mod w 12

theorem byteAt_lt (buf : List Byte) (i : Nat) : byteAt buf i < 256 := (buf.getD i 0).isLt

theorem u16At_lt (buf : List Byte) (i : Nat) : u16At buf i < 65536 := by
  have h1 := byteAt_lt buf i
  have h2 := byteAt_lt buf (i + 1)
  unfold u16At
  omega

/-! ## Projections of `decode` -/

theorem decode_unit (sample : ow_sample_t) (buf : List Byte) :
    (decode sample buf).unit = (decodeUnit sample (u16At buf 12)).unit := rfl

theorem decode_current_type (sample : ow_sample_t) (buf : List Byte) :
    (decode sample buf).current_type = (decodeUnit sample (u16At buf 12)).current_type := rfl

theorem decode_is_diode_test (sample : ow_sample_t) (buf : List Byte) :
    (decode sample buf).is_diode_test = (decodeUnit sample (u16At buf 12)).is_diode_test := rfl

theorem decode_is_continuity_test (sample : ow_sample_t) (buf : List Byte) :
    (decode sample buf).is_continuity_test
      = (decodeUnit sample (u16At buf 12)).is_continuity_test := rfl

theorem decode_value (sample : ow_sample_t) (buf : List Byte) :
    (decode sample buf).value = decodeValue (u16At buf 12) (u16At buf 16) := rfl

/-- The unit `decodeUnit` assigns depends only on the masked code. -/
theorem decodeUnit_unit_congr (s s' : ow_sample_t) (w w' : Nat)
    (h : w &&& 0xFFF8 = w' &&& 0xFFF8) : (decodeUnit s w).unit = (decodeUnit s' w').unit := by
  unfold decodeUnit
  simp only [apply_ite ow_sample_t.unit]
  rw [h]

/-! ## C1: the unit table -/

/-- C1. For every frame the validator accepts, with `C` the little-endian word at
bytes 12-13 masked with `0xFFF8`: the decoded unit and sub-fields follow the table of
`ow_unit_t` (ow18b.h:98-120), every value of `C` outside the table gives
`OW_UNIT_UNKNOWN`, and two accepted frames whose words differ at most in the low
three bits decode to the same unit. -/
theorem C1_unit_table (hci_handle : Nat) (buf : List Byte) (sample : ow_sample_t)
    (hacc : validate hci_handle buf = true) :
    (u16At buf 12 &&& 0xFFF8 = 0xF018 → (decode sample buf).unit = OW_UNIT_MILLIVOLT
        ∧ (decode sample buf).current_type = OW_CURRENT_TYPE_DC)
    ∧ (u16At buf 12 &&& 0xFFF8 = 0xF058 → (decode sample buf).unit = OW_UNIT_MILLIVOLT
        ∧ (decode sample buf).current_type = OW_CURRENT_TYPE_AC)
    ∧ (u16At buf 12 &&& 0xFFF8 = 0xF020 → (decode sample buf).unit = OW_UNIT_VOLT
        ∧ (decode sample buf).current_type = OW_CURRENT_TYPE_DC
        ∧ (decode sample buf).is_diode_test = false)
    ∧ (u16At buf 12 &&& 0xFFF8 = 0xF060 → (decode sample buf).unit = OW_UNIT_VOLT
        ∧ (decode sample buf).current_type = OW_CURRENT_TYPE_AC
        ∧ (decode sample buf).is_diode_test = false)
    ∧ (u16At buf 12 &&& 0xFFF8 = 0xF2A0 → (decode sample buf).unit = OW_UNIT_VOLT
        ∧ (decode sample buf).current_type = OW_CURRENT_TYPE_DC
        ∧ (decode sample buf).is_diode_test = true)
    ∧ (u16At buf 12 &&& 0xFFF8 = 0xF090 → (decode sample buf).unit = OW_UNIT_MICROAMPERE
        ∧ (decode sample buf).current_type = OW_CURRENT_TYPE_DC)
    ∧ (u16At buf 12 &&& 0xFFF8 = 0xF0D0 → (decode sample buf).unit = OW_UNIT_MICROAMPERE
        ∧ (decode sample buf).current_type = OW_CURRENT_TYPE_AC)
    ∧ (u16At buf 12 &&& 0xFFF8 = 0xF098 → (decode sample buf).unit = OW_UNIT_MILLIAMPERE
        ∧ (decode sample buf).current_type = OW_CURRENT_TYPE_DC)
    ∧ (u16At buf 12 &&& 0xFFF8 = 0xF0D8 → (decode sample buf).unit = OW_UNIT_MILLIAMPERE
        ∧ (decode sample buf).current_type = OW_CURRENT_TYPE_AC)
    ∧ (u16At buf 12 &&& 0xFFF8 = 0xF0A0 → (decode sample buf).unit = OW_UNIT_AMPERE
        ∧ (decode sample buf).current_type = OW_CURRENT_TYPE_DC)
    ∧ (u16At buf 12 &&& 0xFFF8 = 0xF0E0 → (decode sample buf).unit = OW_UNIT_AMPERE
        ∧ (decode sample buf).current_type = OW_CURRENT_TYPE_AC)
    ∧ (u16At buf 12 &&& 0xFFF8 = 0xF120 → (decode sample buf).unit = OW_UNIT_OHM
        ∧ (decode sample buf).is_continuity_test = false)
    ∧ (u16At buf 12 &&& 0xFFF8 = 0xF2E0 → (decode sample buf).unit = OW_UNIT_OHM
        ∧ (decode sample buf).is_continuity_test = true)
    ∧ (u16At buf 12 &&& 0xFFF8 = 0xF128 → (decode sample buf).unit = OW_UNIT_KILOOHM)
    ∧ (u16At buf 12 &&& 0xFFF8 = 0xF130 → (decode sample buf).unit = OW_UNIT_MEGAOHM)
    ∧ (u16At buf 12 &&& 0xFFF8 = 0xF148 → (decode sample buf).unit = OW_UNIT_NANOFARAD)
    ∧ (u16At buf 12 &&& 0xFFF8 = 0xF150 → (decode sample buf).unit = OW_UNIT_MICROFARAD)
    ∧ (u16At buf 12 &&& 0xFFF8 = 0xF158 → (decode sample buf).unit = OW_UNIT_MILLIFARAD)
    ∧ (u16At buf 12 &&& 0xFFF8 = 0xF160 → (decode sample buf).unit = OW_UNIT_FARAD)
    ∧ (u16At buf 12 &&& 0xFFF8 = 0xF1A0 → (decode sample buf).unit = OW_UNIT_HERTZ)
    ∧ (u16At buf 12 &&& 0xFFF8 = 0xF1E0 → (decode sample buf).unit = OW_UNIT_PERCENT)
    ∧ (u16At buf 12 &&& 0xFFF8 = 0xF220 → (decode sample buf).unit = OW_UNIT_CELSIUS)
    ∧ (u16At buf 12 &&& 0xFFF8 = 0xF260 → (decode sample buf).unit = OW_UNIT_FAHRENHEIT)
    ∧ (u16At buf 12 &&& 0xFFF8 = 0xF360 → (decode sample buf).unit = OW_UNIT_NEARFIELD)
    ∧ (u16At buf 12 &&& 0xFFF8 ∉ [0xF018, 0xF058, 0xF020, 0xF060, 0xF2A0, 0xF090, 0xF0D0,
          0xF098, 0xF0D8, 0xF0A0, 0xF0E0, 0xF120, 0xF2E0, 0xF128, 0xF130, 0xF148, 0xF150,
          0xF158, 0xF160, 0xF1A0, 0xF1E0, 0xF220, 0xF260, 0xF360] →
        (decode sample buf).unit = OW_UNIT_UNKNOWN)
    ∧ (∀ (sample' : ow_sample_t) (buf' : List Byte), validate hci_handle buf' = true →
        u16At buf' 12 / 8 = u16At buf 12 / 8 →
        (decode sample' buf').unit = (decode sample buf).unit) := by
  have _ := hacc
  simp only [decode_unit, decode_current_type, decode_is_diode_test, decode_is_continuity_test]
  refine ⟨?_, ?_, ?_, ?_, ?_, ?_, ?_, ?_, ?_, ?_, ?_, ?_, ?_, ?_, ?_, ?_, ?_, ?_, ?_, ?_, ?_,
    ?_, ?_, ?_, ?_, ?_⟩
  case refine_26 =>
    intro sample' buf' _ hdiv
    apply decodeUnit_unit_congr
    rw [land_FFF8 _ (u16At_lt buf' 12), land_FFF8 _ (u16At_lt buf 12), hdiv]
  case refine_25 =>
    intro hC
    simp only [List.mem_cons, List.mem_singleton, List.not_mem_nil, not_or, or_false] at hC
    simp [decodeUnit, hC]
  all_goals
    intro hC
    simp [decodeUnit, hC]

/-- Witness of C1 (end-to-end scenario 1): the accepted frame with unit word `0xF020`
decodes to Volt, DC, not diode test. -/
theorem C1_unit_table_witness :
    validate 0x40 (notification 0x2040 0xF020 0 0 0x0708) = true
    ∧ (decode sample0 (notification 0x2040 0xF020 0 0 0x0708)).unit = OW_UNIT_VOLT
    ∧ (decode sample0 (notification 0x2040 0xF020 0 0 0x0708)).current_type = OW_CURRENT_TYPE_DC
    ∧ (decode sample0 (notification 0x2040 0xF020 0 0 0x0708)).is_diode_test = false :=
  ⟨by decide,
   (C1_unit_table 0x40 (notification 0x2040 0xF020 0 0 0x0708) sample0 (by decide)).2.2.1
     (by decide)⟩

/-! ## C2, C3: the value -/

/-! ### Rounding to binary64 -/

theorem round_half_even_int (z : ℤ) : round_half_even (z : ℚ) = z := by
  unfold round_half_even
  rw [Int.floor_intCast]
  simp

theorem round_half_even_abs (q : ℚ) : |(round_half_even q : ℚ) - q| ≤ 1 / 2 := by
  have h1 : (⌊q⌋ : ℚ) ≤ q := Int.floor_le q
  have h2 : q < ⌊q⌋ + 1 := Int.lt_floor_add_one q
  unfold round_half_even
  split_ifs with a b c
  · rw [abs_le]; constructor <;> linarith
  · push_cast; rw [abs_le]; constructor <;> linarith
  · rw [abs_le]; constructor <;> linarith
  · push_cast; rw [abs_le]; constructor <;> linarith

theorem round_half_even_ge (q : ℚ) (n : ℤ) (h : (n : ℚ) ≤ q) : n ≤ round_half_even q := by
  have h1 : n ≤ ⌊q⌋ := Int.le_floor.mpr h
  unfold round_half_even
  split_ifs <;> omega

theorem int_log_eq (q : ℚ) (e : ℤ) (h1 : (2 : ℚ) ^ e ≤ q) (h2 : q < (2 : ℚ) ^ (e + 1)) :
    Int.log 2 q = e := by
  have hq : 0 < q := lt_of_lt_of_le (by positivity) h1
  have a : e ≤ Int.log 2 q := (Int.zpow_le_iff_le_log (by norm_num) hq).mp (by exact_mod_cast h1)
  have b : Int.log 2 q < e + 1 :=
    (Int.lt_zpow_iff_log_lt (by norm_num) hq).mp (by exact_mod_cast h2)
  omega

theorem int_log_bounds (q : ℚ) (hq : 0 < q) :
    (2 : ℚ) ^ Int.log 2 q ≤ q ∧ q < (2 : ℚ) ^ (Int.log 2 q + 1) := by
  have a := Int.zpow_log_le_self (b := 2) (by norm_num) hq
  have b := Int.lt_zpow_succ_log_self (b := 2) (by norm_num) q
  exact ⟨by exact_mod_cast a, by exact_mod_cast b⟩

/-- The rounding of a number whose binade is known. -/
theorem binary64_round_of (q : ℚ) (e : ℤ) (h1 : (2 : ℚ) ^ e ≤ q) (h2 : q < (2 : ℚ) ^ (e + 1))
    (he : -1022 ≤ e) :
    binary64_round q = (round_half_even (q / 2 ^ (e - 52)) : ℚ) * 2 ^ (e - 52) := by
  have hq : 0 < q := lt_of_lt_of_le (by positivity) h1
  unfold binary64_round binary64_exponent
  rw [if_neg (ne_of_gt hq), int_log_eq q e h1 h2, max_eq_left (by omega)]


/-- The relative error of a rounding in the normal range is at most `2^-53`. -/
theorem binary64_round_error (q : ℚ) (hq : (2 : ℚ) ^ (-1022 : ℤ) ≤ q) :
    |binary64_round q - q| ≤ q / 2 ^ 53 := by
  have hpos : 0 < q := lt_of_lt_of_le (by positivity) hq
  obtain ⟨h1, h2⟩ := int_log_bounds q hpos
  have he : -1022 ≤ Int.log 2 q := by
    have : (-1022 : ℤ) < Int.log 2 q + 1 := by
      have h3 : (2 : ℚ) ^ (-1022 : ℤ) < (2 : ℚ) ^ (Int.log 2 q + 1) := lt_of_le_of_lt hq h2
      exact (zpow_lt_zpow_iff_right₀ (by norm_num : (1 : ℚ) < 2)).mp h3
    omega
  rw [binary64_round_of q _ h1 h2 he]
  have hp : (0 : ℚ) < 2 ^ (Int.log 2 q - 52) := by positivity
  have hr := round_half_even_abs (q / 2 ^ (Int.log 2 q - 52))
  have e1 : (round_half_even (q / 2 ^ (Int.log 2 q - 52)) : ℚ) * 2 ^ (Int.log 2 q - 52) - q
      = ((round_half_even (q / 2 ^ (Int.log 2 q - 52)) : ℚ) - q / 2 ^ (Int.log 2 q - 52))
        * 2 ^ (Int.log 2 q - 52) := by
    field_simp
  rw [e1, abs_mul, abs_of_pos hp]
  have e2 : (2 : ℚ) ^ (Int.log 2 q - 52) = 2 ^ Int.log 2 q / 2 ^ 52 := by
    rw [zpow_sub₀ (by norm_num)]
    norm_num
  calc |(round_half_even (q / 2 ^ (Int.log 2 q - 52)) : ℚ) - q / 2 ^ (Int.log 2 q - 52)|
        * 2 ^ (Int.log 2 q - 52)
      ≤ 1 / 2 * 2 ^ (Int.log 2 q - 52) := mul_le_mul_of_nonneg_right hr hp.le
    _ = 2 ^ Int.log 2 q / 2 ^ 53 := by rw [e2]; ring
    _ ≤ q / 2 ^ 53 := div_le_div_of_nonneg_right h1 (by positivity)

/-- The conversion of a natural number below `2^53` is exact. -/
theorem binary64_round_nat (m : Nat) (hm : m < 2 ^ 53) : binary64_round (m : ℚ) = m := by
  by_cases h0 : m = 0
  · subst h0
    simp [binary64_round]
  have hpos : (0 : ℚ) < m := by exact_mod_cast Nat.pos_of_ne_zero h0
  obtain ⟨h1, h2⟩ := int_log_bounds (m : ℚ) hpos
  have hlo : 0 ≤ Int.log 2 (m : ℚ) := by
    have : (2 : ℚ) ^ (0 : ℤ) ≤ m := by
      simp only [zpow_zero]
      exact_mod_cast Nat.pos_of_ne_zero h0
    exact (Int.zpow_le_iff_le_log (by norm_num) hpos).mp (by exact_mod_cast this)
  have hhi : Int.log 2 (m : ℚ) < 53 := by
    have h3 : (2 : ℚ) ^ Int.log 2 (m : ℚ) < (2 : ℚ) ^ (53 : ℤ) := by
      refine lt_of_le_of_lt h1 ?_
      have h4 : (m : ℚ) < 2 ^ 53 := by exact_mod_cast hm
      have h5 : (2 : ℚ) ^ (53 : ℤ) = 2 ^ 53 := by norm_num
      rw [h5]
      exact h4
    exact (zpow_lt_zpow_iff_right₀ (by norm_num : (1 : ℚ) < 2)).mp h3
  rw [binary64_round_of (m : ℚ) _ h1 h2 (by omega)]
  obtain ⟨k, hk⟩ : ∃ k : ℕ, Int.log 2 (m : ℚ) - 52 = -(k : ℤ) :=
    ⟨(52 - Int.log 2 (m : ℚ)).toNat, by omega⟩
  rw [hk]
  have e : (m : ℚ) / 2 ^ (-(k : ℤ)) = ((m * 2 ^ k : ℤ) : ℚ) := by
    rw [zpow_neg, zpow_natCast]
    push_cast
    field_simp
  rw [e, round_half_even_int, zpow_neg, zpow_natCast]
  push_cast
  field_simp


theorem round_half_even_down (y : ℚ) (f : ℤ) (h1 : (f : ℚ) ≤ y) (h2 : y - f < 1 / 2) :
    round_half_even y = f := by
  have hf : ⌊y⌋ = f := Int.floor_eq_iff.mpr ⟨h1, by linarith⟩
  unfold round_half_even
  rw [hf, if_pos h2]

theorem round_half_even_up (y : ℚ) (f : ℤ) (h1 : 1 / 2 < y - f) (h2 : y < f + 1) :
    round_half_even y = f + 1 := by
  have hf : ⌊y⌋ = f := Int.floor_eq_iff.mpr ⟨by linarith, h2⟩
  unfold round_half_even
  rw [hf, if_neg (by linarith), if_pos h1]

theorem round_half_even_tie (y : ℚ) (f : ℤ) (h : y - f = 1 / 2) :
    round_half_even y = if f % 2 = 0 then f else f + 1 := by
  have hf : ⌊y⌋ = f := Int.floor_eq_iff.mpr ⟨by linarith, by linarith⟩
  unfold round_half_even
  rw [hf, if_neg (by linarith), if_neg (by linarith)]

theorem binary64_round_tenth :
    binary64_round (1 / 10) = 3602879701896397 / 2 ^ 55 := by
  rw [binary64_round_of (1 / 10) (-4) (by norm_num) (by norm_num) (by norm_num),
    round_half_even_up _ 7205759403792793 (by norm_num) (by norm_num)]
  norm_num

theorem binary64_round_hundredth :
    binary64_round (1 / 100) = 5764607523034235 / 2 ^ 59 := by
  rw [binary64_round_of (1 / 100) (-7) (by norm_num) (by norm_num) (by norm_num),
    round_half_even_up _ 5764607523034234 (by norm_num) (by norm_num)]
  norm_num

theorem binary64_round_thousandth :
    binary64_round (1 / 1000) = 1152921504606847 / 2 ^ 60 := by
  rw [binary64_round_of (1 / 1000) (-10) (by norm_num) (by norm_num) (by norm_num),
    round_half_even_up _ 4611686018427387 (by norm_num) (by norm_num)]
  norm_num

/-- A number that is an integer multiple of the unit of its binade is its own
rounding. -/
theorem binary64_round_exact (q : ℚ) (e : ℤ) (n : ℤ) (h1 : (2 : ℚ) ^ e ≤ q)
    (h2 : q < (2 : ℚ) ^ (e + 1)) (he : -1022 ≤ e) (hn : q = n * 2 ^ (e - 52)) :
    binary64_round q = q := by
  rw [binary64_round_of q e h1 h2 he]
  have hp : (2 : ℚ) ^ (e - 52) ≠ 0 := by positivity
  have e1 : q / 2 ^ (e - 52) = (n : ℚ) := by
    rw [hn]
    field_simp
  rw [e1, round_half_even_int, ← hn]


theorem binary64_round_one : binary64_round 1 = 1 := by
  have h := binary64_round_nat 1 (by norm_num)
  simpa using h

/-- The rounded scale factors are their own roundings. -/
theorem binary64_round_factor (k : Nat) (hk : k < 4) :
    binary64_round (1 * binary64_round (1 / 10 ^ k)) = binary64_round (1 / 10 ^ k) := by
  rw [one_mul]
  interval_cases k
  · simp only [pow_zero, div_one, binary64_round_one]
  · simp only [pow_one, binary64_round_tenth]
    exact binary64_round_exact _ (-4) 7205759403792794 (by norm_num) (by norm_num) (by norm_num)
      (by norm_num)
  · have e : (1 : ℚ) / 10 ^ 2 = 1 / 100 := by norm_num
    rw [e, binary64_round_hundredth]
    exact binary64_round_exact _ (-7) 5764607523034235 (by norm_num) (by norm_num) (by norm_num)
      (by norm_num)
  · have e : (1 : ℚ) / 10 ^ 3 = 1 / 1000 := by norm_num
    rw [e, binary64_round_thousandth]
    exact binary64_round_exact _ (-10) 4611686018427388 (by norm_num) (by norm_num)
      (by norm_num) (by norm_num)

/-- The rounded scale factor is within `2^-53` of the decimal one. -/
theorem binary64_round_factor_error (k : Nat) (hk : k < 4) :
    |binary64_round (1 / 10 ^ k) - 1 / 10 ^ k| ≤ 1 / 10 ^ k / 2 ^ 53 := by
  apply binary64_round_error
  interval_cases k <;> norm_num

/-- The product of the rounded scale factor and a magnitude, rounded: its distance to
the decimal value, its bound and its sign. -/
theorem binary64_value_facts (k m : Nat) (hk : k < 4) (hm : m < 16384) :
    |binary64_round (binary64_round (1 / 10 ^ k) * m) - 1 / 10 ^ k * m|
        ≤ 1 / 10 ^ k * m * (1 / 2 ^ 52 + 1 / 2 ^ 106)
    ∧ 0 ≤ binary64_round (binary64_round (1 / 10 ^ k) * m)
    ∧ binary64_round (binary64_round (1 / 10 ^ k) * m) ≤ 16383
    ∧ (binary64_round (binary64_round (1 / 10 ^ k) * m) = 0 ↔ m = 0)
    ∧ (k = 0 → binary64_round (binary64_round (1 / 10 ^ k) * m) = m) := by
  have hk0 : k = 0 → binary64_round (binary64_round (1 / 10 ^ k) * m) = m := by
    intro h
    subst h
    simp only [pow_zero, div_one, binary64_round_one, one_mul]
    exact binary64_round_nat m (by omega)
  by_cases h0 : m = 0
  · subst h0
    have z : binary64_round (binary64_round (1 / 10 ^ k) * ((0 : ℕ) : ℚ)) = 0 := by
      simp [binary64_round]
    rw [z]
    simp
  have hm1 : (1 : ℚ) ≤ m := by exact_mod_cast Nat.pos_of_ne_zero h0
  have hm2 : (m : ℚ) ≤ 16383 := by
    have : m ≤ 16383 := by omega
    exact_mod_cast this
  have hd : (0 : ℚ) < 1 / 10 ^ k := by positivity
  have hd1 : (1 : ℚ) / 1000 ≤ 1 / 10 ^ k := by interval_cases k <;> norm_num
  have hd2 : (1 : ℚ) / 10 ^ k ≤ 1 := by interval_cases k <;> norm_num
  have hf := binary64_round_factor_error k hk
  rw [abs_le] at hf
  have hflo : 1 / 10 ^ k * (1 - 1 / 2 ^ 53) ≤ binary64_round (1 / 10 ^ k) := by
    have := hf.1
    linarith [this]
  have hfhi : binary64_round (1 / 10 ^ k) ≤ 1 / 10 ^ k * (1 + 1 / 2 ^ 53) := by
    have := hf.2
    linarith [this]
  have hfpos : (0 : ℚ) < binary64_round (1 / 10 ^ k) := by
    refine lt_of_lt_of_le ?_ hflo
    exact mul_pos hd (by norm_num)
  have hb : (2 : ℚ) ^ (-1022 : ℤ) ≤ binary64_round (1 / 10 ^ k) * m := by
    have h1 : (1 : ℚ) / 2000 ≤ binary64_round (1 / 10 ^ k) := by
      refine le_trans ?_ hflo
      calc (1 : ℚ) / 2000 = 1 / 1000 * (1 / 2) := by norm_num
        _ ≤ 1 / 10 ^ k * (1 - 1 / 2 ^ 53) :=
          mul_le_mul hd1 (by norm_num) (by norm_num) hd.le
    have h2 : (2 : ℚ) ^ (-1022 : ℤ) ≤ 1 / 2000 := by
      have : (2 : ℚ) ^ (-1022 : ℤ) ≤ 2 ^ (-11 : ℤ) :=
        zpow_le_zpow_right₀ (by norm_num) (by norm_num)
      refine le_trans this ?_
      norm_num
    calc (2 : ℚ) ^ (-1022 : ℤ) ≤ 1 / 2000 := h2
      _ ≤ binary64_round (1 / 10 ^ k) := h1
      _ = binary64_round (1 / 10 ^ k) * 1 := (mul_one _).symm
      _ ≤ binary64_round (1 / 10 ^ k) * m := mul_le_mul_of_nonneg_left hm1 hfpos.le
  have he := binary64_round_error _ hb
  rw [abs_le] at he
  have hbpos : (0 : ℚ) < binary64_round (1 / 10 ^ k) * m := mul_pos hfpos (by linarith)
  have hmpos : (0 : ℚ) < m := by linarith
  have hb_lo : 1 / 10 ^ k * m * (1 - 1 / 2 ^ 53) ≤ binary64_round (1 / 10 ^ k) * m := by
    have := mul_le_mul_of_nonneg_right hflo hmpos.le
    linarith [this]
  have hb_hi : binary64_round (1 / 10 ^ k) * m ≤ 1 / 10 ^ k * m * (1 + 1 / 2 ^ 53) := by
    have := mul_le_mul_of_nonneg_right hfhi hmpos.le
    linarith [this]
  have ha : (0 : ℚ) < 1 / 10 ^ k * m := mul_pos hd hmpos
  have x_lo : binary64_round (1 / 10 ^ k) * m * (1 - 1 / 2 ^ 53)
      ≤ binary64_round (binary64_round (1 / 10 ^ k) * m) := by
    have := he.1
    linarith [this]
  have x_hi : binary64_round (binary64_round (1 / 10 ^ k) * m)
      ≤ binary64_round (1 / 10 ^ k) * m * (1 + 1 / 2 ^ 53) := by
    have := he.2
    linarith [this]
  have x_pos : (0 : ℚ) < binary64_round (binary64_round (1 / 10 ^ k) * m) := by
    refine lt_of_lt_of_le ?_ x_lo
    exact mul_pos hbpos (by norm_num)
  have x_hi2 : binary64_round (binary64_round (1 / 10 ^ k) * m)
      ≤ 1 / 10 ^ k * m * (1 + 1 / 2 ^ 53) * (1 + 1 / 2 ^ 53) :=
    le_trans x_hi (mul_le_mul_of_nonneg_right hb_hi (by norm_num))
  have x_lo2 : 1 / 10 ^ k * m * (1 - 1 / 2 ^ 53) * (1 - 1 / 2 ^ 53)
      ≤ binary64_round (binary64_round (1 / 10 ^ k) * m) :=
    le_trans (mul_le_mul_of_nonneg_right hb_lo (by norm_num)) x_lo
  refine ⟨?_, x_pos.le, ?_, ?_, hk0⟩
  · rw [abs_le]
    constructor
    · have e : 1 / 10 ^ k * (m : ℚ) * (1 - 1 / 2 ^ 53) * (1 - 1 / 2 ^ 53)
          = 1 / 10 ^ k * m - 1 / 10 ^ k * m * (1 / 2 ^ 52 - 1 / 2 ^ 106) := by ring
      have e2 : 1 / 10 ^ k * (m : ℚ) * (1 / 2 ^ 52 - 1 / 2 ^ 106)
          ≤ 1 / 10 ^ k * m * (1 / 2 ^ 52 + 1 / 2 ^ 106) :=
        mul_le_mul_of_nonneg_left (by norm_num) ha.le
      linarith [x_lo2, e, e2]
    · have e : 1 / 10 ^ k * (m : ℚ) * (1 + 1 / 2 ^ 53) * (1 + 1 / 2 ^ 53)
          = 1 / 10 ^ k * m + 1 / 10 ^ k * m * (1 / 2 ^ 52 + 1 / 2 ^ 106) := by ring
      linarith [x_hi2, e]
  · by_cases hk' : k = 0
    · rw [hk0 hk']
      exact hm2
    · have hd3 : (1 : ℚ) / 10 ^ k ≤ 1 / 10 := by interval_cases k <;> norm_num at hk' ⊢
      have h1 : 1 / 10 ^ k * (m : ℚ) ≤ 1 / 10 * 16383 := mul_le_mul hd3 hm2 hmpos.le (by norm_num)
      have h2 : 1 / 10 ^ k * (m : ℚ) * (1 + 1 / 2 ^ 53) * (1 + 1 / 2 ^ 53)
          ≤ 1 / 10 * 16383 * (1 + 1 / 2 ^ 53) * (1 + 1 / 2 ^ 53) :=
        mul_le_mul_of_nonneg_right (mul_le_mul_of_nonneg_right h1 (by norm_num)) (by norm_num)
      refine le_trans x_hi2 (le_trans h2 ?_)
      norm_num
  · constructor
    · intro h
      rw [h] at x_pos
      exact absurd x_pos (lt_irrefl _)
    · intro h
      exact absurd h h0

/-- The `double` of `0.001 * 1800`: the binary64 value nearest to 1.8. -/
theorem binary64_value_1800_milli :
    binary64_round (binary64_round (1 / 10 ^ 3) * ((1800 : ℕ) : ℚ))
      = 8106479329266893 / 2 ^ 52 := by
  have e : (1 : ℚ) / 10 ^ 3 = 1 / 1000 := by norm_num
  rw [e, binary64_round_thousandth,
    binary64_round_of _ 0 (by norm_num) (by norm_num) (by norm_num),
    round_half_even_up _ 8106479329266892 (by norm_num) (by norm_num)]
  norm_num

/-- The `double` of `0.1 * 3`: above 3/10, a tie rounded to the even significand. -/
theorem binary64_value_3_tenths :
    binary64_round (binary64_round (1 / 10 ^ 1) * ((3 : ℕ) : ℚ))
      = 1351079888211149 / 2 ^ 52 := by
  have e : (1 : ℚ) / 10 ^ 1 = 1 / 10 := by norm_num
  rw [e, binary64_round_tenth,
    binary64_round_of _ (-2) (by norm_num) (by norm_num) (by norm_num),
    round_half_even_tie _ 5404319552844595 (by norm_num)]
  norm_num

/-! ### The decoded value -/

theorem decodeFactor_eq (w : Nat) :
    decodeFactor w = { negative := false, magnitude := binary64_round (1 / 10 ^ (w % 4)) } := by
  unfold decodeFactor
  simp only [land_0003]
  have hlt : w % 4 < 4 := Nat.mod_lt _ (by norm_num)
  interval_cases h : w % 4
  · simp [binary64.of_nat]
  · simp
  · norm_num
  · norm_num

theorem decodeSign_eq (v : Nat) :
    decodeSign v = { negative := v.testBit 15, magnitude := 1 } := by
  unfold decodeSign
  have h := land_two_pow_ne_zero v 15
  have e : (2 : Nat) ^ 15 = 0x8000 := by norm_num
  rw [e] at h
  by_cases hb : v.testBit 15 = true
  · rw [if_pos (h.mpr hb), hb]
  · rw [if_neg (fun hc => hb (h.mp hc))]
    have hb' : v.testBit 15 = false := by simpa using hb
    rw [hb']

theorem overflow_test (w : Nat) : (w &&& (1 <<< 2) ≠ 0) ↔ w.testBit 2 = true := by
  have h := land_two_pow_ne_zero w 2
  have e : (2 : Nat) ^ 2 = 1 <<< 2 := by decide
  rw [e] at h
  exact h

theorem decodeValue_overflow (w v : Nat) (h : w.testBit 2 = true) : decodeValue w v = none := by
  unfold decodeValue
  rw [if_pos ((overflow_test w).mpr h)]

/-- The value of a frame without the overflow bit: the sign bit of the value word, and
the rounded product of the rounded scale factor and the magnitude. The product of the
sign and the factor, and the conversion of the magnitude, are exact. -/
theorem decodeValue_no_overflow (w v : Nat) (h : w.testBit 2 = false) :
    decodeValue w v
      = some { negative := v.testBit 15,
               magnitude := binary64_round
                 (binary64_round (1 / 10 ^ (w % 4)) * ((v &&& 0x3FFF : Nat) : ℚ)) } := by
  unfold decodeValue
  have hn : ¬ (w &&& (1 <<< 2) ≠ 0) := by
    rw [overflow_test, h]
    simp
  have hm : v &&& 0x3FFF < 2 ^ 53 := by
    rw [land_3FFF]
    have : v % 16384 < 16384 := Nat.mod_lt _ (by norm_num)
    omega
  rw [if_neg hn, decodeSign_eq, decodeFactor_eq]
  simp only [binary64.mul, binary64.of_nat, Bool.xor_false,
    binary64_round_factor (w % 4) (Nat.mod_lt _ (by norm_num)), binary64_round_nat _ hm]

/-- C2 (amended). For every accepted frame whose unit word (little-endian at bytes
12-13) has bit 2 clear, the decoded value is defined: it is the `double` product
`s * f * m`, with `m` the value word (bytes 16-17) masked with `0x3FFF`, `s` the sign
bit 15 of the value word, and `f` the `double` nearest to `10^-k` for `k` the low two
bits of the unit word. Its sign bit is that of the value word and its magnitude is the
rounding of `f · m`. It differs from the decimal value `± m / 10^k` by at most the
factor `2^-52 + 2^-106` of it, and equals it when `k = 0`. -/
theorem C2_value (hci_handle : Nat) (buf : List Byte) (sample : ow_sample_t)
    (hacc : validate hci_handle buf = true) (hbit : (u16At buf 12).testBit 2 = false) :
    ∃ d : binary64, (decode sample buf).value = some d
      ∧ d.negative = (u16At buf 16).testBit 15
      ∧ d.magnitude
          = binary64_round (binary64_round (1 / 10 ^ (u16At buf 12 % 4))
              * ((u16At buf 16 &&& 0x3FFF : Nat) : ℚ))
      ∧ |d.toRat - (if (u16At buf 16).testBit 15 then -1 else 1)
            * (1 / 10 ^ (u16At buf 12 % 4)) * ((u16At buf 16 &&& 0x3FFF : Nat) : ℚ)|
          ≤ 1 / 10 ^ (u16At buf 12 % 4) * ((u16At buf 16 &&& 0x3FFF : Nat) : ℚ)
              * (1 / 2 ^ 52 + 1 / 2 ^ 106)
      ∧ (u16At buf 12 % 4 = 0 →
          d.toRat = (if (u16At buf 16).testBit 15 then -1 else 1)
            * ((u16At buf 16 &&& 0x3FFF : Nat) : ℚ)) := by
  have _ := hacc
  have hk : u16At buf 12 % 4 < 4 := Nat.mod_lt _ (by norm_num)
  have hm : u16At buf 16 &&& 0x3FFF < 16384 := by
    rw [land_3FFF]
    exact Nat.mod_lt _ (by norm_num)
  obtain ⟨f1, _, _, _, f5⟩ := binary64_value_facts (u16At buf 12 % 4) (u16At buf 16 &&& 0x3FFF) hk hm
  refine ⟨_, (decode_value sample buf).trans (decodeValue_no_overflow _ _ hbit), rfl, rfl, ?_, ?_⟩
  · unfold binary64.toRat
    simp only
    by_cases hb : (u16At buf 16).testBit 15 = true
    · rw [if_pos hb, if_pos hb]
      have e : ∀ x y : ℚ, -x - -1 * y = -(x - y) := by intro x y; ring
      rw [mul_assoc, e, abs_neg]
      exact f1
    · rw [if_neg hb, if_neg hb, one_mul]
      exact f1
  · intro h0
    unfold binary64.toRat
    simp only
    rw [f5 h0]
    by_cases hb : (u16At buf 16).testBit 15 = true
    · rw [if_pos hb, if_pos hb]; ring
    · rw [if_neg hb, if_neg hb]; ring

/-- Witness of C2 (end-to-end scenarios 1 to 3): value word `0x0708` with scale bits
00 gives 1800, with scale bits 11 gives the `double` nearest to 1.8, and value word
`0x8708` with scale bits 00 gives -1800. -/
theorem C2_value_witness :
    (validate 0x40 (notification 0x2040 0xF020 0 0 0x0708) = true
      ∧ (u16At (notification 0x2040 0xF020 0 0 0x0708) 12).testBit 2 = false
      ∧ (decode sample0 (notification 0x2040 0xF020 0 0 0x0708)).value
          = some { negative := false, magnitude := 1800 })
    ∧ (decode sample0 (notification 0x2040 0xF023 0 0 0x0708)).value
        = some { negative := false, magnitude := 8106479329266893 / 2 ^ 52 }
    ∧ (decode sample0 (notification 0x2040 0xF020 0 0 0x8708)).value
        = some { negative := true, magnitude := 1800 } := by
  have e0 : u16At (notification 0x2040 0xF020 0 0 0x0708) 12 = 0xF020 := by decide
  have e1 : u16At (notification 0x2040 0xF020 0 0 0x0708) 16 = 0x0708 := by decide
  have e2 : u16At (notification 0x2040 0xF023 0 0 0x0708) 12 = 0xF023 := by decide
  have e3 : u16At (notification 0x2040 0xF023 0 0 0x0708) 16 = 0x0708 := by decide
  have e4 : u16At (notification 0x2040 0xF020 0 0 0x8708) 12 = 0xF020 := by decide
  have e5 : u16At (notification 0x2040 0xF020 0 0 0x8708) 16 = 0x8708 := by decide
  have t1 : Nat.testBit 0x0708 15 = false := by decide
  have t2 : Nat.testBit 0x8708 15 = true := by decide
  have m1 : (0x0708 &&& 0x3FFF : Nat) = 1800 := by decide
  have m2 : (0x8708 &&& 0x3FFF : Nat) = 1800 := by decide
  have k0 : 0xF020 % 4 = 0 := by decide
  have k3 : 0xF023 % 4 = 3 := by decide
  have x0 : binary64_round (binary64_round (1 / 10 ^ 0) * ((1800 : ℕ) : ℚ)) = 1800 := by
    have h := (binary64_value_facts 0 1800 (by norm_num) (by norm_num)).2.2.2.2 rfl
    rw [h]
    norm_num
  obtain ⟨d1, h1, n1, g1, _⟩ :=
    C2_value 0x40 (notification 0x2040 0xF020 0 0 0x0708) sample0 (by decide) (by decide)
  obtain ⟨d2, h2, n2, g2, _⟩ :=
    C2_value 0x40 (notification 0x2040 0xF023 0 0 0x0708) sample0 (by decide) (by decide)
  obtain ⟨d3, h3, n3, g3, _⟩ :=
    C2_value 0x40 (notification 0x2040 0xF020 0 0 0x8708) sample0 (by decide) (by decide)
  rw [e1, t1] at n1
  rw [e0, e1, m1, k0, x0] at g1
  rw [e3, t1] at n2
  rw [e2, e3, m1, k3, binary64_value_1800_milli] at g2
  rw [e5, t2] at n3
  rw [e4, e5, m2, k0, x0] at g3
  refine ⟨⟨by decide, by decide, ?_⟩, ?_, ?_⟩
  · rw [h1]
    cases d1
    simp only at n1 g1
    rw [n1, g1]
  · rw [h2]
    cases d2
    simp only at n2 g2
    rw [n2, g2]
  · rw [h3]
    cases d3
    simp only at n3 g3
    rw [n3, g3]

/-- Counterexample to C2 as stated. The accepted frame with unit word `0xF021` (bit 2
clear, scale bits 01) and value word `0x0003` has `s = 1`, `f = 1/10`, `m = 3`, yet its
decoded value is the `double` `0.30000000000000004`, that is `3/10 + 2^-52 / 5`, and not
`s * f * m = 3/10`. -/
theorem C2_counterexample :
    validate 0x40 (notification 0x2040 0xF021 0 0 0x0003) = true
    ∧ (u16At (notification 0x2040 0xF021 0 0 0x0003) 12).testBit 2 = false
    ∧ u16At (notification 0x2040 0xF021 0 0 0x0003) 12 % 4 = 1
    ∧ (u16At (notification 0x2040 0xF021 0 0 0x0003) 16).testBit 15 = false
    ∧ u16At (notification 0x2040 0xF021 0 0 0x0003) 16 &&& 0x3FFF = 3
    ∧ (decode sample0 (notification 0x2040 0xF021 0 0 0x0003)).value
        = some { negative := false, magnitude := 1351079888211149 / 2 ^ 52 }
    ∧ binary64.toRat { negative := false, magnitude := 1351079888211149 / 2 ^ 52 }
        = 3 / 10 + 1 / (5 * 2 ^ 52)
    ∧ binary64.toRat { negative := false, magnitude := 1351079888211149 / 2 ^ 52 }
        ≠ 1 * (1 / 10) * 3 := by
  have e0 : u16At (notification 0x2040 0xF021 0 0 0x0003) 12 = 0xF021 := by decide
  have e1 : u16At (notification 0x2040 0xF021 0 0 0x0003) 16 = 0x0003 := by decide
  have t1 : Nat.testBit 0x0003 15 = false := by decide
  have m1 : (0x0003 &&& 0x3FFF : Nat) = 3 := by decide
  have k1 : 0xF021 % 4 = 1 := by decide
  refine ⟨by decide, by decide, by decide, by decide, by decide, ?_, ?_, ?_⟩
  · rw [decode_value, e0, e1, decodeValue_no_overflow _ _ (by decide), t1, m1, k1,
      binary64_value_3_tenths]
  · unfold binary64.toRat
    norm_num
  · unfold binary64.toRat
    norm_num

/-- The whole effect of `decodeUnit` depends on the word only through the masked
code. -/
theorem decodeUnit_congr (s : ow_sample_t) (w w' : Nat) (h : w &&& 0xFFF8 = w' &&& 0xFFF8) :
    decodeUnit s w = decodeUnit s w' := by
  unfold decodeUnit
  dsimp only
  rw [h]

/-- C3. For every accepted frame whose unit word has bit 2 (overflow) set, the
decoded value is the not-a-number sentinel, whatever the value word and the scale
bits are; every other field of the sample, the unit and the four status flags among
them, is what the frame with the overflow bit cleared decodes to. -/
theorem C3_overflow (hci_handle : Nat) (buf : List Byte) (sample : ow_sample_t)
    (hacc : validate hci_handle buf = true) (hov : (u16At buf 12).testBit 2 = true) :
    (decode sample buf).value = none
    ∧ ∀ buf' : List Byte, validate hci_handle buf' = true →
        u16At buf' 12 + 4 = u16At buf 12 → byteAt buf' 14 = byteAt buf 14 →
        (u16At buf' 12).testBit 2 = false
        ∧ decode sample buf = { decode sample buf' with value := none } := by
  have _ := hacc
  have hv : (decode sample buf).value = none := by
    rw [decode_value, decodeValue_overflow _ _ hov]
  refine ⟨hv, ?_⟩
  intro buf' _ hw hf
  have hlt := u16At_lt buf 12
  have hlt' := u16At_lt buf' 12
  have hb : u16At buf 12 / 2 ^ 2 % 2 = 1 := by
    have := hov
    rw [Nat.testBit_to_div_mod] at this
    simpa using this
  have hb' : (u16At buf' 12).testBit 2 = false := by
    rw [Nat.testBit_to_div_mod]
    simp only [decide_eq_false_iff_not]
    omega
  have hmask : u16At buf 12 &&& 0xFFF8 = u16At buf' 12 &&& 0xFFF8 := by
    rw [land_FFF8 _ hlt, land_FFF8 _ hlt']
    omega
  refine ⟨hb', ?_⟩
  unfold decode
  dsimp only
  rw [decodeUnit_congr sample _ _ hmask, decodeValue_overflow _ _ hov, hf]

/-- Witness of C3 (end-to-end scenario 4): unit word `0xF024` is Volt DC with the
overflow bit; the value is not-a-number and the rest is as for `0xF020`. -/
theorem C3_overflow_witness :
    validate 0x40 (notification 0x2040 0xF024 0x05 0 0x0708) = true
    ∧ (u16At (notification 0x2040 0xF024 0x05 0 0x0708) 12).testBit 2 = true
    ∧ (decode sample0 (notification 0x2040 0xF024 0x05 0 0x0708)).value = none
    ∧ decode sample0 (notification 0x2040 0xF024 0x05 0 0x0708)
        = { decode sample0 (notification 0x2040 0xF020 0x05 0 0x0708) with value := none } :=
  ⟨by decide, by decide,
   (C3_overflow 0x40 (notification 0x2040 0xF024 0x05 0 0x0708) sample0 (by decide) (by decide)).1,
   ((C3_overflow 0x40 (notification 0x2040 0xF024 0x05 0 0x0708) sample0 (by decide)
      (by decide)).2 (notification 0x2040 0xF020 0x05 0 0x0708) (by decide) (by decide)
      (by decide)).2⟩

/-! ## C4: the validator -/

theorem validate_iff (hci_handle : Nat) (buf : List Byte) :
    validate hci_handle buf = true ↔
      (buf.length = 18 ∧ byteAt buf 0 = 0x02 ∧ u16At buf 1 &&& 0x0FFF = hci_handle
        ∧ u16At buf 3 = 13 ∧ u16At buf 5 = 9 ∧ u16At buf 7 = 0x0004 ∧ byteAt buf 9 = 0x1B
        ∧ u16At buf 10 = 0x001B) := by
  unfold validate
  simp only [OW_SAMPLE_LENGTH, HCI_ACLDATA_PKT, OW_L2CAP_DEST_CID,
    OW_ATT_OPCODE_HANDLE_VALUE_NOTIFICATION, OW_ATT_HANDLE]
  constructor
  · intro h
    split_ifs at h with h1 h2 h3 h4 h5 h6 h7 h8
    exact ⟨not_not.mp h1, not_not.mp h2, not_not.mp h3, not_not.mp h4, not_not.mp h5,
      not_not.mp h6, not_not.mp h7, not_not.mp h8⟩
  · rintro ⟨h1, h2, h3, h4, h5, h6, h7, h8⟩
    simp [h1, h2, h3, h4, h5, h6, h7, h8]

/-- One iteration of the receive loop on a successful, non-empty read: the frame is
decoded and handed to the callback exactly when `validate` holds. -/
theorem ow_recv_loop_ok {σ : Type} (callback : ow_sample_t → σ → Bool × σ)
    (bt_sock hci_handle : Nat) (buf : List Byte) (rest : List (Outcome (List Byte)))
    (sample : ow_sample_t) (context : σ) (w : World)
    (h0 : buf.length ≠ 0) (hmax : buf.length ≤ HCI_MAX_EVENT_SIZE) :
    ow_recv_loop callback bt_sock hci_handle (Outcome.ok buf :: rest) sample context w
      = if validate hci_handle buf = true then
          (if (callback (decode sample buf) context).1 = true then
            ow_recv_loop callback bt_sock hci_handle rest (decode sample buf)
              (callback (decode sample buf) context).2 (w.call (Op.read bt_sock) (Outcome.ok buf))
          else some (0, (callback (decode sample buf) context).2,
            w.call (Op.read bt_sock) (Outcome.ok buf)))
        else ow_recv_loop callback bt_sock hci_handle rest sample context
          (w.call (Op.read bt_sock) (Outcome.ok buf)) := by
  rw [ow_recv_loop]
  simp only [List.take_of_length_le hmax, h0, if_false]
  by_cases hv : validate hci_handle buf = true
  · simp only [hv, if_true]
    rcases hcb : callback (decode sample buf) context with ⟨b, c⟩
    cases b <;> simp
  · have hv' : validate hci_handle buf = false := by simpa using hv
    simp [hv']

/-- C4. A byte sequence read in the receive loop of `ow_recv` is decoded and passed
to the callback if and only if: its length is 18; byte 0 is `0x02`; the word at
bytes 1-2 masked with `0x0FFF` equals the active handle; the word at 3-4 is 13; the
word at 5-6 is 9; the word at 7-8 is `0x0004`; byte 9 is `0x1B`; the word at 10-11 is
`0x001B`. The mask keeps the low 12 bits, so the top four bits of the handle word
(the top four bits of byte 2) never affect acceptance. -/
theorem C4_validate (hci_handle : Nat) (buf : List Byte) :
    (validate hci_handle buf = true ↔
      (buf.length = 18 ∧ byteAt buf 0 = 0x02 ∧ u16At buf 1 &&& 0x0FFF = hci_handle
        ∧ u16At buf 3 = 13 ∧ u16At buf 5 = 9 ∧ u16At buf 7 = 0x0004 ∧ byteAt buf 9 = 0x1B
        ∧ u16At buf 10 = 0x001B))
    ∧ (∀ {σ : Type} (callback : ow_sample_t → σ → Bool × σ) (bt_sock : Nat)
        (rest : List (Outcome (List Byte))) (sample : ow_sample_t) (context : σ) (w : World),
        buf.length ≠ 0 → buf.length ≤ HCI_MAX_EVENT_SIZE →
        ow_recv_loop callback bt_sock hci_handle (Outcome.ok buf :: rest) sample context w
          = if validate hci_handle buf = true then
              (if (callback (decode sample buf) context).1 = true then
                ow_recv_loop callback bt_sock hci_handle rest (decode sample buf)
                  (callback (decode sample buf) context).2
                  (w.call (Op.read bt_sock) (Outcome.ok buf))
              else some (0, (callback (decode sample buf) context).2,
                w.call (Op.read bt_sock) (Outcome.ok buf)))
            else ow_recv_loop callback bt_sock hci_handle rest sample context
              (w.call (Op.read bt_sock) (Outcome.ok buf)))
    ∧ (buf.length ≠ 18 → validate hci_handle buf = false)
    ∧ (u16At buf 1 &&& 0x0FFF ≠ hci_handle → validate hci_handle buf = false)
    ∧ u16At buf 1 &&& 0x0FFF = byteAt buf 1 + 256 * (byteAt buf 2 % 16)
    ∧ (∀ buf' : List Byte, buf'.length = buf.length →
        (∀ i, i ≠ 2 → byteAt buf' i = byteAt buf i) → byteAt buf' 2 % 16 = byteAt buf 2 % 16 →
        validate hci_handle buf' = validate hci_handle buf) := by
  have hmask : ∀ b : List Byte, u16At b 1 &&& 0x0FFF = byteAt b 1 + 256 * (byteAt b 2 % 16) := by
    intro b
    have h1 := byteAt_lt b 1
    have h2 := byteAt_lt b 2
    have e : u16At b 1 = byteAt b 1 + 256 * byteAt b 2 := rfl
    rw [land_0FFF, e]
    omega
  refine ⟨validate_iff hci_handle buf, ?_, ?_, ?_, hmask buf, ?_⟩
  · intro σ callback bt_sock rest sample context w h0 hmax
    exact ow_recv_loop_ok callback bt_sock hci_handle buf rest sample context w h0 hmax
  · intro hlen
    cases hv : validate hci_handle buf
    · rfl
    · exact absurd ((validate_iff hci_handle buf).mp hv).1 hlen
  · intro hh
    cases hv : validate hci_handle buf
    · rfl
    · exact absurd ((validate_iff hci_handle buf).mp hv).2.2.1 hh
  · intro buf' hlen hbytes h2
    rw [Bool.eq_iff_iff, validate_iff, validate_iff, hmask buf', hmask buf, hlen, h2]
    unfold u16At
    rw [hbytes 0 (by decide), hbytes 1 (by decide), hbytes 3 (by decide), hbytes 4 (by decide),
      hbytes 5 (by decide), hbytes 6 (by decide), hbytes 7 (by decide), hbytes 8 (by decide),
      hbytes 9 (by decide), hbytes 10 (by decide), hbytes 11 (by decide)]

/-- Witness of C4: a well-formed notification for handle `0x040` is accepted, also
with flag bits in the top of the handle word; with another handle, or one byte
short, it is rejected. -/
theorem C4_validate_witness :
    validate 0x40 (notification 0x2040 0xF020 0 0 0x0708) = true
    ∧ validate 0x40 (notification 0xF040 0xF020 0 0 0x0708) = true
    ∧ validate 0x40 (notification 0x2041 0xF020 0 0 0x0708) = false
    ∧ validate 0x40 ((notification 0x2040 0xF020 0 0 0x0708).take 17) = false :=
  ⟨(C4_validate 0x40 (notification 0x2040 0xF020 0 0 0x0708)).1.mpr (by decide),
   by decide,
   (C4_validate 0x40 (notification 0x2041 0xF020 0 0 0x0708)).2.2.2.1 (by decide),
   (C4_validate 0x40 ((notification 0x2040 0xF020 0 0 0x0708).take 17)).2.2.1 (by decide)⟩

/-! ## C7: the status flags -/

set_option maxRecDepth 100000 in
theorem flag_bits : ∀ b : Fin 256,
    ((b.val &&& (1 <<< 0)) != 0) = b.val.testBit 0
    ∧ ((b.val &&& (1 <<< 1)) != 0) = b.val.testBit 1
    ∧ ((b.val &&& (1 <<< 2)) != 0) = b.val.testBit 2
    ∧ ((b.val &&& (1 <<< 3)) != 0) = b.val.testBit 3 := by decide

/-- C7. For every accepted frame the four status flags are the four low bits of
byte 14: `is_data_hold` is bit 0, `is_relative` bit 1, `is_auto_range` bit 2,
`is_low_battery` bit 3, each flag true iff its bit is set; and each of the 16
combinations of the four flags is what some value of the byte decodes to. -/
theorem C7_flags (hci_handle : Nat) (buf : List Byte) (sample : ow_sample_t)
    (hacc : validate hci_handle buf = true) :
    (decode sample buf).is_data_hold = (byteAt buf 14).testBit 0
    ∧ (decode sample buf).is_relative = (byteAt buf 14).testBit 1
    ∧ (decode sample buf).is_auto_range = (byteAt buf 14).testBit 2
    ∧ (decode sample buf).is_low_battery = (byteAt buf 14).testBit 3
    ∧ ∀ a b c d : Bool, ∃ flags : Byte, ∀ (sample' : ow_sample_t) (buf' : List Byte),
        byteAt buf' 14 = flags.val →
        (decode sample' buf').is_data_hold = a ∧ (decode sample' buf').is_relative = b
        ∧ (decode sample' buf').is_auto_range = c ∧ (decode sample' buf').is_low_battery = d := by
  have _ := hacc
  have hb := flag_bits (buf.getD 14 0)
  refine ⟨hb.1, hb.2.1, hb.2.2.1, hb.2.2.2, ?_⟩
  intro a b c d
  refine ⟨Fin.ofNat (a.toNat + 2 * b.toNat + 4 * c.toNat + 8 * d.toNat), ?_⟩
  intro sample' buf' hbyte
  unfold decode
  simp only [hbyte]
  cases a <;> cases b <;> cases c <;> cases d <;> decide

/-- Witness of C7: status byte `0x0A` (bits 1 and 3) on an accepted frame. -/
theorem C7_flags_witness :
    validate 0x40 (notification 0x2040 0xF020 0x0A 0 0x0708) = true
    ∧ (decode sample0 (notification 0x2040 0xF020 0x0A 0 0x0708)).is_data_hold = false
    ∧ (decode sample0 (notification 0x2040 0xF020 0x0A 0 0x0708)).is_relative = true
    ∧ (decode sample0 (notification 0x2040 0xF020 0x0A 0 0x0708)).is_auto_range = false
    ∧ (decode sample0 (notification 0x2040 0xF020 0x0A 0 0x0708)).is_low_battery = true := by
  have h := C7_flags 0x40 (notification 0x2040 0xF020 0x0A 0 0x0708) sample0 (by decide)
  have e : byteAt (notification 0x2040 0xF020 0x0A 0 0x0708) 14 = 0x0A := by decide
  rw [e] at h
  exact ⟨by decide, h.1.trans (by decide), h.2.1.trans (by decide), h.2.2.1.trans (by decide),
    h.2.2.2.1.trans (by decide)⟩

/-! ## C5: which fields of a sample come from its frame -/

/-- What `decodeUnit` does to the fields next to the unit, for two contents `s`, `s'`
of the `sample` variable: the current type is assigned exactly for the voltage and
current units, `is_diode_test` exactly for Volt, `is_continuity_test` exactly for
Ohm; a field that is not assigned keeps the old content. -/
theorem decodeUnit_fresh (s s' : ow_sample_t) (w : Nat) :
    ((decodeUnit s w).unit ∈ [OW_UNIT_MILLIVOLT, OW_UNIT_VOLT, OW_UNIT_MICROAMPERE,
        OW_UNIT_MILLIAMPERE, OW_UNIT_AMPERE] →
      (decodeUnit s w).current_type = (decodeUnit s' w).current_type)
    ∧ ((decodeUnit s w).unit = OW_UNIT_VOLT →
      (decodeUnit s w).is_diode_test = (decodeUnit s' w).is_diode_test)
    ∧ ((decodeUnit s w).unit = OW_UNIT_OHM →
      (decodeUnit s w).is_continuity_test = (decodeUnit s' w).is_continuity_test)
    ∧ ((decodeUnit s w).unit ∉ [OW_UNIT_MILLIVOLT, OW_UNIT_VOLT, OW_UNIT_MICROAMPERE,
        OW_UNIT_MILLIAMPERE, OW_UNIT_AMPERE] →
      (decodeUnit s w).current_type = s.current_type)
    ∧ ((decodeUnit s w).unit ≠ OW_UNIT_VOLT → (decodeUnit s w).is_diode_test = s.is_diode_test)
    ∧ ((decodeUnit s w).unit ≠ OW_UNIT_OHM →
      (decodeUnit s w).is_continuity_test = s.is_continuity_test) := by
  unfold decodeUnit
  dsimp only
  generalize w &&& 0xFFF8 = c
  by_cases hmem : c ∈ [0xF018, 0xF058, 0xF020, 0xF060, 0xF2A0, 0xF090, 0xF0D0,
      0xF098, 0xF0D8, 0xF0A0, 0xF0E0, 0xF120, 0xF2E0, 0xF128, 0xF130, 0xF148, 0xF150,
      0xF158, 0xF160, 0xF1A0, 0xF1E0, 0xF220, 0xF260, 0xF360]
  · simp only [List.mem_cons, List.mem_singleton, List.not_mem_nil, or_false] at hmem
    rcases hmem with h | h | h | h | h | h | h | h | h | h | h | h | h | h | h | h | h | h | h
      | h | h | h | h | h <;> subst h <;> simp
  · simp only [List.mem_cons, List.mem_singleton, List.not_mem_nil, not_or, or_false] at hmem
    simp [hmem]

/-- The fields `decodeUnit` never assigns. -/
theorem decodeUnit_other (s : ow_sample_t) (w : Nat) :
    (decodeUnit s w).value = s.value ∧ (decodeUnit s w).is_data_hold = s.is_data_hold
    ∧ (decodeUnit s w).is_relative = s.is_relative
    ∧ (decodeUnit s w).is_auto_range = s.is_auto_range
    ∧ (decodeUnit s w).is_low_battery = s.is_low_battery := by
  unfold decodeUnit
  simp only [apply_ite ow_sample_t.value, apply_ite ow_sample_t.is_data_hold,
    apply_ite ow_sample_t.is_relative, apply_ite ow_sample_t.is_auto_range,
    apply_ite ow_sample_t.is_low_battery, ite_self, and_self]

/-- C5, as the code has it. For every accepted frame and any two contents `s`, `s'`
of the `sample` variable before the frame (left by earlier frames, or indeterminate
before the first one): unit, value and the four status flags are determined by the
frame alone; so is `current_type` when the unit is Millivolt, Volt, Microampere,
Milliampere or Ampere, `is_diode_test` when the unit is Volt, and
`is_continuity_test` when the unit is Ohm. Outside these units the three fields are
not assigned and keep what the variable held before. -/
theorem C5_fresh_fields (hci_handle : Nat) (buf : List Byte) (s s' : ow_sample_t)
    (hacc : validate hci_handle buf = true) :
    (decode s buf).unit = (decode s' buf).unit
    ∧ (decode s buf).value = (decode s' buf).value
    ∧ (decode s buf).is_data_hold = (decode s' buf).is_data_hold
    ∧ (decode s buf).is_relative = (decode s' buf).is_relative
    ∧ (decode s buf).is_auto_range = (decode s' buf).is_auto_range
    ∧ (decode s buf).is_low_battery = (decode s' buf).is_low_battery
    ∧ ((decode s buf).unit ∈ [OW_UNIT_MILLIVOLT, OW_UNIT_VOLT, OW_UNIT_MICROAMPERE,
          OW_UNIT_MILLIAMPERE, OW_UNIT_AMPERE] →
        (decode s buf).current_type = (decode s' buf).current_type)
    ∧ ((decode s buf).unit = OW_UNIT_VOLT →
        (decode s buf).is_diode_test = (decode s' buf).is_diode_test)
    ∧ ((decode s buf).unit = OW_UNIT_OHM →
        (decode s buf).is_continuity_test = (decode s' buf).is_continuity_test)
    ∧ ((decode s buf).unit ∉ [OW_UNIT_MILLIVOLT, OW_UNIT_VOLT, OW_UNIT_MICROAMPERE,
          OW_UNIT_MILLIAMPERE, OW_UNIT_AMPERE] →
        (decode s buf).current_type = s.current_type)
    ∧ ((decode s buf).unit ≠ OW_UNIT_VOLT → (decode s buf).is_diode_test = s.is_diode_test)
    ∧ ((decode s buf).unit ≠ OW_UNIT_OHM →
        (decode s buf).is_continuity_test = s.is_continuity_test) := by
  have _ := hacc
  have h := decodeUnit_fresh s s' (u16At buf 12)
  exact ⟨decodeUnit_unit_congr s s' _ _ rfl, rfl, rfl, rfl, rfl, rfl, h.1, h.2.1, h.2.2.1,
    h.2.2.2.1, h.2.2.2.2.1, h.2.2.2.2.2⟩

/-- Witness of `C5_fresh_fields`: an accepted Kiloohm frame, decoded after two
different contents of the `sample` variable. -/
theorem C5_fresh_fields_witness :
    validate 0x40 (notification 0x2040 0xF128 0 0 0x0708) = true
    ∧ (decode sample0 (notification 0x2040 0xF128 0 0 0x0708)).unit
        = (decode (decode sample0 (notification 0x2040 0xF058 0 0 0x0001))
            (notification 0x2040 0xF128 0 0 0x0708)).unit
    ∧ (decode sample0 (notification 0x2040 0xF128 0 0 0x0708)).value
        = (decode (decode sample0 (notification 0x2040 0xF058 0 0 0x0001))
            (notification 0x2040 0xF128 0 0 0x0708)).value :=
  ⟨by decide,
   (C5_fresh_fields 0x40 (notification 0x2040 0xF128 0 0 0x0708) sample0
      (decode sample0 (notification 0x2040 0xF058 0 0 0x0001)) (by decide)).1,
   (C5_fresh_fields 0x40 (notification 0x2040 0xF128 0 0 0x0708) sample0
      (decode sample0 (notification 0x2040 0xF058 0 0 0x0001)) (by decide)).2.1⟩

/-- Counterexample to C5 as stated. The same accepted Kiloohm frame is the second
frame of two sessions of `ow_recv_n` with `n = 2`; the first frame is Millivolt AC in
one session and Millivolt DC in the other. The sample stored for the Kiloohm frame
has `current_type` AC in the first session and DC in the second: the field is not a
function of the frame's bytes. -/
theorem C5_counterexample :
    validate 0x40 (notification 0x2040 0xF128 0 0 0x0708) = true
    ∧ (ow_recv_n config0 2 sample0 [] (script_ok []
          [.ok (notification 0x2040 0xF058 0 0 0x0001),
           .ok (notification 0x2040 0xF128 0 0 0x0708)]) world0).map
        (fun r => (r.1, r.2.1.samples.map (fun p => (p.1, p.2.unit, p.2.current_type))))
      = some (true, [(0, OW_UNIT_MILLIVOLT, OW_CURRENT_TYPE_AC),
                     (1, OW_UNIT_KILOOHM, OW_CURRENT_TYPE_AC)])
    ∧ (ow_recv_n config0 2 sample0 [] (script_ok []
          [.ok (notification 0x2040 0xF018 0 0 0x0001),
           .ok (notification 0x2040 0xF128 0 0 0x0708)]) world0).map
        (fun r => (r.1, r.2.1.samples.map (fun p => (p.1, p.2.unit, p.2.current_type))))
      = some (true, [(0, OW_UNIT_MILLIVOLT, OW_CURRENT_TYPE_DC),
                     (1, OW_UNIT_KILOOHM, OW_CURRENT_TYPE_DC)]) := by
  refine ⟨by decide, by decide, by decide⟩

/-! ## C6: frames that share the masked code and the value field -/

/-- C6, as the code has it. For two accepted frames whose unit words agree once the
bottom 3 bits are ignored and whose value words are equal: the decoded unit and the
sign are identical; the current type is identical when both are decoded from the
same content of the `sample` variable, and from any contents when the unit is a
voltage or current unit; the scale factor is identical when the two low bits of the
unit words agree as well, and the value when all three bottom bits agree. -/
theorem C6_same_code (hci_handle : Nat) (buf buf' : List Byte) (s s' : ow_sample_t)
    (hacc : validate hci_handle buf = true) (hacc' : validate hci_handle buf' = true)
    (hcode : u16At buf 12 / 8 = u16At buf' 12 / 8) (hval : u16At buf 16 = u16At buf' 16) :
    (decode s buf).unit = (decode s' buf').unit
    ∧ decodeSign (u16At buf 16) = decodeSign (u16At buf' 16)
    ∧ (decode s buf).current_type = (decode s buf').current_type
    ∧ ((decode s buf).unit ∈ [OW_UNIT_MILLIVOLT, OW_UNIT_VOLT, OW_UNIT_MICROAMPERE,
          OW_UNIT_MILLIAMPERE, OW_UNIT_AMPERE] →
        (decode s buf).current_type = (decode s' buf').current_type)
    ∧ (u16At buf 12 % 4 = u16At buf' 12 % 4 →
        decodeFactor (u16At buf 12) = decodeFactor (u16At buf' 12))
    ∧ (u16At buf 12 % 8 = u16At buf' 12 % 8 →
        (decode s buf).value = (decode s' buf').value) := by
  have _ := hacc
  have _ := hacc'
  have hmask : u16At buf 12 &&& 0xFFF8 = u16At buf' 12 &&& 0xFFF8 := by
    rw [land_FFF8 _ (u16At_lt buf 12), land_FFF8 _ (u16At_lt buf' 12), hcode]
  have hu : decodeUnit s (u16At buf 12) = decodeUnit s (u16At buf' 12) :=
    decodeUnit_congr s _ _ hmask
  refine ⟨decodeUnit_unit_congr s s' _ _ hmask, by rw [hval], ?_, ?_, ?_, ?_⟩
  · rw [decode_current_type, decode_current_type, hu]
  · intro hmem
    rw [decode_unit] at hmem
    rw [decode_current_type, decode_current_type,
      (decodeUnit_fresh s s' (u16At buf 12)).1 hmem]
    exact congrArg ow_sample_t.current_type (decodeUnit_congr s' _ _ hmask)
  · intro h4
    rw [decodeFactor_eq, decodeFactor_eq, h4]
  · intro h8
    have hw : u16At buf 12 = u16At buf' 12 := by omega
    rw [decode_value, decode_value, hw, hval]

/-- Witness of `C6_same_code`: unit words `0xF020` and `0xF024` with value word
`0x0708`. -/
theorem C6_same_code_witness :
    validate 0x40 (notification 0x2040 0xF020 0 0 0x0708) = true
    ∧ validate 0x40 (notification 0x2040 0xF024 0 0 0x0708) = true
    ∧ u16At (notification 0x2040 0xF020 0 0 0x0708) 12 / 8
        = u16At (notification 0x2040 0xF024 0 0 0x0708) 12 / 8
    ∧ u16At (notification 0x2040 0xF020 0 0 0x0708) 16
        = u16At (notification 0x2040 0xF024 0 0 0x0708) 16
    ∧ (decode sample0 (notification 0x2040 0xF020 0 0 0x0708)).unit
        = (decode sample0 (notification 0x2040 0xF024 0 0 0x0708)).unit :=
  ⟨by decide, by decide, by decide, by decide,
   (C6_same_code 0x40 (notification 0x2040 0xF020 0 0 0x0708)
      (notification 0x2040 0xF024 0 0 0x0708) sample0 sample0 (by decide) (by decide)
      (by decide) (by decide)).1⟩

/-- Counterexample to C6 as stated. Two accepted frames with unit words `0xF020` and
`0xF023` (equal once the bottom 3 bits are ignored) and the same value word `0x0708`
decode to the scale factors 1 and `0.001` and to the values 1800 and 1.8 (as
`double`s: the values nearest to 1/1000 and to 18/10). -/
theorem C6_counterexample :
    validate 0x40 (notification 0x2040 0xF020 0 0 0x0708) = true
    ∧ validate 0x40 (notification 0x2040 0xF023 0 0 0x0708) = true
    ∧ u16At (notification 0x2040 0xF020 0 0 0x0708) 12 &&& 0xFFF8
        = u16At (notification 0x2040 0xF023 0 0 0x0708) 12 &&& 0xFFF8
    ∧ u16At (notification 0x2040 0xF020 0 0 0x0708) 16
        = u16At (notification 0x2040 0xF023 0 0 0x0708) 16
    ∧ decodeFactor (u16At (notification 0x2040 0xF020 0 0 0x0708) 12)
        = { negative := false, magnitude := 1 }
    ∧ decodeFactor (u16At (notification 0x2040 0xF023 0 0 0x0708) 12)
        = { negative := false, magnitude := 1152921504606847 / 2 ^ 60 }
    ∧ (decode sample0 (notification 0x2040 0xF020 0 0 0x0708)).value
        = some { negative := false, magnitude := 1800 }
    ∧ (decode sample0 (notification 0x2040 0xF023 0 0 0x0708)).value
        = some { negative := false, magnitude := 8106479329266893 / 2 ^ 52 }
    ∧ (decode sample0 (notification 0x2040 0xF020 0 0 0x0708)).value
        ≠ (decode sample0 (notification 0x2040 0xF023 0 0 0x0708)).value := by
  have e0 : u16At (notification 0x2040 0xF020 0 0 0x0708) 12 = 0xF020 := by decide
  have e1 : u16At (notification 0x2040 0xF020 0 0 0x0708) 16 = 0x0708 := by decide
  have e2 : u16At (notification 0x2040 0xF023 0 0 0x0708) 12 = 0xF023 := by decide
  have e3 : u16At (notification 0x2040 0xF023 0 0 0x0708) 16 = 0x0708 := by decide
  have t1 : Nat.testBit 0x0708 15 = false := by decide
  have m1 : (0x0708 &&& 0x3FFF : Nat) = 1800 := by decide
  have k0 : 0xF020 % 4 = 0 := by decide
  have k3 : 0xF023 % 4 = 3 := by decide
  have x0 : binary64_round (binary64_round (1 / 10 ^ 0) * ((1800 : ℕ) : ℚ)) = 1800 := by
    have h := (binary64_value_facts 0 1800 (by norm_num) (by norm_num)).2.2.2.2 rfl
    rw [h]
    norm_num
  have v1 : (decode sample0 (notification 0x2040 0xF020 0 0 0x0708)).value
      = some { negative := false, magnitude := 1800 } := by
    rw [decode_value, e0, e1, decodeValue_no_overflow _ _ (by decide), t1, m1, k0, x0]
  have v2 : (decode sample0 (notification 0x2040 0xF023 0 0 0x0708)).value
      = some { negative := false, magnitude := 8106479329266893 / 2 ^ 52 } := by
    rw [decode_value, e2, e3, decodeValue_no_overflow _ _ (by decide), t1, m1, k3,
      binary64_value_1800_milli]
  refine ⟨by decide, by decide, by decide, by decide, ?_, ?_, v1, v2, ?_⟩
  · rw [e0, decodeFactor_eq, k0]
    simp only [pow_zero, div_one, binary64_round_one]
  · have e : (1 : ℚ) / 10 ^ 3 = 1 / 1000 := by norm_num
    rw [e2, decodeFactor_eq, k3, e, binary64_round_thousandth]
  · rw [v1, v2]
    intro h
    simp only [Option.some.injEq, binary64.mk.injEq, true_and] at h
    norm_num at h

/-! ## The receive loop under the bounded consumer -/

theorem validate_length (hci_handle : Nat) (buf : List Byte)
    (h : validate hci_handle buf = true) : buf.length = 18 :=
  ((validate_iff hci_handle buf).mp h).1

/-- The buffer of `HCI_MAX_EVENT_SIZE` bytes does not change which frames pass. -/
theorem validate_take (hci_handle : Nat) (bytes : List Byte) :
    validate hci_handle (bytes.take HCI_MAX_EVENT_SIZE) = validate hci_handle bytes := by
  by_cases hlen : bytes.length ≤ HCI_MAX_EVENT_SIZE
  · rw [List.take_of_length_le hlen]
  · have h1 : validate hci_handle (bytes.take HCI_MAX_EVENT_SIZE) = false := by
      cases hv : validate hci_handle (bytes.take HCI_MAX_EVENT_SIZE)
      · rfl
      · have := validate_length _ _ hv
        rw [List.length_take] at this
        unfold HCI_MAX_EVENT_SIZE at this hlen
        omega
    have h2 : validate hci_handle bytes = false := by
      cases hv : validate hci_handle bytes
      · rfl
      · have := validate_length _ _ hv
        unfold HCI_MAX_EVENT_SIZE at hlen
        omega
    rw [h1, h2]

theorem take_of_validate (hci_handle : Nat) (bytes : List Byte)
    (h : validate hci_handle bytes = true) : bytes.take HCI_MAX_EVENT_SIZE = bytes := by
  apply List.take_of_length_le
  rw [validate_length _ _ h]
  decide

theorem stored_append (start : Int) (d : ow_sample_t) (ds : List ow_sample_t)
    (pre : List (Int × ow_sample_t)) :
    pre ++ [(start, d)] ++ stored (start + 1) ds = pre ++ stored start (d :: ds) := by
  simp [stored]

theorem stored_length (ds : List ow_sample_t) : ∀ start : Int, (stored start ds).length = ds.length := by
  induction ds with
  | nil => intro start; rfl
  | cons d ds ih => intro start; simp [stored, ih]

/-- The receive loop run with `ow_recv_n_sample`, entered with `count < n`: when it
ends, it has stored the samples of the first `k` accepted frames at the indices
`count .. count + k - 1`, `count + k` does not exceed `n`, and `error` is 0 exactly
when `count + k = n`. -/
theorem recv_n_loop (bt_sock hci_handle : Nat) :
    ∀ (reads : List (Outcome (List Byte))) (sample : ow_sample_t) (context : ow_recv_n_context_t)
      (w : World) (error : Nat) (context' : ow_recv_n_context_t) (w' : World),
      ow_recv_loop ow_recv_n_sample bt_sock hci_handle reads sample context w
        = some (error, context', w') →
      reads.all Outcome.sets_errno = true → context.count < context.n →
      ∃ k : Nat, k ≤ (accepted hci_handle reads).length
        ∧ context'.samples = context.samples
            ++ stored context.count ((decodeAll sample (accepted hci_handle reads)).take k)
        ∧ context'.count = context.count + k ∧ context'.n = context.n
        ∧ context'.count ≤ context.n ∧ (error = 0 ↔ context'.count = context.n) := by
  intro reads
  induction reads with
  | nil =>
    intro sample context w error context' w' h
    simp [ow_recv_loop] at h
  | cons r rest ih =>
    intro sample context w error context' w' h hwf hlt
    rw [List.all_cons, Bool.and_eq_true] at hwf
    cases r with
    | fail e =>
      rw [ow_recv_loop] at h
      by_cases ht : e = EAGAIN ∨ e = EINTR
      · rw [if_pos ht] at h
        obtain ⟨k, hk⟩ := ih sample context _ error context' w' h hwf.2 hlt
        exact ⟨k, by simpa [accepted] using hk⟩
      · rw [if_neg ht] at h
        simp only [Option.some.injEq, Prod.mk.injEq] at h
        obtain ⟨he, hc, _⟩ := h
        subst hc
        have he0 : e ≠ 0 := by simpa [Outcome.sets_errno] using hwf.1
        refine ⟨0, Nat.zero_le _, by simp [stored], by simp, rfl, le_of_lt hlt, ?_⟩
        subst he
        constructor
        · intro h0; exact absurd h0 he0
        · intro hc; omega
    | ok bytes =>
      rw [ow_recv_loop] at h
      by_cases h0 : (bytes.take HCI_MAX_EVENT_SIZE).length = 0
      · rw [if_pos h0] at h
        simp only [Option.some.injEq, Prod.mk.injEq] at h
        obtain ⟨he, hc, _⟩ := h
        subst hc
        refine ⟨0, Nat.zero_le _, by simp [stored], by simp, rfl, le_of_lt hlt, ?_⟩
        subst he
        constructor
        · intro h0; exact absurd h0 (by decide)
        · intro hc; omega
      · rw [if_neg h0] at h
        by_cases hv : validate hci_handle bytes = true
        · have hv' : ¬ (validate hci_handle (bytes.take HCI_MAX_EVENT_SIZE) = false) := by
            rw [validate_take, hv]; simp
          rw [if_neg hv', take_of_validate _ _ hv] at h
          dsimp only at h
          have hacc : accepted hci_handle (Outcome.ok bytes :: rest)
              = bytes :: accepted hci_handle rest := by simp [accepted, hv]
          rw [hacc]
          by_cases hcont : context.count + 1 < context.n
          · have hcb : ow_recv_n_sample (decode sample bytes) context
                = (true, { context with
                    samples := context.samples ++ [(context.count, decode sample bytes)]
                    count := context.count + 1 }) := by
              simp [ow_recv_n_sample, hcont]
            rw [hcb] at h
            simp only at h
            obtain ⟨k, hk1, hk2, hk3, hk4, hk5, hk6⟩ :=
              ih (decode sample bytes) _ _ error context' w' h hwf.2 hcont
            refine ⟨k + 1, by simpa using hk1, ?_, ?_, hk4, hk5, hk6⟩
            · rw [hk2]
              simp only [decodeAll, List.take_succ_cons]
              exact stored_append _ _ _ _
            · rw [hk3]; push_cast; ring
          · have hcb : ow_recv_n_sample (decode sample bytes) context
                = (false, { context with
                    samples := context.samples ++ [(context.count, decode sample bytes)]
                    count := context.count + 1 }) := by
              simp [ow_recv_n_sample, hcont]
            rw [hcb] at h
            simp only [Option.some.injEq, Prod.mk.injEq] at h
            obtain ⟨he, hc, _⟩ := h
            subst hc
            subst he
            refine ⟨1, by simp, by simp [decodeAll, stored], by simp, rfl, ?_, ?_⟩
            · simp only; omega
            · simp only [true_iff]; omega
        · have hv' : validate hci_handle (bytes.take HCI_MAX_EVENT_SIZE) = false := by
            rw [validate_take]; simpa using hv
          rw [if_pos hv'] at h
          obtain ⟨k, hk⟩ := ih sample context _ error context' w' h hwf.2 hlt
          exact ⟨k, by simpa [accepted, hv] using hk⟩

/-! ## The return value of `ow_recv` -/

theorem close_out_fst (t : Script) (bt_sock error : Nat) (w : World) :
    (close_out t bt_sock error w).1 = decide (error = 0) := by
  unfold close_out
  by_cases h : error = 0 <;> simp [h]

theorem disc_close_out_fst (t : Script) (bt_sock hci_handle error : Nat) (w : World) :
    (disc_close_out t bt_sock hci_handle error w).1 = decide (error = 0) := by
  unfold disc_close_out
  exact close_out_fst _ _ _ _

theorem restore_disc_close_out_fst (t : Script) (bt_sock hci_handle : Nat) (old : hci_filter)
    (error : Nat) (w : World) :
    (restore_disc_close_out t bt_sock hci_handle old error w).1 = decide (error = 0) := by
  unfold restore_disc_close_out
  exact disc_close_out_fst _ _ _ _ _

/-- The function `ow_scan_for_address` returns `false` only with a nonzero `errno`. -/
theorem scan_false_errno (bt_sock : Nat) (params : ow_scan_params) (old : hci_filter)
    (addr : List Byte) (t : Script) (w : World) (addr' : List Byte) (w' : World)
    (h : ow_scan_for_address bt_sock params old addr t w = some (false, addr', w'))
    (hwf : t.scan_set_filter.sets_errno = true) : w'.errno ≠ 0 := by
  have hrest : ∀ (error : Nat) (a : List Byte) (w1 : World),
      scan_restore_out bt_sock old t error a w1 = (false, addr', w') → w'.errno ≠ 0 := by
    intro error a w1 h1
    unfold scan_restore_out at h1
    by_cases he : error = 0
    · simp [he] at h1
    · simp only [ne_eq, he, not_false_eq_true, if_true, Prod.mk.injEq, true_and] at h1
      rw [← h1.2]
      exact he
  unfold ow_scan_for_address at h
  cases hf : t.scan_set_filter with
  | fail e =>
    simp only [ow_set_hci_filter, hf, Option.some.injEq, Prod.mk.injEq, true_and] at h
    rw [← h.2]
    simpa [Outcome.sets_errno, hf] using hwf
  | ok u =>
    simp only [ow_set_hci_filter, hf] at h
    cases hp : t.scan_parameters with
    | fail e =>
      simp only [hp, Option.some.injEq] at h
      exact hrest _ _ _ h
    | ok u2 =>
      simp only [hp] at h
      cases hen : t.scan_enable with
      | fail e =>
        simp only [hen, Option.some.injEq] at h
        exact hrest _ _ _ h
      | ok u3 =>
        simp only [hen] at h
        split at h
        · exact absurd h (by simp)
        · simp only [Option.some.injEq] at h
          unfold scan_disable_restore_out at h
          exact hrest _ _ _ h

/-- Embeds `ow_recv` from the filter switch on: it returns `false` with the context
untouched, or the receive loop ran and the return value tells whether its `error`
is 0. -/
theorem ow_recv_receive_cases {σ : Type} (callback : ow_sample_t → σ → Bool × σ) (context : σ)
    (sample : ow_sample_t) (bt_sock hci_handle : Nat) (old : hci_filter) (t : Script) (w : World)
    (b : Bool) (context' : σ) (w' : World)
    (h : ow_recv_receive callback context sample bt_sock hci_handle old t w
      = some (b, context', w'))
    (hwf : t.recv_set_filter.sets_errno = true) :
    (b = false ∧ context' = context)
    ∨ ∃ (error : Nat) (w1 w2 : World),
        ow_recv_loop callback bt_sock hci_handle t.recv_reads sample context w1
          = some (error, context', w2) ∧ b = decide (error = 0) := by
  unfold ow_recv_receive at h
  cases hf : t.recv_set_filter with
  | fail e =>
    left
    have he : e ≠ 0 := by simpa [Outcome.sets_errno, hf] using hwf
    simp only [ow_set_hci_filter, hf, Option.some.injEq, Prod.mk.injEq, disc_close_out_fst] at h
    exact ⟨by rw [← h.1]; simpa using he, h.2.1.symm⟩
  | ok u =>
    right
    simp only [ow_set_hci_filter, hf] at h
    split at h
    · exact absurd h (by simp)
    · rename_i error c w2 hloop
      simp only [Option.some.injEq, Prod.mk.injEq, restore_disc_close_out_fst] at h
      obtain ⟨h1, h2, _⟩ := h
      subst h2
      exact ⟨error, _, w2, hloop, h1.symm⟩

/-- Embeds `ow_recv` from the connect on. -/
theorem ow_recv_connect_cases {σ : Type} (config : ow_config_t)
    (callback : ow_sample_t → σ → Bool × σ) (context : σ)
    (sample : ow_sample_t) (bt_sock : Nat) (old : hci_filter) (addr : List Byte) (t : Script)
    (w : World) (b : Bool) (context' : σ) (w' : World)
    (h : ow_recv_connect config callback context sample bt_sock old addr t w
      = some (b, context', w'))
    (hwf1 : t.create_conn.sets_errno = true) (hwf2 : t.recv_set_filter.sets_errno = true) :
    (b = false ∧ context' = context)
    ∨ ∃ (handle error : Nat) (w1 w2 : World), t.create_conn = Outcome.ok handle
        ∧ ow_recv_loop callback bt_sock (handle % 65536) t.recv_reads sample context w1
          = some (error, context', w2) ∧ b = decide (error = 0) := by
  have hconn : ∀ params : ow_connect_params,
      (match ow_connect bt_sock addr params t.create_conn w with
        | (none, w) =>
          let r := close_out t bt_sock w.errno w
          some (r.1, context, r.2)
        | (some hci_handle, w) =>
          ow_recv_receive callback context sample bt_sock hci_handle old t w)
        = some (b, context', w') →
      (b = false ∧ context' = context)
      ∨ ∃ (handle error : Nat) (w1 w2 : World), t.create_conn = Outcome.ok handle
          ∧ ow_recv_loop callback bt_sock (handle % 65536) t.recv_reads sample context w1
            = some (error, context', w2) ∧ b = decide (error = 0) := by
    intro params h1
    cases hc : t.create_conn with
    | fail e =>
      left
      have he : e ≠ 0 := by simpa [Outcome.sets_errno, hc] using hwf1
      simp only [ow_connect, hc, World.call, Option.some.injEq, Prod.mk.injEq,
        close_out_fst] at h1
      exact ⟨by rw [← h1.1]; simpa using he, h1.2.1.symm⟩
    | ok handle =>
      simp only [ow_connect, hc] at h1
      rcases ow_recv_receive_cases callback context sample bt_sock _ old t _ b context' w' h1 hwf2
        with hl | ⟨error, w1, w2, hloop, hb⟩
      · exact Or.inl hl
      · exact Or.inr ⟨handle, error, w1, w2, rfl, hloop, hb⟩
  unfold ow_recv_connect at h
  split_ifs at h
  · exact hconn _ h
  · exact hconn _ h
  · left
    simp only [Option.some.injEq, Prod.mk.injEq, close_out_fst] at h
    exact ⟨by rw [← h.1]; decide, h.2.1.symm⟩

/-- Embeds `ow_recv` from the scan on. -/
theorem ow_recv_scan_cases {σ : Type} (config : ow_config_t)
    (callback : ow_sample_t → σ → Bool × σ) (context : σ)
    (sample : ow_sample_t) (bt_sock : Nat) (old : hci_filter) (addr : List Byte) (t : Script)
    (w : World) (b : Bool) (context' : σ) (w' : World)
    (h : ow_recv_scan config callback context sample bt_sock old addr t w
      = some (b, context', w'))
    (hwf0 : t.scan_set_filter.sets_errno = true)
    (hwf1 : t.create_conn.sets_errno = true) (hwf2 : t.recv_set_filter.sets_errno = true) :
    (b = false ∧ context' = context)
    ∨ ∃ (handle error : Nat) (w1 w2 : World), t.create_conn = Outcome.ok handle
        ∧ ow_recv_loop callback bt_sock (handle % 65536) t.recv_reads sample context w1
          = some (error, context', w2) ∧ b = decide (error = 0) := by
  have hscan : ∀ params : ow_scan_params,
      (match ow_scan_for_address bt_sock params old addr t w with
        | none => none
        | some (false, _, w) =>
          let r := close_out t bt_sock w.errno w
          some (r.1, context, r.2)
        | some (true, addr, w) =>
          ow_recv_connect config callback context sample bt_sock old addr t w)
        = some (b, context', w') →
      (b = false ∧ context' = context)
      ∨ ∃ (handle error : Nat) (w1 w2 : World), t.create_conn = Outcome.ok handle
          ∧ ow_recv_loop callback bt_sock (handle % 65536) t.recv_reads sample context w1
            = some (error, context', w2) ∧ b = decide (error = 0) := by
    intro params h1
    split at h1
    · exact absurd h1 (by simp)
    · rename_i a w1 hs
      left
      have he := scan_false_errno bt_sock params old addr t w a w1 hs hwf0
      simp only [Option.some.injEq, Prod.mk.injEq, close_out_fst] at h1
      exact ⟨by rw [← h1.1]; simpa using he, h1.2.1.symm⟩
    · exact ow_recv_connect_cases config callback context sample bt_sock old _ t _ b context' w'
        h1 hwf1 hwf2
  unfold ow_recv_scan at h
  split_ifs at h
  · exact ow_recv_connect_cases config callback context sample bt_sock old _ t _ b context' w'
      h hwf1 hwf2
  · exact hscan _ h
  · exact hscan _ h
  · left
    simp only [Option.some.injEq, Prod.mk.injEq, close_out_fst] at h
    exact ⟨by rw [← h.1]; decide, h.2.1.symm⟩

/-- The return value of `ow_recv`, when failing calls set a nonzero `errno`: it
returns `false` with the callback never called, or the connect succeeded, the
receive loop ran with the connection's handle from the initial context, and the
return value is `true` exactly when the loop ended with `error = 0`. -/
theorem ow_recv_cases {σ : Type} (config : ow_config_t)
    (callback : ow_sample_t → σ → Bool × σ) (context : σ)
    (sample : ow_sample_t) (addr : List Byte) (t : Script)
    (w : World) (b : Bool) (context' : σ) (w' : World)
    (h : ow_recv config callback context sample addr t w = some (b, context', w'))
    (hwf : t.sets_errno = true) :
    (b = false ∧ context' = context)
    ∨ ∃ (bt_sock handle error : Nat) (w1 w2 : World), t.create_conn = Outcome.ok handle
        ∧ ow_recv_loop callback bt_sock (handle % 65536) t.recv_reads sample context w1
          = some (error, context', w2) ∧ b = decide (error = 0) := by
  simp only [Script.sets_errno, Bool.and_eq_true] at hwf
  obtain ⟨⟨⟨⟨⟨⟨⟨⟨_, hgf⟩, hsf⟩, _⟩, _⟩, _⟩, hcc⟩, hrf⟩, _⟩ := hwf
  have hfrom : ∀ (dev_id : Int) (w0 : World),
      (match ow_open_socket dev_id t.open_dev w0 with
        | (none, w) => some (false, context, w)
        | (some bt_sock, w) =>
          match ow_get_hci_filter bt_sock t.get_filter w with
          | (none, w) =>
            let r := close_out t bt_sock w.errno w
            some (r.1, context, r.2)
          | (some old_hci_filter, w) =>
            ow_recv_scan config callback context sample bt_sock old_hci_filter addr t w)
        = some (b, context', w') →
      (b = false ∧ context' = context)
      ∨ ∃ (bt_sock handle error : Nat) (w1 w2 : World), t.create_conn = Outcome.ok handle
          ∧ ow_recv_loop callback bt_sock (handle % 65536) t.recv_reads sample context w1
            = some (error, context', w2) ∧ b = decide (error = 0) := by
    intro dev_id w0 h1
    cases ho : t.open_dev with
    | fail e =>
      simp only [ow_open_socket, ho, Option.some.injEq, Prod.mk.injEq] at h1
      exact Or.inl ⟨h1.1.symm, h1.2.1.symm⟩
    | ok bt_sock =>
      simp only [ow_open_socket, ho] at h1
      cases hg : t.get_filter with
      | fail e =>
        have he : e ≠ 0 := by simpa [Outcome.sets_errno, hg] using hgf
        simp only [ow_get_hci_filter, hg, World.call, Option.some.injEq, Prod.mk.injEq,
          close_out_fst] at h1
        exact Or.inl ⟨by rw [← h1.1]; simpa using he, h1.2.1.symm⟩
      | ok u =>
        simp only [ow_get_hci_filter, hg] at h1
        rcases ow_recv_scan_cases config callback context sample bt_sock _ addr t _ b context' w'
          h1 hsf hcc hrf with hl | ⟨handle, error, w1, w2, hx⟩
        · exact Or.inl hl
        · exact Or.inr ⟨bt_sock, handle, error, w1, w2, hx⟩
  unfold ow_recv at h
  by_cases hauto : config.dev_id = OW_DEV_ID_AUTOMATIC
  · rw [if_pos hauto] at h
    unfold ow_get_default_device_id at h
    by_cases hr : t.route < 0
    · simp only [hr, if_true, Option.some.injEq, Prod.mk.injEq] at h
      exact Or.inl ⟨h.1.symm, h.2.1.symm⟩
    · simp only [hr, if_false] at h
      exact hfrom _ _ h
  · rw [if_neg hauto] at h
    exact hfrom _ _ h

/-! ## C8, C9: the bounded variant -/

theorem decodeAll_length (frames : List (List Byte)) :
    ∀ sample : ow_sample_t, (decodeAll sample frames).length = frames.length := by
  induction frames with
  | nil => intro sample; rfl
  | cons f fs ih => intro sample; simp [decodeAll, ih]

/-- C8. For `n ≥ 1`, every configuration and every script of transport outcomes in
which failing calls set a nonzero `errno`: if `ow_recv_n` returns `true`, the
connect succeeded, the stream holds at least `n` accepted frames, and exactly `n`
cells were written, `samples[0..n-1]`, cell `i` holding the decode of the `(i+1)`-th
accepted frame in arrival order; if fewer than `n` cells were written when it
returns, it returns `false`; it never writes more than `n` cells. -/
theorem C8_recv_n (config : ow_config_t) (n : Int) (hn : 1 ≤ n) (sample : ow_sample_t)
    (addr : List Byte) (t : Script) (w : World) (hwf : t.sets_errno = true)
    (r : Bool × ow_recv_n_context_t × World)
    (hr : ow_recv_n config n sample addr t w = some r) :
    (r.1 = true → ∃ handle : Nat, t.create_conn = Outcome.ok handle
        ∧ n.toNat ≤ (accepted (handle % 65536) t.recv_reads).length
        ∧ r.2.1.samples
            = stored 0 ((decodeAll sample (accepted (handle % 65536) t.recv_reads)).take n.toNat))
    ∧ ((r.2.1.samples.length : Int) < n → r.1 = false)
    ∧ (r.2.1.samples.length : Int) ≤ n := by
  obtain ⟨b, context', w'⟩ := r
  unfold ow_recv_n at hr
  rcases ow_recv_cases config ow_recv_n_sample _ sample addr t w b context' w' hr hwf with
    ⟨hb, hc⟩ | ⟨bt_sock, handle, error, w1, w2, hcc, hloop, hb⟩
  · subst hc
    subst hb
    refine ⟨by simp, by simp, ?_⟩
    simp only [List.length_nil]
    omega
  · have hreads : t.recv_reads.all Outcome.sets_errno = true := by
      simp only [Script.sets_errno, Bool.and_eq_true] at hwf
      exact hwf.2
    obtain ⟨k, hk1, hk2, hk3, _, hk5, hk6⟩ :=
      recv_n_loop bt_sock (handle % 65536) t.recv_reads sample _ w1 error context' w2 hloop
        hreads (by simpa using hn)
    simp only [List.nil_append, zero_add] at hk2 hk3 hk5 hk6
    have hlen : context'.samples.length = k := by
      rw [hk2, stored_length, List.length_take, decodeAll_length]
      omega
    refine ⟨?_, ?_, ?_⟩
    · intro hbt
      simp only at hbt
      rw [hbt] at hb
      have he : error = 0 := by simpa using hb.symm
      have hkn : (k : Int) = n := by rw [← hk3]; exact hk6.mp he
      have hk : n.toNat = k := by omega
      exact ⟨handle, hcc, by rw [hk]; exact hk1, by rw [hk]; exact hk2⟩
    · intro hlt
      simp only [hlen] at hlt
      have hne : error ≠ 0 := by
        intro he
        have := hk6.mp he
        omega
      simp only
      rw [hb]
      simpa using hne
    · simp only [hlen]
      omega

/-- Witness of C8 (end-to-end scenario 5): `n = 3` against five valid frames with two
unrelated frames among them returns `true` and stores the samples of the first three
valid frames in cells 0, 1, 2. -/
theorem C8_recv_n_witness :
    (1 : Int) ≤ 3 ∧ (script_ok [] stream7).sets_errno = true
    ∧ (ow_recv_n config0 3 sample0 [] (script_ok [] stream7) world0).map (fun r => r.1)
        = some true
    ∧ (ow_recv_n config0 3 sample0 [] (script_ok [] stream7) world0).map
          (fun r => r.2.1.samples)
        = some [(0, decode sample0 (notification 0x2040 0xF020 0 0 0x0708)),
                (1, decode (decode sample0 (notification 0x2040 0xF020 0 0 0x0708))
                      (notification 0x2040 0xF023 0 0 0x0708)),
                (2, decode (decode (decode sample0 (notification 0x2040 0xF020 0 0 0x0708))
                      (notification 0x2040 0xF023 0 0 0x0708))
                      (notification 0x2040 0xF020 0 0 0x8708))] := by
  have hb : (ow_recv_n config0 3 sample0 [] (script_ok [] stream7) world0).map (fun r => r.1)
      = some true := by decide
  refine ⟨by decide, by decide, hb, ?_⟩
  cases hr : ow_recv_n config0 3 sample0 [] (script_ok [] stream7) world0 with
  | none => rw [hr] at hb; exact absurd hb (by simp)
  | some r =>
    rw [hr] at hb
    have hb' : r.1 = true := by simpa using hb
    obtain ⟨handle, hcc, _, hs⟩ :=
      (C8_recv_n config0 3 (by decide) sample0 [] (script_ok [] stream7) world0 (by decide) r hr).1
        hb'
    have hh : handle = 0x40 := by
      have : (Outcome.ok 0x40 : Outcome Nat) = Outcome.ok handle := hcc
      injection this with h1
      exact h1.symm
    subst hh
    have hacc : accepted (0x40 % 65536) (script_ok [] stream7).recv_reads
        = [notification 0x2040 0xF020 0 0 0x0708, notification 0x2040 0xF023 0 0 0x0708,
           notification 0x2040 0xF020 0 0 0x8708, notification 0x2040 0xF12A 0 0 0x04D2,
           notification 0x2040 0xF058 0 0 0x01F4] := by decide
    rw [hacc] at hs
    simp only [Option.map_some', hs]
    rfl

/-- C9 at its failing inputs. With `n = 0` (and with `n = -1`) and a stream whose
first read is an accepted frame, `ow_recv_n` writes the cell `samples[0]`, an index
that is not below `n`, and returns `true`. -/
theorem C9_failing_input :
    (ow_recv_n config0 0 sample0 [] (script_ok [] stream7) world0).map
        (fun r => (r.1, r.2.1.n, r.2.1.samples.map Prod.fst)) = some (true, 0, [0])
    ∧ (ow_recv_n config0 (-1) sample0 [] (script_ok [] stream7) world0).map
        (fun r => (r.1, r.2.1.n, r.2.1.samples.map Prod.fst)) = some (true, -1, [0]) := by
  refine ⟨by decide, by decide⟩

/-! ## C10: the capture filter after `ow_recv` -/

theorem call_filter {α : Type} (w : World) (op : Op) (r : Outcome α) :
    (w.call op r).filter = w.filter := by
  cases r <;> rfl

theorem close_out_filter (t : Script) (bt_sock error : Nat) (w : World) :
    (close_out t bt_sock error w).2.filter = w.filter := by
  unfold close_out
  by_cases h : error = 0 <;> simp [h, call_filter]

theorem disc_close_out_filter (t : Script) (bt_sock hci_handle error : Nat) (w : World) :
    (disc_close_out t bt_sock hci_handle error w).2.filter = w.filter := by
  unfold disc_close_out
  rw [close_out_filter, call_filter]

theorem restore_disc_close_out_filter (t : Script) (bt_sock hci_handle : Nat) (old : hci_filter)
    (error : Nat) (w : World) (hr : t.restore = Outcome.ok ()) :
    (restore_disc_close_out t bt_sock hci_handle old error w).2.filter = old := by
  unfold restore_disc_close_out
  rw [disc_close_out_filter, hr]
  rfl

theorem ow_recv_loop_filter {σ : Type} (callback : ow_sample_t → σ → Bool × σ)
    (bt_sock hci_handle : Nat) :
    ∀ (reads : List (Outcome (List Byte))) (sample : ow_sample_t) (context : σ) (w : World)
      (error : Nat) (context' : σ) (w' : World),
      ow_recv_loop callback bt_sock hci_handle reads sample context w
        = some (error, context', w') → w'.filter = w.filter := by
  intro reads
  induction reads with
  | nil =>
    intro sample context w error context' w' h
    simp [ow_recv_loop] at h
  | cons r rest ih =>
    intro sample context w error context' w' h
    cases r with
    | fail e =>
      rw [ow_recv_loop] at h
      split_ifs at h
      · rw [ih _ _ _ _ _ _ h, call_filter]
      · simp only [Option.some.injEq, Prod.mk.injEq] at h
        rw [← h.2.2, call_filter]
    | ok bytes =>
      rw [ow_recv_loop] at h
      dsimp only at h
      split_ifs at h
      · simp only [Option.some.injEq, Prod.mk.injEq] at h
        rw [← h.2.2, call_filter]
      · rw [ih _ _ _ _ _ _ h, call_filter]
      · split at h
        · rw [ih _ _ _ _ _ _ h, call_filter]
        · simp only [Option.some.injEq, Prod.mk.injEq] at h
          rw [← h.2.2, call_filter]

theorem ow_scan_loop_filter (bt_sock : Nat) (params : ow_scan_params) :
    ∀ (reads : List (Outcome (List Byte))) (addr : List Byte) (w : World)
      (error : Nat) (addr' : List Byte) (w' : World),
      ow_scan_loop bt_sock params reads addr w = some (error, addr', w') →
      w'.filter = w.filter := by
  intro reads
  induction reads with
  | nil =>
    intro addr w error addr' w' h
    simp [ow_scan_loop] at h
  | cons r rest ih =>
    intro addr w error addr' w' h
    cases r with
    | fail e =>
      rw [ow_scan_loop] at h
      split_ifs at h
      · rw [ih _ _ _ _ _ h, call_filter]
      · simp only [Option.some.injEq, Prod.mk.injEq] at h
        rw [← h.2.2, call_filter]
    | ok bytes =>
      rw [ow_scan_loop] at h
      dsimp only at h
      split_ifs at h
      · simp only [Option.some.injEq, Prod.mk.injEq] at h
        rw [← h.2.2, call_filter]
      · rw [ih _ _ _ _ _ h, call_filter]
      · simp only [Option.some.injEq, Prod.mk.injEq] at h
        rw [← h.2.2, call_filter]
      · rw [ih _ _ _ _ _ h, call_filter]
      · split at h
        · exact absurd h (by simp)
        · rw [ih _ _ _ _ _ h, call_filter]
        · split at h
          · exact absurd h (by simp)
          · rw [ih _ _ _ _ _ h, call_filter]
          · split_ifs at h
            · simp only [Option.some.injEq, Prod.mk.injEq] at h
              rw [← h.2.2, call_filter]
            · rw [ih _ _ _ _ _ h, call_filter]

theorem scan_restore_out_filter (bt_sock : Nat) (old : hci_filter) (t : Script) (error : Nat)
    (addr : List Byte) (w : World) (hsr : t.scan_restore = Outcome.ok ()) :
    (scan_restore_out bt_sock old t error addr w).2.2.filter = old := by
  unfold scan_restore_out
  rw [hsr]
  by_cases h : error = 0 <;> simp [h, ow_set_hci_filter]

/-- Embeds `ow_scan_for_address`, called with the filter in effect as the saved filter,
leaves that filter in effect when its restore succeeds. -/
theorem ow_scan_for_address_filter (bt_sock : Nat) (params : ow_scan_params) (old : hci_filter)
    (addr : List Byte) (t : Script) (w : World) (b : Bool) (addr' : List Byte) (w' : World)
    (h : ow_scan_for_address bt_sock params old addr t w = some (b, addr', w'))
    (hsr : t.scan_restore = Outcome.ok ()) (hold : w.filter = old) : w'.filter = old := by
  unfold ow_scan_for_address at h
  cases hf : t.scan_set_filter with
  | fail e =>
    simp only [ow_set_hci_filter, hf, Option.some.injEq, Prod.mk.injEq] at h
    rw [← h.2.2]
    exact hold
  | ok u =>
    simp only [ow_set_hci_filter, hf] at h
    cases hp : t.scan_parameters with
    | fail e =>
      simp only [hp, Option.some.injEq] at h
      rw [← scan_restore_out_filter bt_sock old t _ addr _ hsr, h]
    | ok u2 =>
      simp only [hp] at h
      cases hen : t.scan_enable with
      | fail e =>
        simp only [hen, Option.some.injEq] at h
        rw [← scan_restore_out_filter bt_sock old t _ addr _ hsr, h]
      | ok u3 =>
        simp only [hen] at h
        split at h
        · exact absurd h (by simp)
        · rename_i error a w2 _
          simp only [Option.some.injEq] at h
          unfold scan_disable_restore_out at h
          rw [← scan_restore_out_filter bt_sock old t error a _ hsr, h]

theorem ow_recv_receive_filter {σ : Type} (callback : ow_sample_t → σ → Bool × σ) (context : σ)
    (sample : ow_sample_t) (bt_sock hci_handle : Nat) (old : hci_filter) (t : Script) (w : World)
    (r : Bool × σ × World)
    (h : ow_recv_receive callback context sample bt_sock hci_handle old t w = some r)
    (hr : t.restore = Outcome.ok ()) (hold : w.filter = old) : r.2.2.filter = old := by
  unfold ow_recv_receive at h
  cases hf : t.recv_set_filter with
  | fail e =>
    simp only [ow_set_hci_filter, hf, Option.some.injEq] at h
    rw [← h]
    simp only [disc_close_out_filter]
    exact hold
  | ok u =>
    simp only [ow_set_hci_filter, hf] at h
    split at h
    · exact absurd h (by simp)
    · simp only [Option.some.injEq] at h
      rw [← h]
      exact restore_disc_close_out_filter _ _ _ _ _ _ hr

theorem ow_recv_connect_filter {σ : Type} (config : ow_config_t)
    (callback : ow_sample_t → σ → Bool × σ) (context : σ) (sample : ow_sample_t) (bt_sock : Nat)
    (old : hci_filter) (addr : List Byte) (t : Script) (w : World) (r : Bool × σ × World)
    (h : ow_recv_connect config callback context sample bt_sock old addr t w = some r)
    (hr : t.restore = Outcome.ok ()) (hold : w.filter = old) : r.2.2.filter = old := by
  have hconn : ∀ params : ow_connect_params,
      (match ow_connect bt_sock addr params t.create_conn w with
        | (none, w) =>
          let r := close_out t bt_sock w.errno w
          some (r.1, context, r.2)
        | (some hci_handle, w) =>
          ow_recv_receive callback context sample bt_sock hci_handle old t w)
        = some r → r.2.2.filter = old := by
    intro params h1
    cases hc : t.create_conn with
    | fail e =>
      simp only [ow_connect, hc, Option.some.injEq] at h1
      rw [← h1]
      simp only [close_out_filter, call_filter]
      exact hold
    | ok handle =>
      simp only [ow_connect, hc] at h1
      exact ow_recv_receive_filter callback context sample bt_sock _ old t _ r h1 hr
        (by rw [call_filter]; exact hold)
  unfold ow_recv_connect at h
  split_ifs at h
  · exact hconn _ h
  · exact hconn _ h
  · simp only [Option.some.injEq] at h
    rw [← h]
    simp only [close_out_filter]
    exact hold

theorem ow_recv_scan_filter {σ : Type} (config : ow_config_t)
    (callback : ow_sample_t → σ → Bool × σ) (context : σ) (sample : ow_sample_t) (bt_sock : Nat)
    (old : hci_filter) (addr : List Byte) (t : Script) (w : World) (r : Bool × σ × World)
    (h : ow_recv_scan config callback context sample bt_sock old addr t w = some r)
    (hsr : t.scan_restore = Outcome.ok ()) (hr : t.restore = Outcome.ok ())
    (hold : w.filter = old) : r.2.2.filter = old := by
  have hscan : ∀ params : ow_scan_params,
      (match ow_scan_for_address bt_sock params old addr t w with
        | none => none
        | some (false, _, w) =>
          let r := close_out t bt_sock w.errno w
          some (r.1, context, r.2)
        | some (true, addr, w) =>
          ow_recv_connect config callback context sample bt_sock old addr t w)
        = some r → r.2.2.filter = old := by
    intro params h1
    split at h1
    · exact absurd h1 (by simp)
    · rename_i a w1 hs
      simp only [Option.some.injEq] at h1
      rw [← h1]
      simp only [close_out_filter]
      exact ow_scan_for_address_filter bt_sock params old addr t w false a w1 hs hsr hold
    · rename_i a w1 hs
      exact ow_recv_connect_filter config callback context sample bt_sock old a t w1 r h1 hr
        (ow_scan_for_address_filter bt_sock params old addr t w true a w1 hs hsr hold)
  unfold ow_recv_scan at h
  split_ifs at h
  · exact ow_recv_connect_filter config callback context sample bt_sock old _ t w r h hr hold
  · exact hscan _ h
  · exact hscan _ h
  · simp only [Option.some.injEq] at h
    rw [← h]
    simp only [close_out_filter]
    exact hold

/-- C10. Over the explicit transport state, where a successful filter-set call
installs its filter, a failing one leaves the filter in effect unchanged and no other
call touches it: if the two restore calls succeed (the one of the scanner and the one
of `ow_recv`), then for every configuration, callback and script of outcomes, so
wherever a failure is injected and also on the success exit, the capture filter in
effect when `ow_recv` returns equals the filter in effect when it was called. -/
theorem C10_filter_restored {σ : Type} (config : ow_config_t)
    (callback : ow_sample_t → σ → Bool × σ) (context : σ) (sample : ow_sample_t)
    (addr : List Byte) (t : Script) (w : World)
    (hsr : t.scan_restore = Outcome.ok ()) (hr : t.restore = Outcome.ok ())
    (r : Bool × σ × World)
    (h : ow_recv config callback context sample addr t w = some r) :
    r.2.2.filter = w.filter := by
  have hfrom : ∀ (dev_id : Int) (w0 : World), w0.filter = w.filter →
      (match ow_open_socket dev_id t.open_dev w0 with
        | (none, w) => some (false, context, w)
        | (some bt_sock, w) =>
          match ow_get_hci_filter bt_sock t.get_filter w with
          | (none, w) =>
            let r := close_out t bt_sock w.errno w
            some (r.1, context, r.2)
          | (some old_hci_filter, w) =>
            ow_recv_scan config callback context sample bt_sock old_hci_filter addr t w)
        = some r → r.2.2.filter = w.filter := by
    intro dev_id w0 hw0 h1
    cases ho : t.open_dev with
    | fail e =>
      simp only [ow_open_socket, ho, Option.some.injEq] at h1
      rw [← h1]
      simp only [call_filter]
      exact hw0
    | ok bt_sock =>
      simp only [ow_open_socket, ho] at h1
      cases hg : t.get_filter with
      | fail e =>
        simp only [ow_get_hci_filter, hg, Option.some.injEq] at h1
        rw [← h1]
        simp only [close_out_filter, call_filter]
        exact hw0
      | ok u =>
        simp only [ow_get_hci_filter, hg] at h1
        have := ow_recv_scan_filter config callback context sample bt_sock _ addr t _ r h1 hsr hr
          (by simp only [call_filter])
        rw [this, call_filter]
        exact hw0
  unfold ow_recv at h
  by_cases hauto : config.dev_id = OW_DEV_ID_AUTOMATIC
  · rw [if_pos hauto] at h
    unfold ow_get_default_device_id at h
    by_cases hroute : t.route < 0
    · simp only [hroute, if_true, Option.some.injEq] at h
      rw [← h]
    · simp only [hroute, if_false] at h
      refine hfrom _ _ ?_ h
      rfl
  · rw [if_neg hauto] at h
    refine hfrom _ _ ?_ h
    rfl

/-- Witness of C10. With an automatic scan for `"BDM"` and a failure injected in turn
at the default-adapter resolution, the socket open, the filter save, the
event-filter install, the scan-parameter command, the scan-enable command, a scan
read, by an unknown scan mode, by an unknown connect mode, at the connect, the
receive-filter install and a receive read, `ow_recv` returns `false`, and on the
success exit `true`, each time with the initial filter in effect. -/
theorem C10_filter_restored_witness :
    (ow_recv_n config_auto 3 sample0 []
        { script_ok [.ok adv_bdm] stream7 with route := -1 } world0).map
        (fun r => (r.1, r.2.2.filter)) = some (false, world0.filter)
    ∧ (ow_recv_n config_auto 3 sample0 []
        { script_ok [.ok adv_bdm] stream7 with open_dev := .fail 13 } world0).map
        (fun r => (r.1, r.2.2.filter)) = some (false, world0.filter)
    ∧ (ow_recv_n config_auto 3 sample0 []
        { script_ok [.ok adv_bdm] stream7 with get_filter := .fail 9 } world0).map
        (fun r => (r.1, r.2.2.filter)) = some (false, world0.filter)
    ∧ (ow_recv_n config_auto 3 sample0 []
        { script_ok [.ok adv_bdm] stream7 with scan_set_filter := .fail 1 } world0).map
        (fun r => (r.1, r.2.2.filter)) = some (false, world0.filter)
    ∧ (ow_recv_n config_auto 3 sample0 []
        { script_ok [.ok adv_bdm] stream7 with scan_parameters := .fail 5 } world0).map
        (fun r => (r.1, r.2.2.filter)) = some (false, world0.filter)
    ∧ (ow_recv_n config_auto 3 sample0 []
        { script_ok [.ok adv_bdm] stream7 with scan_enable := .fail 5 } world0).map
        (fun r => (r.1, r.2.2.filter)) = some (false, world0.filter)
    ∧ (ow_recv_n config_auto 3 sample0 []
        (script_ok [.fail 5] stream7) world0).map
        (fun r => (r.1, r.2.2.filter)) = some (false, world0.filter)
    ∧ (ow_recv_n { config_auto with scan_mode := 7 } 3 sample0 []
        (script_ok [.ok adv_bdm] stream7) world0).map
        (fun r => (r.1, r.2.2.filter)) = some (false, world0.filter)
    ∧ (ow_recv_n { config_auto with connect_mode := 7 } 3 sample0 []
        (script_ok [.ok adv_bdm] stream7) world0).map
        (fun r => (r.1, r.2.2.filter)) = some (false, world0.filter)
    ∧ (ow_recv_n config_auto 3 sample0 []
        { script_ok [.ok adv_bdm] stream7 with create_conn := .fail 110 } world0).map
        (fun r => (r.1, r.2.2.filter)) = some (false, world0.filter)
    ∧ (ow_recv_n config_auto 3 sample0 []
        { script_ok [.ok adv_bdm] stream7 with recv_set_filter := .fail 1 } world0).map
        (fun r => (r.1, r.2.2.filter)) = some (false, world0.filter)
    ∧ (ow_recv_n config_auto 3 sample0 []
        (script_ok [.ok adv_bdm] [.ok (notification 0x2040 0xF020 0 0 0x0708), .fail 5]) world0).map
        (fun r => (r.1, r.2.2.filter)) = some (false, world0.filter)
    ∧ (ow_recv_n config_auto 3 sample0 []
        (script_ok [.ok adv_bdm] stream7) world0).map
        (fun r => (r.1, r.2.2.filter)) = some (true, world0.filter) := by
  have key : ∀ (config : ow_config_t) (t : Script) (b : Bool),
      t.scan_restore = Outcome.ok () → t.restore = Outcome.ok () →
      (ow_recv_n config 3 sample0 [] t world0).map (fun r => r.1) = some b →
      (ow_recv_n config 3 sample0 [] t world0).map (fun r => (r.1, r.2.2.filter))
        = some (b, world0.filter) := by
    intro config t b h1 h2 hb
    cases hrun : ow_recv_n config 3 sample0 [] t world0 with
    | none => rw [hrun] at hb; exact absurd hb (by simp)
    | some r =>
      rw [hrun] at hb
      have hb' : r.1 = b := by simpa using hb
      have hf : r.2.2.filter = world0.filter :=
        C10_filter_restored config ow_recv_n_sample _ sample0 [] t world0 h1 h2 r hrun
      simp only [Option.map_some', hb', hf]
  exact
    ⟨key _ _ _ rfl rfl (by decide),
     key _ _ _ rfl rfl (by decide),
     key _ _ _ rfl rfl (by decide),
     key _ _ _ rfl rfl (by decide),
     key _ _ _ rfl rfl (by decide),
     key _ _ _ rfl rfl (by decide),
     key _ _ _ rfl rfl (by decide),
     key _ _ _ rfl rfl (by decide),
     key _ _ _ rfl rfl (by decide),
     key _ _ _ rfl rfl (by decide),
     key _ _ _ rfl rfl (by decide),
     key _ _ _ rfl rfl (by decide),
     key _ _ _ rfl rfl (by decide)⟩

/-! ## The walks of the advertising structures -/

theorem read_flags_loop_ref (info : le_advertising_info) :
    ∀ fuel offset : Nat, info.length ≤ offset + fuel →
      ow_scan_read_flags_loop info fuel offset
        = some (((tlv_walk info.data info.length fuel offset).find?
            (fun o => decide (byteAt info.data (o + 1) = 0x01 ∧ byteAt info.data o ≥ 2))).map
            (fun o => byteAt info.data (o + 2))) := by
  intro fuel
  induction fuel with
  | zero =>
    intro offset h
    have : ¬ offset < info.length := by omega
    simp [ow_scan_read_flags_loop, tlv_walk, this]
  | succ f ih =>
    intro offset h
    rw [ow_scan_read_flags_loop, tlv_walk]
    by_cases hlt : offset < info.length
    · by_cases hv : byteAt info.data offset = 0 ∨ offset + byteAt info.data offset ≥ info.length
      · have hnv : tlv_valid info.data info.length offset = false := by
          simp only [tlv_valid, decide_eq_false_iff_not]
          omega
        simp [hlt, hv, hnv]
      · have hval : tlv_valid info.data info.length offset = true := by
          simp only [tlv_valid, decide_eq_true_eq]
          omega
        simp only [hlt, hv, hval, if_true, if_false, and_self, List.find?_cons]
        by_cases hf : byteAt info.data (offset + 1) = OW_SCAN_FILTER_FLAGS_TYPE
            ∧ byteAt info.data offset ≥ 2
        · have hf' : byteAt info.data (offset + 1) = 0x01 ∧ byteAt info.data offset ≥ 2 := hf
          rw [if_pos hf]
          have hd : decide (byteAt info.data (offset + 1) = 0x01 ∧ byteAt info.data offset ≥ 2)
              = true := by simpa using hf'
          rw [hd]
          rfl
        · have hf' : ¬ (byteAt info.data (offset + 1) = 0x01 ∧ byteAt info.data offset ≥ 2) := hf
          rw [if_neg hf]
          have hd : decide (byteAt info.data (offset + 1) = 0x01 ∧ byteAt info.data offset ≥ 2)
              = false := by simpa using hf'
          rw [hd]
          exact ih _ (by omega)
    · simp [hlt]

theorem range_map_getD (l : List Byte) (a k : Nat) (h : a + k ≤ l.length) :
    (List.range k).map (fun i => l.getD (a + i) 0) = (l.drop a).take k := by
  apply List.ext_getElem
  · simp only [List.length_map, List.length_range, List.length_take, List.length_drop]
    omega
  · intro i h1 h2
    simp only [List.length_map, List.length_range] at h1
    simp only [List.getElem_map, List.getElem_range, List.getElem_take, List.getElem_drop]
    rw [List.getD_eq_getElem _ _ (by omega)]

theorem tlv_walk_fuel (data : List Byte) (n : Nat) :
    ∀ f f' o : Nat, n ≤ o + f → n ≤ o + f' → tlv_walk data n f o = tlv_walk data n f' o := by
  intro f
  induction f with
  | zero =>
    intro f' o h _
    have hlt : ¬ o < n := by omega
    cases f' with
    | zero => rfl
    | succ g => simp [tlv_walk, hlt]
  | succ f ih =>
    intro f' o h h'
    cases f' with
    | zero =>
      have hlt : ¬ o < n := by omega
      simp [tlv_walk, hlt]
    | succ g =>
      rw [tlv_walk, tlv_walk]
      by_cases hc : o < n ∧ tlv_valid data n o = true
      · rw [if_pos hc, if_pos hc, ih g _ (by omega) (by omega)]
      · rw [if_neg hc, if_neg hc]

theorem tlv_walk_mem (data : List Byte) (n : Nat) :
    ∀ f o x : Nat, x ∈ tlv_walk data n f o →
      o ≤ x ∧ x < n ∧ byteAt data x ≠ 0 ∧ x + 1 + byteAt data x ≤ n := by
  intro f
  induction f with
  | zero => intro o x hx; simp [tlv_walk] at hx
  | succ f ih =>
    intro o x hx
    rw [tlv_walk] at hx
    by_cases hc : o < n ∧ tlv_valid data n o = true
    · rw [if_pos hc, List.mem_cons] at hx
      rcases hx with hx | hx
      · subst hx
        have hv := hc.2
        simp only [tlv_valid, decide_eq_true_eq] at hv
        exact ⟨le_refl _, hc.1, hv.1, hv.2⟩
      · have := ih _ x hx
        exact ⟨by omega, this.2⟩
    · rw [if_neg hc] at hx
      simp at hx

theorem parse_name_loop_ref (info : le_advertising_info) (hdata : info.length ≤ info.data.length) :
    ∀ fuel offset : Nat, info.length ≤ offset + fuel →
      ow_scan_parse_friendly_name_loop info fuel offset
        = some (((tlv_walk info.data info.length fuel offset).find?
            (fun o => decide ((byteAt info.data (o + 1) = 0x08 ∨ byteAt info.data (o + 1) = 0x09)
              ∧ byteAt info.data o - 1 ≤ 29))).map
            (fun o => (info.data.drop (o + 2)).take (byteAt info.data o - 1) ++ [0])) := by
  intro fuel
  induction fuel with
  | zero =>
    intro offset h
    have : ¬ offset < info.length := by omega
    simp [ow_scan_parse_friendly_name_loop, tlv_walk, this]
  | succ f ih =>
    intro offset h
    rw [ow_scan_parse_friendly_name_loop, tlv_walk]
    by_cases hlt : offset < info.length
    · by_cases hv : byteAt info.data offset = 0 ∨ offset + byteAt info.data offset ≥ info.length
      · have hnv : tlv_valid info.data info.length offset = false := by
          simp only [tlv_valid, decide_eq_false_iff_not]
          omega
        simp [hlt, hv, hnv]
      · have hval : tlv_valid info.data info.length offset = true := by
          simp only [tlv_valid, decide_eq_true_eq]
          omega
        simp only [hlt, hv, hval, if_true, if_false, and_self, List.find?_cons]
        by_cases hf : (byteAt info.data (offset + 1) = OW_SCAN_SHORT_DEVICE_NAME
              ∨ byteAt info.data (offset + 1) = OW_SCAN_DEVICE_NAME)
            ∧ byteAt info.data offset - 1 ≤ OW_MAX_NAME_LENGTH
        · have hf' : (byteAt info.data (offset + 1) = 0x08 ∨ byteAt info.data (offset + 1) = 0x09)
              ∧ byteAt info.data offset - 1 ≤ 29 := hf
          rw [if_pos hf]
          have hd : decide ((byteAt info.data (offset + 1) = 0x08
              ∨ byteAt info.data (offset + 1) = 0x09) ∧ byteAt info.data offset - 1 ≤ 29)
              = true := by simpa using hf'
          rw [hd]
          simp only [Option.map_some']
          rw [range_map_getD _ _ _ (by omega)]
        · have hf' : ¬ ((byteAt info.data (offset + 1) = 0x08
              ∨ byteAt info.data (offset + 1) = 0x09) ∧ byteAt info.data offset - 1 ≤ 29) := hf
          rw [if_neg hf]
          have hd : decide ((byteAt info.data (offset + 1) = 0x08
              ∨ byteAt info.data (offset + 1) = 0x09) ∧ byteAt info.data offset - 1 ≤ 29)
              = false := by simpa using hf'
          rw [hd]
          exact ih _ (by omega)
    · simp [hlt]

theorem read_flags_traced_snd (info : le_advertising_info) :
    ∀ fuel offset : Nat, (ow_scan_read_flags_traced info fuel offset).2
      = ow_scan_read_flags_loop info fuel offset := by
  intro fuel
  induction fuel with
  | zero => intro offset; simp only [ow_scan_read_flags_traced, ow_scan_read_flags_loop]; split_ifs <;> rfl
  | succ f ih =>
    intro offset
    simp only [ow_scan_read_flags_traced, ow_scan_read_flags_loop]
    split_ifs <;> first | rfl | exact ih _

theorem read_flags_traced_lt (info : le_advertising_info) :
    ∀ fuel offset i : Nat, i ∈ (ow_scan_read_flags_traced info fuel offset).1 → i < info.length := by
  intro fuel
  induction fuel with
  | zero => intro offset i hi; simp only [ow_scan_read_flags_traced] at hi; split_ifs at hi <;> simp at hi
  | succ f ih =>
    intro offset i hi
    simp only [ow_scan_read_flags_traced] at hi
    split_ifs at hi with h1 h2 h3
    · simp only [List.mem_singleton] at hi; omega
    · simp only [List.mem_cons, List.mem_singleton, List.not_mem_nil, or_false] at hi
      omega
    · simp only [List.mem_cons] at hi
      rcases hi with hi | hi | hi
      · omega
      · omega
      · exact ih _ i hi
    · simp at hi

theorem parse_name_traced_snd (info : le_advertising_info) :
    ∀ fuel offset : Nat, (ow_scan_parse_friendly_name_traced info fuel offset).2
      = ow_scan_parse_friendly_name_loop info fuel offset := by
  intro fuel
  induction fuel with
  | zero =>
    intro offset
    simp only [ow_scan_parse_friendly_name_traced, ow_scan_parse_friendly_name_loop]
    split_ifs <;> rfl
  | succ f ih =>
    intro offset
    simp only [ow_scan_parse_friendly_name_traced, ow_scan_parse_friendly_name_loop]
    split_ifs <;> first | rfl | exact ih _

theorem parse_name_traced_lt (info : le_advertising_info) :
    ∀ fuel offset i : Nat, i ∈ (ow_scan_parse_friendly_name_traced info fuel offset).1 →
      i < info.length := by
  intro fuel
  induction fuel with
  | zero =>
    intro offset i hi
    simp only [ow_scan_parse_friendly_name_traced] at hi
    split_ifs at hi <;> simp at hi
  | succ f ih =>
    intro offset i hi
    simp only [ow_scan_parse_friendly_name_traced] at hi
    split_ifs at hi with h1 h2 h3
    · simp only [List.mem_singleton] at hi; omega
    · simp only [List.mem_cons, List.mem_map, List.mem_range] at hi
      rcases hi with hi | hi | ⟨j, hj, hi⟩
      · omega
      · omega
      · omega
    · simp only [List.mem_cons] at hi
      rcases hi with hi | hi | hi
      · omega
      · omega
      · exact ih _ i hi
    · simp at hi

/-! ## C14: the advertising filter -/

theorem limited_bit (f : Nat) :
    ((f &&& OW_SCAN_FILTER_FLAGS_LIMITED) != 0) = f.testBit 0 := by
  have h := land_two_pow_ne_zero f 0
  have e : (2 : Nat) ^ 0 = OW_SCAN_FILTER_FLAGS_LIMITED := by decide
  rw [e] at h
  rw [Bool.eq_iff_iff, bne_iff_ne]
  exact h

theorem general_bits (f : Nat) :
    ((f &&& (OW_SCAN_FILTER_FLAGS_LIMITED ||| OW_SCAN_FILTER_FLAGS_GENERAL)) != 0)
      = (f.testBit 0 || f.testBit 1) := by
  have e : OW_SCAN_FILTER_FLAGS_LIMITED ||| OW_SCAN_FILTER_FLAGS_GENERAL = 0x0003 := by decide
  rw [e, land_0003, Bool.eq_iff_iff, bne_iff_ne, Bool.or_eq_true, Nat.testBit_to_div_mod,
    Nat.testBit_to_div_mod]
  simp only [decide_eq_true_eq, pow_zero, Nat.div_one, pow_one]
  omega

/-- The walk of `ow_scan_read_flags` ends, with the reference's result. -/
theorem read_flags_ref (info : le_advertising_info) :
    ow_scan_read_flags info = some (flags_ref info) :=
  read_flags_loop_ref info info.length 0 (by omega)

/-- The walk of `ow_scan_parse_friendly_name` ends, with the reference's result. -/
theorem parse_name_ref (info : le_advertising_info) (hdata : info.length ≤ info.data.length) :
    ow_scan_parse_friendly_name info = some (name_ref info) :=
  parse_name_loop_ref info hdata info.length 0 (by omega)

theorem filter_matches_ref (filter_type : Nat) (info : le_advertising_info) :
    ow_scan_filter_matches_info filter_type info
      = some (filter_ref filter_type (flags_ref info)) := by
  unfold ow_scan_filter_matches_info filter_ref
  rw [read_flags_ref]
  simp only [OW_SCAN_FILTER_TYPE_ALL, OW_SCAN_FILTER_TYPE_LIMITED, OW_SCAN_FILTER_TYPE_GENERAL]
  by_cases h0 : filter_type = 0
  · subst h0
    cases flags_ref info <;> simp
  · rw [if_neg h0]
    cases flags_ref info with
    | none => simp [h0]
    | some f =>
      simp only
      by_cases h1 : filter_type = 1
      · subst h1
        simp [limited_bit]
      · by_cases h2 : filter_type = 2
        · subst h2
          simp [general_bits]
        · simp [h0, h1, h2]

/-- C14. About `ow_scan_filter_matches_info`, for every report and every value of the
filter type: the flags walk ends, with a flags byte or without one; filter type All
gives `true` for every report; Limited gives `true` iff a flags byte is decoded and
its bit 0 is set; General gives `true` iff a flags byte is decoded and its bit 0 or
bit 1 is set; so Limited and General give `false` when no flags byte is decoded; every
other value of the filter type gives `false`. -/
theorem C14_filter_matches (filter_type : Nat) (info : le_advertising_info) :
    ∃ flags : Option Nat, ow_scan_read_flags info = some flags
      ∧ (filter_type = OW_SCAN_FILTER_TYPE_ALL →
          ow_scan_filter_matches_info filter_type info = some true)
      ∧ (filter_type = OW_SCAN_FILTER_TYPE_LIMITED →
          ow_scan_filter_matches_info filter_type info
            = some (match flags with
                    | some f => f.testBit 0
                    | none => false))
      ∧ (filter_type = OW_SCAN_FILTER_TYPE_GENERAL →
          ow_scan_filter_matches_info filter_type info
            = some (match flags with
                    | some f => f.testBit 0 || f.testBit 1
                    | none => false))
      ∧ (filter_type ≠ OW_SCAN_FILTER_TYPE_ALL → flags = none →
          ow_scan_filter_matches_info filter_type info = some false)
      ∧ (filter_type ≠ OW_SCAN_FILTER_TYPE_ALL → filter_type ≠ OW_SCAN_FILTER_TYPE_LIMITED →
          filter_type ≠ OW_SCAN_FILTER_TYPE_GENERAL →
          ow_scan_filter_matches_info filter_type info = some false) := by
  refine ⟨flags_ref info, read_flags_ref info, ?_, ?_, ?_, ?_, ?_⟩
  · intro h
    subst h
    rfl
  · intro h
    subst h
    rw [filter_matches_ref]
    cases flags_ref info <;> simp [filter_ref, OW_SCAN_FILTER_TYPE_LIMITED]
  · intro h
    subst h
    rw [filter_matches_ref]
    cases flags_ref info <;> simp [filter_ref, OW_SCAN_FILTER_TYPE_GENERAL]
  · intro h0 hn
    rw [filter_matches_ref, hn]
    simpa [filter_ref, OW_SCAN_FILTER_TYPE_ALL] using h0
  · intro h0 h1 h2
    rw [filter_matches_ref]
    simp only [OW_SCAN_FILTER_TYPE_ALL, OW_SCAN_FILTER_TYPE_LIMITED,
      OW_SCAN_FILTER_TYPE_GENERAL] at h0 h1 h2
    cases flags_ref info <;> simp [filter_ref, h0, h1, h2]

/-- Witness of C14: the report of `adv_bdm` has the flags byte `0x06` (bit 1 set, bit 0
clear): All and General match it, Limited and the filter type 3 do not; a report
without structures matches All only. -/
theorem C14_filter_matches_witness :
    ow_scan_read_flags (info_of_buf adv_bdm) = some (some 0x06)
    ∧ ow_scan_filter_matches_info OW_SCAN_FILTER_TYPE_ALL (info_of_buf adv_bdm) = some true
    ∧ ow_scan_filter_matches_info OW_SCAN_FILTER_TYPE_LIMITED (info_of_buf adv_bdm) = some false
    ∧ ow_scan_filter_matches_info OW_SCAN_FILTER_TYPE_GENERAL (info_of_buf adv_bdm) = some true
    ∧ ow_scan_filter_matches_info 3 (info_of_buf adv_bdm) = some false
    ∧ ow_scan_filter_matches_info OW_SCAN_FILTER_TYPE_ALL (report []) = some true
    ∧ ow_scan_filter_matches_info OW_SCAN_FILTER_TYPE_GENERAL (report []) = some false := by
  obtain ⟨flags, hf, hall, hlim, hgen, _, hother⟩ :=
    C14_filter_matches OW_SCAN_FILTER_TYPE_ALL (info_of_buf adv_bdm)
  have hfl : ow_scan_read_flags (info_of_buf adv_bdm) = some (some 0x06) := by decide
  refine ⟨hfl, hall rfl, by decide, by decide, by decide, ?_, ?_⟩
  · obtain ⟨_, _, h, _⟩ := C14_filter_matches OW_SCAN_FILTER_TYPE_ALL (report [])
    exact h rfl
  · obtain ⟨fl, hfl', _, _, _, hno, _⟩ := C14_filter_matches OW_SCAN_FILTER_TYPE_GENERAL (report [])
    have : fl = none := by
      have h2 : ow_scan_read_flags (report []) = some none := by decide
      rw [h2] at hfl'
      exact (Option.some.inj hfl').symm
    exact hno (by decide) this

/-! ## C15: the flags walk against its reference -/

/-- C15. On every report, `ow_scan_read_flags` ends and returns what the reference
gives: the structures are walked from offset 0, a structure at `o` with length byte
`l` being valid iff `l ≠ 0` and `o + 1 + l ≤ n`, the next one starting at `o + 1 + l`,
up to the first invalid structure or `o ≥ n`; the result is the byte at `o + 2` of the
first valid structure whose type byte is `0x01` and whose `l ≥ 2`, and absent when
there is none. The bound on the number of structures never cuts the walk short, and
every structure of the walk lies inside the report. -/
theorem C15_read_flags (info : le_advertising_info) :
    ow_scan_read_flags info
      = some (((tlv_structs info).find?
          (fun o => decide (byteAt info.data (o + 1) = 0x01 ∧ byteAt info.data o ≥ 2))).map
          (fun o => byteAt info.data (o + 2)))
    ∧ (∀ fuel : Nat, info.length ≤ fuel →
        tlv_walk info.data info.length fuel 0 = tlv_structs info)
    ∧ (∀ o ∈ tlv_structs info,
        o < info.length ∧ byteAt info.data o ≠ 0 ∧ o + 1 + byteAt info.data o ≤ info.length)
    ∧ (∀ fuel o : Nat, tlv_walk info.data info.length (fuel + 1) o
        = if o < info.length ∧ byteAt info.data o ≠ 0 ∧ o + 1 + byteAt info.data o ≤ info.length
          then o :: tlv_walk info.data info.length fuel (o + 1 + byteAt info.data o) else []) := by
  refine ⟨read_flags_ref info, ?_, ?_, ?_⟩
  · intro fuel h
    exact tlv_walk_fuel info.data info.length fuel info.length 0 (by omega) (by omega)
  · intro o ho
    exact (tlv_walk_mem info.data info.length info.length 0 o ho).2
  · intro fuel o
    rw [tlv_walk]
    simp only [tlv_valid, decide_eq_true_eq]

/-- Witness of C15: the flags of `adv_bdm`; a structure that ends exactly at the end of
the report is valid; a flags-typed structure with `l = 1` is skipped and the walk goes
on; a structure after an invalid one is not considered. -/
theorem C15_read_flags_witness :
    ow_scan_read_flags (info_of_buf adv_bdm) = some (some 0x06)
    ∧ ow_scan_read_flags (report [0x02, 0x01, 0x06]) = some (some 0x06)
    ∧ ow_scan_read_flags (report [0x01, 0x01, 0x02, 0x01, 0x05]) = some (some 0x05)
    ∧ ow_scan_read_flags (report [0x00, 0x02, 0x01, 0x06]) = some none
    ∧ ow_scan_read_flags (report [0x03, 0x01, 0x06]) = some none :=
  ⟨(C15_read_flags (info_of_buf adv_bdm)).1.trans (by decide),
   (C15_read_flags (report [0x02, 0x01, 0x06])).1.trans (by decide),
   (C15_read_flags (report [0x01, 0x01, 0x02, 0x01, 0x05])).1.trans (by decide),
   (C15_read_flags (report [0x00, 0x02, 0x01, 0x06])).1.trans (by decide),
   (C15_read_flags (report [0x03, 0x01, 0x06])).1.trans (by decide)⟩

/-! ## C16: the name walk against its reference -/

/-- C16. On every report whose declared length does not exceed its data,
`ow_scan_parse_friendly_name` ends and returns what the reference gives: over the same
walk of valid structures as the flags scan, the first structure whose type byte is
`0x08` or `0x09` and whose name length `l - 1` is at most 29; the bytes written to
`name` are exactly the `l - 1` bytes at `o + 2 .. o + l` followed by a zero
terminator (`l` bytes in all, never more than 30); a name structure with
`l - 1 > 29` does not qualify, the walk goes on to the next structure; the result is
absent when no structure qualifies. -/
theorem C16_parse_name (info : le_advertising_info) (hdata : info.length ≤ info.data.length) :
    ow_scan_parse_friendly_name info
      = some (((tlv_structs info).find?
          (fun o => decide ((byteAt info.data (o + 1) = 0x08 ∨ byteAt info.data (o + 1) = 0x09)
            ∧ byteAt info.data o - 1 ≤ 29))).map
          (fun o => (info.data.drop (o + 2)).take (byteAt info.data o - 1) ++ [0]))
    ∧ (∀ name : List Byte, ow_scan_parse_friendly_name info = some (some name) →
        ∃ o ∈ tlv_structs info,
          (byteAt info.data (o + 1) = 0x08 ∨ byteAt info.data (o + 1) = 0x09)
          ∧ byteAt info.data o - 1 ≤ 29
          ∧ name = (info.data.drop (o + 2)).take (byteAt info.data o - 1) ++ [0]
          ∧ ((info.data.drop (o + 2)).take (byteAt info.data o - 1)).length
              = byteAt info.data o - 1
          ∧ name.length = byteAt info.data o ∧ name.length ≤ 30) := by
  have href := parse_name_ref info hdata
  refine ⟨href, ?_⟩
  intro name hname
  rw [href] at hname
  have hname' := Option.some.inj hname
  unfold name_ref at hname'
  rw [Option.map_eq_some'] at hname'
  obtain ⟨o, hfind, hn⟩ := hname'
  have hp := List.find?_some hfind
  have hmem := List.mem_of_find?_eq_some hfind
  simp only [decide_eq_true_eq] at hp
  have hin := tlv_walk_mem info.data info.length info.length 0 o hmem
  have hlen : ((info.data.drop (o + 2)).take (byteAt info.data o - 1)).length
      = byteAt info.data o - 1 := by
    rw [List.length_take, List.length_drop]
    omega
  refine ⟨o, hmem, hp.1, hp.2, hn.symm, hlen, ?_, ?_⟩
  · rw [← hn, List.length_append, hlen, List.length_singleton]
    omega
  · rw [← hn, List.length_append, hlen, List.length_singleton]
    omega

/-- Witness of C16: the name of `adv_bdm` is `"BDM"` with its terminator; in
`report_long_name` the first name structure has 30 name bytes and is passed over, the
second gives `"OW"`; a report with the long name alone has no name. -/
theorem C16_parse_name_witness :
    (info_of_buf adv_bdm).length ≤ (info_of_buf adv_bdm).data.length
    ∧ ow_scan_parse_friendly_name (info_of_buf adv_bdm) = some (some [0x42, 0x44, 0x4D, 0x00])
    ∧ ow_scan_parse_friendly_name report_long_name = some (some [0x4F, 0x57, 0x00])
    ∧ ow_scan_parse_friendly_name (report ([0x1F, 0x09] ++ List.replicate 30 0x41)) = some none :=
  ⟨by decide,
   (C16_parse_name (info_of_buf adv_bdm) (by decide)).1.trans (by decide),
   (C16_parse_name report_long_name (by decide)).1.trans (by decide),
   (C16_parse_name (report ([0x1F, 0x09] ++ List.replicate 30 0x41)) (by decide)).1.trans
     (by decide)⟩

/-! ## C17: the walks stay inside the report -/

theorem info_of_buf_data (buf : List Byte) (i : Nat) :
    (info_of_buf buf).data.getD i 0 = buf.getD (14 + i) 0 := by
  have e : (info_of_buf buf).data = buf.drop 14 := rfl
  rw [e, List.getD_eq_getElem?_getD, List.getD_eq_getElem?_getD, List.getElem?_drop]

/-- The scan loop passes over a frame that is too short for its header or for its
declared data, whatever the walks would give on it. -/
theorem ow_scan_loop_short (bt_sock : Nat) (params : ow_scan_params) (bytes : List Byte)
    (rest : List (Outcome (List Byte))) (addr : List Byte) (w : World)
    (h0 : (bytes.take HCI_MAX_EVENT_SIZE).length ≠ 0)
    (hshort : (bytes.take HCI_MAX_EVENT_SIZE).length < OW_SCAN_MIN_LENGTH
      ∨ (byteAt (bytes.take HCI_MAX_EVENT_SIZE) OW_SCAN_META_OFFSET
            = OW_SCAN_SUBEVENT_ADVERTISING_INFO
          ∧ (bytes.take HCI_MAX_EVENT_SIZE).length
            < OW_SCAN_MIN_LENGTH + (info_of_buf (bytes.take HCI_MAX_EVENT_SIZE)).length)) :
    ow_scan_loop bt_sock params (Outcome.ok bytes :: rest) addr w
      = ow_scan_loop bt_sock params rest addr (w.call (Op.read bt_sock) (Outcome.ok bytes)) := by
  rw [ow_scan_loop]
  dsimp only
  rw [if_neg h0]
  rcases hshort with h | ⟨h1, h2⟩
  · rw [if_pos h]
  · by_cases h : (bytes.take HCI_MAX_EVENT_SIZE).length < OW_SCAN_MIN_LENGTH
    · rw [if_pos h]
    · rw [if_neg h, if_neg (not_not.mpr h1), if_pos h2]

/-- C17. The walks read inside the report: for every report of declared length `n`,
the traced loops return what `ow_scan_read_flags` and `ow_scan_parse_friendly_name`
return, and every index of `info->data` they read (length byte, type byte, flags
byte, copied name bytes) is below `n`. In the scan loop a report laid over a buffer
with `bytes_read ≥ 14 + n` has each of these indices `i` at the buffer index
`14 + i < bytes_read`, and a frame with `bytes_read < 14` or `bytes_read < 14 + n` is
passed over without a walk. A first structure that is malformed or truncated gives
absent in both walks. -/
theorem C17_in_bounds (info : le_advertising_info) :
    (ow_scan_read_flags_traced info info.length 0).2 = ow_scan_read_flags info
    ∧ (∀ i ∈ (ow_scan_read_flags_traced info info.length 0).1, i < info.length)
    ∧ (ow_scan_parse_friendly_name_traced info info.length 0).2
        = ow_scan_parse_friendly_name info
    ∧ (∀ i ∈ (ow_scan_parse_friendly_name_traced info info.length 0).1, i < info.length)
    ∧ (∀ buf : List Byte, OW_SCAN_MIN_LENGTH + (info_of_buf buf).length ≤ buf.length →
        ∀ i : Nat,
          i ∈ (ow_scan_read_flags_traced (info_of_buf buf) (info_of_buf buf).length 0).1
            ∨ i ∈ (ow_scan_parse_friendly_name_traced (info_of_buf buf)
                (info_of_buf buf).length 0).1 →
          14 + i < buf.length ∧ (info_of_buf buf).data.getD i 0 = buf.getD (14 + i) 0)
    ∧ (∀ (bt_sock : Nat) (params : ow_scan_params) (bytes : List Byte)
        (rest : List (Outcome (List Byte))) (addr : List Byte) (w : World),
        (bytes.take HCI_MAX_EVENT_SIZE).length ≠ 0 →
        ((bytes.take HCI_MAX_EVENT_SIZE).length < OW_SCAN_MIN_LENGTH
          ∨ (byteAt (bytes.take HCI_MAX_EVENT_SIZE) OW_SCAN_META_OFFSET
                = OW_SCAN_SUBEVENT_ADVERTISING_INFO
              ∧ (bytes.take HCI_MAX_EVENT_SIZE).length
                < OW_SCAN_MIN_LENGTH + (info_of_buf (bytes.take HCI_MAX_EVENT_SIZE)).length)) →
        ow_scan_loop bt_sock params (Outcome.ok bytes :: rest) addr w
          = ow_scan_loop bt_sock params rest addr (w.call (Op.read bt_sock) (Outcome.ok bytes)))
    ∧ (byteAt info.data 0 = 0 ∨ byteAt info.data 0 ≥ info.length →
        ow_scan_read_flags info = some none ∧ ow_scan_parse_friendly_name info = some none) := by
  refine ⟨read_flags_traced_snd info _ _, read_flags_traced_lt info _ _,
    parse_name_traced_snd info _ _, parse_name_traced_lt info _ _, ?_, ?_, ?_⟩
  · intro buf hlen i hi
    have hlt : i < (info_of_buf buf).length := by
      rcases hi with hi | hi
      · exact read_flags_traced_lt _ _ _ i hi
      · exact parse_name_traced_lt _ _ _ i hi
    refine ⟨?_, info_of_buf_data buf i⟩
    have : OW_SCAN_MIN_LENGTH = 14 := rfl
    omega
  · intro bt_sock params bytes rest addr w h0 hshort
    exact ow_scan_loop_short bt_sock params bytes rest addr w h0 hshort
  · intro hbad
    have hc : byteAt info.data 0 = 0 ∨ 0 + byteAt info.data 0 ≥ info.length := by
      rcases hbad with h | h
      · exact Or.inl h
      · exact Or.inr (by omega)
    have key1 : ∀ fuel : Nat, info.length ≤ fuel →
        ow_scan_read_flags_loop info fuel 0 = some none := by
      intro fuel hfuel
      cases fuel with
      | zero =>
        have hlt : ¬ 0 < info.length := by omega
        rw [ow_scan_read_flags_loop, if_neg hlt]
      | succ m =>
        rw [ow_scan_read_flags_loop]
        by_cases hlt : 0 < info.length
        · rw [if_pos hlt]
          dsimp only
          rw [if_pos hc]
        · rw [if_neg hlt]
    have key2 : ∀ fuel : Nat, info.length ≤ fuel →
        ow_scan_parse_friendly_name_loop info fuel 0 = some none := by
      intro fuel hfuel
      cases fuel with
      | zero =>
        have hlt : ¬ 0 < info.length := by omega
        rw [ow_scan_parse_friendly_name_loop, if_neg hlt]
      | succ m =>
        rw [ow_scan_parse_friendly_name_loop]
        by_cases hlt : 0 < info.length
        · rw [if_pos hlt]
          dsimp only
          rw [if_pos hc]
        · rw [if_neg hlt]
    exact ⟨key1 _ (le_refl _), key2 _ (le_refl _)⟩

/-- Witness of C17: the indices the two walks read in the report of `adv_bdm`
(declared length 8, inside 23 bytes read), and a truncated report. -/
theorem C17_in_bounds_witness :
    (ow_scan_read_flags_traced (info_of_buf adv_bdm) 8 0).1 = [0, 1, 2]
    ∧ (ow_scan_parse_friendly_name_traced (info_of_buf adv_bdm) 8 0).1 = [0, 1, 3, 4, 5, 6, 7]
    ∧ (∀ i ∈ (ow_scan_parse_friendly_name_traced (info_of_buf adv_bdm)
          (info_of_buf adv_bdm).length 0).1, i < (info_of_buf adv_bdm).length)
    ∧ (ow_scan_read_flags (report [0x05, 0x01, 0x06]) = some none
        ∧ ow_scan_parse_friendly_name (report [0x05, 0x01, 0x06]) = some none) :=
  ⟨by decide, by decide, (C17_in_bounds (info_of_buf adv_bdm)).2.2.2.1,
   (C17_in_bounds (report [0x05, 0x01, 0x06])).2.2.2.2.2.2 (by decide)⟩

/-! ## C18: the scan loop against its reference -/

theorem log_replicate_succ (log : List Op) (op : Op) (k : Nat) :
    (log ++ [op]) ++ List.replicate k op = log ++ List.replicate (k + 1) op := by
  rw [List.append_assoc, List.replicate_succ]
  rfl

theorem call_log {α : Type} (w : World) (op : Op) (r : Outcome α) :
    (w.call op r).log = w.log ++ [op] := by
  cases r <;> rfl

/-- One iteration of the scan loop does what the reference says of its read. -/
theorem ow_scan_loop_cons (bt_sock : Nat) (params : ow_scan_params)
    (r : Outcome (List Byte)) (rest : List (Outcome (List Byte))) (addr : List Byte) (w : World) :
    ow_scan_loop bt_sock params (r :: rest) addr w
      = match scan_step params r with
        | none => ow_scan_loop bt_sock params rest addr (w.call (Op.read bt_sock) r)
        | some e => some (e.error, e.addr addr, w.call (Op.read bt_sock) r) := by
  cases r with
  | fail e =>
    rw [ow_scan_loop]
    unfold scan_step
    by_cases ht : e = EAGAIN ∨ e = EINTR
    · simp only [ht, if_true]
    · simp only [ht, if_false]
      rfl
  | ok bytes =>
    rw [ow_scan_loop]
    unfold scan_step
    dsimp only
    generalize hbuf : bytes.take HCI_MAX_EVENT_SIZE = buf
    by_cases h0 : buf.length = 0
    · simp only [h0, if_true]
      rfl
    · rw [if_neg h0, if_neg h0]
      have hmin : OW_SCAN_MIN_LENGTH = 14 := rfl
      have hoff : OW_SCAN_META_OFFSET = 3 := rfl
      have hsub : OW_SCAN_SUBEVENT_ADVERTISING_INFO = 0x02 := rfl
      rw [hmin, hoff, hsub]
      by_cases h14 : buf.length < 14
      · rw [if_pos h14, if_pos h14]
      · rw [if_neg h14, if_neg h14]
        by_cases hs : byteAt buf 3 ≠ 0x02
        · rw [if_pos hs, if_pos hs]
          rfl
        · rw [if_neg hs, if_neg hs]
          have hlen : (info_of_buf buf).length = byteAt buf 13 := rfl
          by_cases hd : buf.length < 14 + (info_of_buf buf).length
          · have hd' : byteAt buf 13 > buf.length - 14 := by omega
            rw [if_pos hd, if_pos hd']
          · have hd' : ¬ byteAt buf 13 > buf.length - 14 := by omega
            rw [if_neg hd, if_neg hd', filter_matches_ref]
            have hdata : (info_of_buf buf).length ≤ (info_of_buf buf).data.length := by
              have e : (info_of_buf buf).data = buf.drop 14 := rfl
              rw [e, List.length_drop]
              omega
            cases hf : filter_ref params.filter_type (flags_ref (info_of_buf buf)) with
            | false => simp
            | true =>
              simp only [Bool.true_eq_false, if_false]
              rw [parse_name_ref _ hdata]
              cases hn : name_ref (info_of_buf buf) with
              | none => rfl
              | some name =>
                simp only
                have haddr : (info_of_buf buf).bdaddr = (buf.drop 7).take 6 :=
                  range_map_getD buf 7 6 (by omega)
                by_cases hc : cstr name = cstr params.name
                · have hc' : strcmp_eq name params.name = true := by
                    unfold strcmp_eq
                    rw [hc]
                    exact beq_self_eq_true _
                  rw [if_pos hc', if_pos hc, haddr]
                  rfl
                · have hc' : ¬ strcmp_eq name params.name = true := by
                    unfold strcmp_eq
                    rw [beq_iff_eq]
                    exact hc
                  rw [if_neg hc', if_neg hc]

/-- The scan loop ends as the first read that is not skipped says, after reading up
to and including it; it never ends when every read is skipped. -/
theorem ow_scan_loop_spec (bt_sock : Nat) (params : ow_scan_params) :
    ∀ (reads : List (Outcome (List Byte))) (addr : List Byte) (w : World),
      (ow_scan_loop bt_sock params reads addr w).map (fun r => (r.1, r.2.1, r.2.2.log))
        = (scan_verdict params reads).map (fun p =>
            (p.1.error, p.1.addr addr, w.log ++ List.replicate p.2 (Op.read bt_sock))) := by
  intro reads
  induction reads with
  | nil => intro addr w; rfl
  | cons r rest ih =>
    intro addr w
    rw [ow_scan_loop_cons, scan_verdict]
    cases hs : scan_step params r with
    | none =>
      simp only [ih, Option.map_map, call_log]
      congr 1
      funext p
      simp only [Function.comp_apply, log_replicate_succ]
    | some e =>
      simp only [Option.map_some', call_log]
      rfl

theorem set_filter_log (bt_sock : Nat) (f : hci_filter) (r : Outcome Unit) (w : World) :
    (ow_set_hci_filter bt_sock f r w).2.log = w.log ++ [Op.set_filter bt_sock f] := by
  cases r <;> rfl

/-- What the label `restore_out` of the scanner returns and logs. -/
theorem scan_restore_out_spec (bt_sock : Nat) (old : hci_filter) (t : Script) (error : Nat)
    (addr : List Byte) (w : World) :
    ((scan_restore_out bt_sock old t error addr w).1,
     (scan_restore_out bt_sock old t error addr w).2.1,
     (scan_restore_out bt_sock old t error addr w).2.2.log,
     if (scan_restore_out bt_sock old t error addr w).1 = true then 0
       else (scan_restore_out bt_sock old t error addr w).2.2.errno)
      = (decide (error = 0), addr, w.log ++ [Op.set_filter bt_sock old], error) := by
  unfold scan_restore_out
  by_cases h : error = 0
  · simp [h, set_filter_log]
  · simp [h, set_filter_log]

/-- The scanner, case by case: what it returns, what it leaves in `*addr`, the calls
it logs, and the `errno` it reports when it returns `false`. -/
theorem ow_scan_for_address_spec (bt_sock : Nat) (params : ow_scan_params) (old : hci_filter)
    (addr : List Byte) (t : Script) (w : World) :
    (ow_scan_for_address bt_sock params old addr t w).map
        (fun r => (r.1, r.2.1, r.2.2.log, if r.1 = true then 0 else r.2.2.errno))
      = match t.scan_set_filter with
        | .fail e => some (false, addr, w.log ++ [Op.set_filter bt_sock event_filter], e)
        | .ok _ =>
          match t.scan_parameters with
          | .fail e =>
            some (decide (e = 0), addr,
              w.log ++ [Op.set_filter bt_sock event_filter, op_scan_parameters bt_sock params,
                Op.set_filter bt_sock old], e)
          | .ok _ =>
            match t.scan_enable with
            | .fail e =>
              some (decide (e = 0), addr,
                w.log ++ [Op.set_filter bt_sock event_filter, op_scan_parameters bt_sock params,
                  op_scan_enable bt_sock params OW_SCAN_ENABLE, Op.set_filter bt_sock old], e)
            | .ok _ =>
              (scan_verdict params t.scan_reads).map (fun p =>
                (decide (p.1.error = 0), p.1.addr addr,
                  w.log ++ [Op.set_filter bt_sock event_filter, op_scan_parameters bt_sock params,
                      op_scan_enable bt_sock params OW_SCAN_ENABLE]
                    ++ List.replicate p.2 (Op.read bt_sock)
                    ++ [op_scan_enable bt_sock params OW_SCAN_DISABLE, Op.set_filter bt_sock old],
                  p.1.error)) := by
  unfold ow_scan_for_address
  cases hf : t.scan_set_filter with
  | fail e => simp [ow_set_hci_filter]
  | ok u =>
    simp only [ow_set_hci_filter]
    cases hp : t.scan_parameters with
    | fail e =>
      simp only [Option.map_some']
      rw [scan_restore_out_spec]
      simp [World.call, op_scan_parameters]
    | ok u2 =>
      simp only
      cases hen : t.scan_enable with
      | fail e =>
        simp only [Option.map_some']
        rw [scan_restore_out_spec]
        simp [World.call, op_scan_parameters, op_scan_enable]
      | ok u3 =>
        simp only
        have hspec := ow_scan_loop_spec bt_sock params t.scan_reads addr
          ((({ w with filter := event_filter,
                      log := w.log ++ [Op.set_filter bt_sock event_filter] } : World).call
              (op_scan_parameters bt_sock params) (Outcome.ok u2)).call
              (op_scan_enable bt_sock params OW_SCAN_ENABLE) (Outcome.ok u3))
        cases hv : scan_verdict params t.scan_reads with
        | none =>
          rw [hv] at hspec
          simp only [Option.map_none', Option.map_eq_none'] at hspec
          simp only [op_scan_parameters, op_scan_enable] at hspec
          rw [hspec]
          rfl
        | some p =>
          rw [hv] at hspec
          simp only [Option.map_some', Option.map_eq_some'] at hspec
          obtain ⟨r, hr, hproj⟩ := hspec
          simp only [op_scan_parameters, op_scan_enable] at hr
          rw [hr]
          simp only [Option.map_some', Prod.mk.injEq] at hproj ⊢
          unfold scan_disable_restore_out
          rw [scan_restore_out_spec]
          simp only [call_log] at hproj
          obtain ⟨h1, h2, h3⟩ := hproj
          simp only [call_log, h1, h2, h3, op_scan_parameters, op_scan_enable,
            List.append_assoc, List.cons_append, List.nil_append, Option.some.injEq, Prod.mk.injEq,
            true_and, and_self]

/-- C18. The read loop of `ow_scan_for_address` against the reference `scan_step` /
`scan_verdict`, for every stream of read results: each iteration does what the
reference says of its read (a transient error, a frame shorter than 14 bytes, a frame
whose declared data length exceeds `bytes_read - 14`, a frame failing the filter,
without a name or with another name is skipped; another error `e`, a zero-byte read
and a frame of at least 14 bytes with a subevent other than `0x02` end the scan with
`e` resp. `ENODATA`; any other frame ends it with success and its address bytes 7-12);
the loop ends at the first read that is not skipped, having read nothing after it;
and `ow_scan_for_address`, once its three set-up calls succeed, returns `true` with
that address resp. `false` with that code in `errno`. -/
theorem C18_scan_loop (bt_sock : Nat) (params : ow_scan_params)
    (reads : List (Outcome (List Byte))) (addr : List Byte) (w : World) :
    (ow_scan_loop bt_sock params reads addr w).map (fun r => (r.1, r.2.1, r.2.2.log))
      = (scan_verdict params reads).map (fun p =>
          (p.1.error, p.1.addr addr, w.log ++ List.replicate p.2 (Op.read bt_sock)))
    ∧ (∀ (r : Outcome (List Byte)) (rest : List (Outcome (List Byte))),
        ow_scan_loop bt_sock params (r :: rest) addr w
          = match scan_step params r with
            | none => ow_scan_loop bt_sock params rest addr (w.call (Op.read bt_sock) r)
            | some e => some (e.error, e.addr addr, w.call (Op.read bt_sock) r))
    ∧ (∀ (old : hci_filter) (t : Script), t.scan_set_filter = Outcome.ok () →
        t.scan_parameters = Outcome.ok () → t.scan_enable = Outcome.ok () →
        t.scan_reads = reads →
        (ow_scan_for_address bt_sock params old addr t w).map
            (fun r => (r.1, r.2.1, if r.1 = true then 0 else r.2.2.errno))
          = (scan_verdict params reads).map (fun p =>
              (decide (p.1.error = 0), p.1.addr addr, p.1.error))) := by
  refine ⟨ow_scan_loop_spec bt_sock params reads addr w, ?_, ?_⟩
  · intro r rest
    exact ow_scan_loop_cons bt_sock params r rest addr w
  · intro old t h1 h2 h3 h4
    have h := ow_scan_for_address_spec bt_sock params old addr t w
    rw [h1, h2, h3, h4] at h
    simp only at h
    have h' := congrArg (Option.map (fun q : Bool × List Byte × List Op × Nat =>
      (q.1, q.2.1, q.2.2.2))) h
    simp only [Option.map_map] at h'
    exact h'

/-- Witness of C18. The stream `scan_stream` ends the scan at its fourth read with the
address of `adv_bdm`: the transient error, the short frame and the report named
`"bdm"` (the comparison is case-sensitive) are skipped. A frame of 14 bytes with
subevent `0x01`, a zero-byte read and the error 5 end it with `ENODATA`, `ENODATA`
and 5; a report cut to 20 bytes (declared data length 8) is skipped. -/
theorem C18_scan_loop_witness :
    (ow_scan_loop 3 automatic_scan_params scan_stream [] world0).map
        (fun r => (r.1, r.2.1, r.2.2.log))
      = some (0, [0x11, 0x22, 0x33, 0x44, 0x55, 0x66],
          [Op.read 3, Op.read 3, Op.read 3, Op.read 3])
    ∧ (ow_scan_loop 3 automatic_scan_params [.ok evt_other, .ok adv_bdm] [] world0).map
        (fun r => (r.1, r.2.1, r.2.2.log)) = some (ENODATA, [], [Op.read 3])
    ∧ (ow_scan_loop 3 automatic_scan_params [.ok [], .ok adv_bdm] [] world0).map
        (fun r => (r.1, r.2.1, r.2.2.log)) = some (ENODATA, [], [Op.read 3])
    ∧ (ow_scan_loop 3 automatic_scan_params [.ok (adv_bdm.take 20), .fail 5, .ok adv_bdm] []
          world0).map
        (fun r => (r.1, r.2.1, r.2.2.log)) = some (5, [], [Op.read 3, Op.read 3]) :=
  ⟨(C18_scan_loop 3 automatic_scan_params scan_stream [] world0).1.trans (by decide),
   (C18_scan_loop 3 automatic_scan_params [.ok evt_other, .ok adv_bdm] [] world0).1.trans
     (by decide),
   (C18_scan_loop 3 automatic_scan_params [.ok [], .ok adv_bdm] [] world0).1.trans (by decide),
   (C18_scan_loop 3 automatic_scan_params [.ok (adv_bdm.take 20), .fail 5, .ok adv_bdm] []
     world0).1.trans (by decide)⟩

/-! ## C19: the teardown of the scanner -/

theorem scan_step_fatal (params : ow_scan_params) (r : Outcome (List Byte)) (e : Nat)
    (hwf : r.sets_errno = true) (h : scan_step params r = some (ScanEnd.fatal e)) : e ≠ 0 := by
  cases r with
  | fail e' =>
    simp only [scan_step] at h
    split_ifs at h
    simp only [Option.some.injEq, ScanEnd.fatal.injEq] at h
    subst h
    simpa [Outcome.sets_errno] using hwf
  | ok bytes =>
    simp only [scan_step] at h
    split_ifs at h
    · simp only [Option.some.injEq, ScanEnd.fatal.injEq] at h
      rw [← h]; decide
    · simp only [Option.some.injEq, ScanEnd.fatal.injEq] at h
      rw [← h]; decide
    · split at h
      · exact absurd h (by simp)
      · split_ifs at h
        exact absurd h (by simp)

theorem scan_verdict_fatal (params : ow_scan_params) :
    ∀ (reads : List (Outcome (List Byte))) (e k : Nat),
      reads.all Outcome.sets_errno = true →
      scan_verdict params reads = some (ScanEnd.fatal e, k) → e ≠ 0 := by
  intro reads
  induction reads with
  | nil => intro e k _ h; simp [scan_verdict] at h
  | cons r rest ih =>
    intro e k hwf h
    rw [List.all_cons, Bool.and_eq_true] at hwf
    rw [scan_verdict] at h
    cases hs : scan_step params r with
    | none =>
      rw [hs] at h
      simp only [Option.map_eq_some', Prod.mk.injEq] at h
      obtain ⟨p, hp, h1, _⟩ := h
      exact ih e p.2 hwf.2 (by rw [hp, ← h1])
    | some s =>
      rw [hs] at h
      simp only [Option.some.injEq, Prod.mk.injEq] at h
      exact scan_step_fatal params r e hwf.1 (by rw [hs, h.1])

/-- The scanner returns `true` exactly on a match and reports the first fatal error
otherwise, when failing calls set a nonzero `errno`. -/
theorem ow_scan_for_address_verdict (bt_sock : Nat) (params : ow_scan_params) (old : hci_filter)
    (addr : List Byte) (t : Script) (w : World)
    (hp : t.scan_parameters.sets_errno = true) (hen : t.scan_enable.sets_errno = true)
    (hreads : t.scan_reads.all Outcome.sets_errno = true) :
    (ow_scan_for_address bt_sock params old addr t w).map
        (fun r => (r.1, if r.1 = true then 0 else r.2.2.errno))
      = (scan_failure params t).map (fun v =>
          match v with
          | none => (true, 0)
          | some e => (false, e)) := by
  have h := congrArg (Option.map (fun q : Bool × List Byte × List Op × Nat => (q.1, q.2.2.2)))
    (ow_scan_for_address_spec bt_sock params old addr t w)
  simp only [Option.map_map] at h
  refine Eq.trans h ?_
  unfold scan_failure
  cases hf : t.scan_set_filter with
  | fail e => rfl
  | ok u =>
    cases hpp : t.scan_parameters with
    | fail e =>
      have he : e ≠ 0 := by simpa [Outcome.sets_errno, hpp] using hp
      simp [he]
    | ok u2 =>
      cases hee : t.scan_enable with
      | fail e =>
        have he : e ≠ 0 := by simpa [Outcome.sets_errno, hee] using hen
        simp [he]
      | ok u3 =>
        simp only
        cases hv : scan_verdict params t.scan_reads with
        | none => rfl
        | some p =>
          obtain ⟨s, k⟩ := p
          cases s with
          | fatal e =>
            have he : e ≠ 0 := scan_verdict_fatal params t.scan_reads e k hreads hv
            simp [ScanEnd.error, he]
          | found a => simp [ScanEnd.error]

/-- C19. The teardown of `ow_scan_for_address`, for every outcome of its calls. If the
install of the event filter fails, it returns `false` at once: nothing else is logged,
no scan command and no restore. If the scan-parameter or the scan-enable command
fails, the saved filter is restored next and no scan-disable is issued. On every exit
of the read loop the scan-disable and then the restore of the saved filter are
issued, once each, whatever the outcome of either. When failing calls set a nonzero
`errno`, it returns `true` iff a match was found and reports the first fatal error
otherwise; the outcomes of scan-disable and restore change nothing of what it returns,
logs or reports. -/
theorem C19_scanner_teardown (bt_sock : Nat) (params : ow_scan_params) (old : hci_filter)
    (addr : List Byte) (t : Script) (w : World) :
    (∀ e : Nat, t.scan_set_filter = Outcome.fail e →
        ow_scan_for_address bt_sock params old addr t w
          = some (false, addr,
              { w with errno := e, log := w.log ++ [Op.set_filter bt_sock event_filter] }))
    ∧ (∀ e : Nat, t.scan_set_filter = Outcome.ok () → t.scan_parameters = Outcome.fail e →
        (ow_scan_for_address bt_sock params old addr t w).map
            (fun r => (r.1, r.2.1, r.2.2.log, if r.1 = true then 0 else r.2.2.errno))
          = some (decide (e = 0), addr,
              w.log ++ [Op.set_filter bt_sock event_filter, op_scan_parameters bt_sock params,
                Op.set_filter bt_sock old], e))
    ∧ (∀ e : Nat, t.scan_set_filter = Outcome.ok () → t.scan_parameters = Outcome.ok () →
        t.scan_enable = Outcome.fail e →
        (ow_scan_for_address bt_sock params old addr t w).map
            (fun r => (r.1, r.2.1, r.2.2.log, if r.1 = true then 0 else r.2.2.errno))
          = some (decide (e = 0), addr,
              w.log ++ [Op.set_filter bt_sock event_filter, op_scan_parameters bt_sock params,
                op_scan_enable bt_sock params OW_SCAN_ENABLE, Op.set_filter bt_sock old], e))
    ∧ (t.scan_set_filter = Outcome.ok () → t.scan_parameters = Outcome.ok () →
        t.scan_enable = Outcome.ok () →
        (ow_scan_for_address bt_sock params old addr t w).map
            (fun r => (r.1, r.2.1, r.2.2.log, if r.1 = true then 0 else r.2.2.errno))
          = (scan_verdict params t.scan_reads).map (fun p =>
              (decide (p.1.error = 0), p.1.addr addr,
                w.log ++ [Op.set_filter bt_sock event_filter, op_scan_parameters bt_sock params,
                    op_scan_enable bt_sock params OW_SCAN_ENABLE]
                  ++ List.replicate p.2 (Op.read bt_sock)
                  ++ [op_scan_enable bt_sock params OW_SCAN_DISABLE, Op.set_filter bt_sock old],
                p.1.error)))
    ∧ (t.scan_parameters.sets_errno = true → t.scan_enable.sets_errno = true →
        t.scan_reads.all Outcome.sets_errno = true →
        (ow_scan_for_address bt_sock params old addr t w).map
            (fun r => (r.1, if r.1 = true then 0 else r.2.2.errno))
          = (scan_failure params t).map (fun v =>
              match v with
              | none => (true, 0)
              | some e => (false, e)))
    ∧ (∀ scan_disable scan_restore : Outcome Unit,
        (ow_scan_for_address bt_sock params old addr
            { t with scan_disable := scan_disable, scan_restore := scan_restore } w).map
            (fun r => (r.1, r.2.1, r.2.2.log, if r.1 = true then 0 else r.2.2.errno))
          = (ow_scan_for_address bt_sock params old addr t w).map
            (fun r => (r.1, r.2.1, r.2.2.log, if r.1 = true then 0 else r.2.2.errno))) := by
  have hspec := ow_scan_for_address_spec bt_sock params old addr t w
  refine ⟨?_, ?_, ?_, ?_, ?_, ?_⟩
  · intro e h
    unfold ow_scan_for_address
    rw [h]
    rfl
  · intro e h1 h2
    rw [h1, h2] at hspec
    exact hspec
  · intro e h1 h2 h3
    rw [h1, h2, h3] at hspec
    exact hspec
  · intro h1 h2 h3
    rw [h1, h2, h3] at hspec
    exact hspec
  · intro h1 h2 h3
    exact ow_scan_for_address_verdict bt_sock params old addr t w h1 h2 h3
  · intro sd sr
    rw [ow_scan_for_address_spec, ow_scan_for_address_spec]

/-- Witness of C19. A scan over `scan_stream` finds the device at the fourth read:
event filter, scan parameters, scan enable, four reads, scan disable, restore, also
when the scan-disable and the restore fail; with a failing scan-enable the restore
follows at once; with a failing event-filter install nothing follows. -/
theorem C19_scanner_teardown_witness :
    (ow_scan_for_address 3 automatic_scan_params world0.filter []
        { script_ok scan_stream [] with scan_disable := .fail 5, scan_restore := .fail 9 }
        world0).map
        (fun r => (r.1, r.2.1, r.2.2.log, if r.1 = true then 0 else r.2.2.errno))
      = some (true, [0x11, 0x22, 0x33, 0x44, 0x55, 0x66],
          [Op.set_filter 3 event_filter, op_scan_parameters 3 automatic_scan_params,
           op_scan_enable 3 automatic_scan_params OW_SCAN_ENABLE,
           Op.read 3, Op.read 3, Op.read 3, Op.read 3,
           op_scan_enable 3 automatic_scan_params OW_SCAN_DISABLE,
           Op.set_filter 3 world0.filter], 0)
    ∧ (ow_scan_for_address 3 automatic_scan_params world0.filter []
        { script_ok scan_stream [] with scan_enable := .fail 5 } world0).map
        (fun r => (r.1, r.2.1, r.2.2.log, if r.1 = true then 0 else r.2.2.errno))
      = some (false, [],
          [Op.set_filter 3 event_filter, op_scan_parameters 3 automatic_scan_params,
           op_scan_enable 3 automatic_scan_params OW_SCAN_ENABLE,
           Op.set_filter 3 world0.filter], 5)
    ∧ ow_scan_for_address 3 automatic_scan_params world0.filter []
        { script_ok scan_stream [] with scan_set_filter := .fail 1 } world0
      = some (false, [],
          { world0 with errno := 1, log := world0.log ++ [Op.set_filter 3 event_filter] }) :=
  ⟨((C19_scanner_teardown 3 automatic_scan_params world0.filter []
        { script_ok scan_stream [] with scan_disable := .fail 5, scan_restore := .fail 9 }
        world0).2.2.2.1 rfl rfl rfl).trans (by decide),
   ((C19_scanner_teardown 3 automatic_scan_params world0.filter []
        { script_ok scan_stream [] with scan_enable := .fail 5 } world0).2.2.1 5 rfl rfl
        rfl).trans (by decide),
   (C19_scanner_teardown 3 automatic_scan_params world0.filter []
        { script_ok scan_stream [] with scan_set_filter := .fail 1 } world0).1 1 rfl⟩

/-! ## C12: the receive loop against its reference -/

theorem take_length_eq_zero (bytes : List Byte) :
    (bytes.take HCI_MAX_EVENT_SIZE).length = 0 ↔ bytes = [] := by
  cases bytes with
  | nil => simp
  | cons b bs => simp [HCI_MAX_EVENT_SIZE]

/-- An iteration of the receive loop on a read that ends the loop. -/
theorem ow_recv_loop_fatal {σ : Type} (callback : ow_sample_t → σ → Bool × σ)
    (bt_sock hci_handle : Nat) (r : Outcome (List Byte)) (rest : List (Outcome (List Byte)))
    (sample : ow_sample_t) (context : σ) (w : World) (hf : is_fatal r = true) :
    ow_recv_loop callback bt_sock hci_handle (r :: rest) sample context w
      = some (fatal_code r, context, w.call (Op.read bt_sock) r) := by
  cases r with
  | fail e =>
    have ht : ¬ (e = EAGAIN ∨ e = EINTR) := by simpa [is_fatal] using hf
    rw [ow_recv_loop]
    simp only [ht, if_false]
    rfl
  | ok bytes =>
    have hb : bytes = [] := by simpa [is_fatal] using hf
    subst hb
    rw [ow_recv_loop]
    rfl

/-- An iteration on a transient error or a rejected frame. -/
theorem ow_recv_loop_skip {σ : Type} (callback : ow_sample_t → σ → Bool × σ)
    (bt_sock hci_handle : Nat) (r : Outcome (List Byte)) (rest : List (Outcome (List Byte)))
    (sample : ow_sample_t) (context : σ) (w : World) (hf : is_fatal r = false)
    (ha : accepted hci_handle [r] = []) :
    ow_recv_loop callback bt_sock hci_handle (r :: rest) sample context w
      = ow_recv_loop callback bt_sock hci_handle rest sample context
          (w.call (Op.read bt_sock) r) := by
  cases r with
  | fail e =>
    have ht : e = EAGAIN ∨ e = EINTR := by
      by_contra hn
      simp [is_fatal, hn] at hf
    rw [ow_recv_loop]
    simp only [ht, if_true]
  | ok bytes =>
    have hb : ¬ bytes = [] := by simpa [is_fatal] using hf
    have h0 : ¬ (bytes.take HCI_MAX_EVENT_SIZE).length = 0 := by
      rw [take_length_eq_zero]; exact hb
    have hv : validate hci_handle bytes = false := by
      cases hval : validate hci_handle bytes
      · rfl
      · simp [accepted, hval] at ha
    rw [ow_recv_loop]
    dsimp only
    rw [if_neg h0, validate_take, if_pos hv]

/-- An iteration on an accepted frame. -/
theorem ow_recv_loop_accept {σ : Type} (callback : ow_sample_t → σ → Bool × σ)
    (bt_sock hci_handle : Nat) (bytes : List Byte) (rest : List (Outcome (List Byte)))
    (sample : ow_sample_t) (context : σ) (w : World)
    (hv : validate hci_handle bytes = true) :
    ow_recv_loop callback bt_sock hci_handle (Outcome.ok bytes :: rest) sample context w
      = if (callback (decode sample bytes) context).1 = true then
          ow_recv_loop callback bt_sock hci_handle rest (decode sample bytes)
            (callback (decode sample bytes) context).2
            (w.call (Op.read bt_sock) (Outcome.ok bytes))
        else some (0, (callback (decode sample bytes) context).2,
          w.call (Op.read bt_sock) (Outcome.ok bytes)) := by
  have hlen := validate_length _ _ hv
  have h := ow_recv_loop_ok callback bt_sock hci_handle bytes rest sample context w
    (by omega) (by rw [hlen]; decide)
  rw [h, if_pos hv]

theorem accepted_cons_ok (hci_handle : Nat) (bytes : List Byte)
    (rest : List (Outcome (List Byte))) (hv : validate hci_handle bytes = true) :
    accepted hci_handle (Outcome.ok bytes :: rest) = bytes :: accepted hci_handle rest := by
  simp [accepted, hv]

theorem accepted_cons_skip (hci_handle : Nat) (r : Outcome (List Byte))
    (rest : List (Outcome (List Byte))) (ha : accepted hci_handle [r] = []) :
    accepted hci_handle (r :: rest) = accepted hci_handle rest := by
  cases r with
  | fail e => rfl
  | ok bytes =>
    cases hval : validate hci_handle bytes
    · simp [accepted, hval]
    · simp [accepted, hval] at ha

theorem accepted_single (hci_handle : Nat) (r : Outcome (List Byte)) :
    accepted hci_handle [r] = [] ∨ ∃ bytes, r = Outcome.ok bytes ∧ validate hci_handle bytes = true
      ∧ is_fatal r = false := by
  cases r with
  | fail e => left; rfl
  | ok bytes =>
    cases hval : validate hci_handle bytes
    · left; simp [accepted, hval]
    · right
      refine ⟨bytes, rfl, hval, ?_⟩
      have := validate_length _ _ hval
      cases bytes with
      | nil => simp at this
      | cons b bs => rfl

theorem feed_stopped_pos {σ : Type} (callback : ow_sample_t → σ → Bool × σ) :
    ∀ (samples : List ow_sample_t) (context : σ),
      (feed callback samples context).2.2 = true → 1 ≤ (feed callback samples context).1 := by
  intro samples
  induction samples with
  | nil => intro context h; simp [feed] at h
  | cons s ss ih =>
    intro context h
    rw [feed]
    split_ifs <;> simp

/-- The receive loop against the reference: the callback is fed the decodes of the
accepted frames among the reads before the first read that ends the loop, in order,
up to and including the first invocation that returns `false`; then the loop ends with
`error = 0` having read up to that frame and no further; otherwise it ends at the
first read that ends the loop, with its code; otherwise it never ends. -/
theorem ow_recv_loop_spec {σ : Type} (callback : ow_sample_t → σ → Bool × σ)
    (bt_sock hci_handle : Nat) :
    ∀ (reads : List (Outcome (List Byte))) (sample : ow_sample_t) (context : σ) (w : World),
      (ow_recv_loop callback bt_sock hci_handle reads sample context w).map
          (fun r => (r.1, r.2.1, r.2.2.log))
        = if (feed callback (decodeAll sample (accepted hci_handle (live reads))) context).2.2
              = true then
            some (0,
              (feed callback (decodeAll sample (accepted hci_handle (live reads))) context).2.1,
              w.log ++ List.replicate
                (reads_for hci_handle
                  (feed callback (decodeAll sample (accepted hci_handle (live reads))) context).1
                  (live reads))
                (Op.read bt_sock))
          else
            match reads.drop (live reads).length with
            | [] => none
            | r :: _ =>
              some (fatal_code r,
                (feed callback (decodeAll sample (accepted hci_handle (live reads))) context).2.1,
                w.log ++ List.replicate ((live reads).length + 1) (Op.read bt_sock)) := by
  intro reads
  induction reads with
  | nil =>
    intro sample context w
    simp [ow_recv_loop, live, accepted, decodeAll, feed]
  | cons r rest ih =>
    intro sample context w
    by_cases hf : is_fatal r = true
    · have hl : live (r :: rest) = [] := by simp [live, hf]
      rw [ow_recv_loop_fatal callback bt_sock hci_handle r rest sample context w hf, hl]
      simp [accepted, decodeAll, feed, call_log]
    · have hf' : is_fatal r = false := by simpa using hf
      have hl : live (r :: rest) = r :: live rest := by simp [live, hf']
      rw [hl]
      rcases accepted_single hci_handle r with ha | ⟨bytes, hr, hv, _⟩
      · rw [ow_recv_loop_skip callback bt_sock hci_handle r rest sample context w hf' ha,
          ih, accepted_cons_skip hci_handle r _ ha, call_log]
        by_cases hs : (feed callback (decodeAll sample (accepted hci_handle (live rest)))
            context).2.2 = true
        · have hpos := feed_stopped_pos callback _ _ hs
          rw [if_pos hs, if_pos hs]
          obtain ⟨j, hj⟩ : ∃ j, (feed callback (decodeAll sample
              (accepted hci_handle (live rest))) context).1 = j + 1 := ⟨_, (Nat.sub_add_cancel hpos).symm⟩
          rw [hj, reads_for, if_neg (by rw [ha]; simp), log_replicate_succ]
        · rw [if_neg hs, if_neg hs, List.length_cons, List.drop_succ_cons, log_replicate_succ]
      · subst hr
        rw [ow_recv_loop_accept callback bt_sock hci_handle bytes rest sample context w hv,
          accepted_cons_ok hci_handle bytes _ hv, decodeAll, feed]
        by_cases hc : (callback (decode sample bytes) context).1 = true
        · rw [if_pos hc, if_pos hc, ih, call_log]
          dsimp only
          by_cases hs : (feed callback (decodeAll (decode sample bytes)
              (accepted hci_handle (live rest))) (callback (decode sample bytes) context).2).2.2
              = true
          · rw [if_pos hs, if_pos hs, reads_for,
              if_pos (by rw [accepted_cons_ok hci_handle bytes [] hv]; rfl), log_replicate_succ]
          · rw [if_neg hs, if_neg hs, List.length_cons, List.drop_succ_cons, log_replicate_succ]
        · rw [if_neg hc, if_neg hc]
          have hone : (accepted hci_handle [Outcome.ok bytes]).length = 1 := by
            rw [accepted_cons_ok hci_handle bytes [] hv]; rfl
          simp only [Option.map_some', if_true, call_log, reads_for, hone]
          rfl

theorem feed_facts {σ : Type} (callback : ow_sample_t → σ → Bool × σ) :
    ∀ (samples : List ow_sample_t) (context : σ),
      (feed callback samples context).1 ≤ samples.length
      ∧ (feed callback samples context).2.1
          = (samples.take (feed callback samples context).1).foldl
              (fun c s => (callback s c).2) context
      ∧ ((feed callback samples context).2.2 = false →
          (feed callback samples context).1 = samples.length) := by
  intro samples
  induction samples with
  | nil => intro context; simp [feed]
  | cons s ss ih =>
    intro context
    rw [feed]
    by_cases hc : (callback s context).1 = true
    · rw [if_pos hc]
      obtain ⟨h1, h2, h3⟩ := ih (callback s context).2
      refine ⟨by simpa using h1, ?_, ?_⟩
      · simp only [List.take_succ_cons, List.foldl_cons]
        exact h2
      · intro hs
        simp only [List.length_cons, add_left_inj]
        exact h3 hs
    · rw [if_neg hc]
      simp

/-- C12. The receive loop of `ow_recv` against the reference, for every stream of
read results. The callback is invoked on the decodes of the accepted frames that
arrive before the first read that ends the loop (a zero-byte read or a non-transient
error), once each and in arrival order, up to and including the first invocation
that returns `false`. When an invocation returns `false` the loop ends with
`error = 0`, having issued exactly the reads up to that frame. Otherwise it ends at
the first read that ends the loop, with that read's code and no further invocation,
or it never ends. Transient errors and rejected frames cause no invocation and do not
end the loop. -/
theorem C12_receive_loop {σ : Type} (callback : ow_sample_t → σ → Bool × σ)
    (bt_sock hci_handle : Nat) (reads : List (Outcome (List Byte))) (sample : ow_sample_t)
    (context : σ) (w : World) :
    (ow_recv_loop callback bt_sock hci_handle reads sample context w).map
        (fun r => (r.1, r.2.1, r.2.2.log))
      = (if (feed callback (decodeAll sample (accepted hci_handle (live reads))) context).2.2
            = true then
          some (0,
            (feed callback (decodeAll sample (accepted hci_handle (live reads))) context).2.1,
            w.log ++ List.replicate
              (reads_for hci_handle
                (feed callback (decodeAll sample (accepted hci_handle (live reads))) context).1
                (live reads))
              (Op.read bt_sock))
        else
          match reads.drop (live reads).length with
          | [] => none
          | r :: _ =>
            some (fatal_code r,
              (feed callback (decodeAll sample (accepted hci_handle (live reads))) context).2.1,
              w.log ++ List.replicate ((live reads).length + 1) (Op.read bt_sock)))
    ∧ (∀ (samples : List ow_sample_t) (c : σ),
        (feed callback samples c).1 ≤ samples.length
        ∧ (feed callback samples c).2.1
            = (samples.take (feed callback samples c).1).foldl (fun c s => (callback s c).2) c
        ∧ ((feed callback samples c).2.2 = false → (feed callback samples c).1 = samples.length))
    ∧ (∀ (r : Outcome (List Byte)) (rest : List (Outcome (List Byte))), is_fatal r = true →
        ow_recv_loop callback bt_sock hci_handle (r :: rest) sample context w
          = some (fatal_code r, context, w.call (Op.read bt_sock) r))
    ∧ (∀ (r : Outcome (List Byte)) (rest : List (Outcome (List Byte))), is_fatal r = false →
        accepted hci_handle [r] = [] →
        ow_recv_loop callback bt_sock hci_handle (r :: rest) sample context w
          = ow_recv_loop callback bt_sock hci_handle rest sample context
              (w.call (Op.read bt_sock) r))
    ∧ (∀ (bytes : List Byte) (rest : List (Outcome (List Byte))),
        validate hci_handle bytes = true →
        ow_recv_loop callback bt_sock hci_handle (Outcome.ok bytes :: rest) sample context w
          = if (callback (decode sample bytes) context).1 = true then
              ow_recv_loop callback bt_sock hci_handle rest (decode sample bytes)
                (callback (decode sample bytes) context).2
                (w.call (Op.read bt_sock) (Outcome.ok bytes))
            else some (0, (callback (decode sample bytes) context).2,
              w.call (Op.read bt_sock) (Outcome.ok bytes))) :=
  ⟨ow_recv_loop_spec callback bt_sock hci_handle reads sample context w,
   feed_facts callback,
   fun r rest hf => ow_recv_loop_fatal callback bt_sock hci_handle r rest sample context w hf,
   fun r rest hf ha => ow_recv_loop_skip callback bt_sock hci_handle r rest sample context w hf ha,
   fun bytes rest hv =>
     ow_recv_loop_accept callback bt_sock hci_handle bytes rest sample context w hv⟩

/-- Witness of C12. Over `stream7` a callback that stops at its second invocation is
invoked for the first and the third read (the second is a rejected frame), and three
reads are issued in all; over a stream of a transient error, a rejected frame, an
accepted frame, a zero-byte read and a further accepted frame, a callback that never
stops is invoked once, and the loop ends at the fourth read with `ENODATA`. -/
theorem C12_receive_loop_witness :
    (ow_recv_loop (record_until 2) 3 0x40 stream7 sample0 [] world0).map
        (fun r => (r.1, r.2.1, r.2.2.log))
      = some (0, [OW_UNIT_VOLT, OW_UNIT_VOLT], [Op.read 3, Op.read 3, Op.read 3])
    ∧ (ow_recv_loop (record_until 9) 3 0x40
          [.fail EINTR, .ok (notification 0x2041 0xF020 0 0 0x0001),
           .ok (notification 0x2040 0xF128 0 0 0x0708), .ok [],
           .ok (notification 0x2040 0xF020 0 0 0x0708)] sample0 [] world0).map
        (fun r => (r.1, r.2.1, r.2.2.log))
      = some (ENODATA, [OW_UNIT_KILOOHM], [Op.read 3, Op.read 3, Op.read 3, Op.read 3]) :=
  ⟨(C12_receive_loop (record_until 2) 3 0x40 stream7 sample0 [] world0).1.trans (by decide),
   (C12_receive_loop (record_until 9) 3 0x40
      [.fail EINTR, .ok (notification 0x2041 0xF020 0 0 0x0001),
       .ok (notification 0x2040 0xF128 0 0 0x0708), .ok [],
       .ok (notification 0x2040 0xF020 0 0 0x0708)] sample0 [] world0).1.trans (by decide)⟩

/-! ## C13: the return value and the reported error of `ow_recv` -/

theorem close_out_spec (t : Script) (bt_sock error : Nat) (w : World) :
    ((close_out t bt_sock error w).1,
      if (close_out t bt_sock error w).1 = true then 0 else (close_out t bt_sock error w).2.errno)
      = (decide (error = 0), error) := by
  unfold close_out
  by_cases h : error = 0 <;> simp [h]

theorem disc_close_out_spec (t : Script) (bt_sock hci_handle error : Nat) (w : World) :
    ((disc_close_out t bt_sock hci_handle error w).1,
      if (disc_close_out t bt_sock hci_handle error w).1 = true then 0
        else (disc_close_out t bt_sock hci_handle error w).2.errno)
      = (decide (error = 0), error) := by
  unfold disc_close_out
  exact close_out_spec _ _ _ _

theorem restore_disc_close_out_spec (t : Script) (bt_sock hci_handle : Nat) (old : hci_filter)
    (error : Nat) (w : World) :
    ((restore_disc_close_out t bt_sock hci_handle old error w).1,
      if (restore_disc_close_out t bt_sock hci_handle old error w).1 = true then 0
        else (restore_disc_close_out t bt_sock hci_handle old error w).2.errno)
      = (decide (error = 0), error) := by
  unfold restore_disc_close_out
  exact disc_close_out_spec _ _ _ _ _

theorem fatal_code_ne_zero (r : Outcome (List Byte)) (h : r.sets_errno = true) :
    fatal_code r ≠ 0 := by
  cases r with
  | fail e => simpa [Outcome.sets_errno, fatal_code] using h
  | ok bytes => simp [fatal_code, ENODATA]

/-- The value of `error` the receive loop ends with, against the reference. -/
theorem ow_recv_loop_error {σ : Type} (callback : ow_sample_t → σ → Bool × σ)
    (bt_sock hci_handle : Nat) (reads : List (Outcome (List Byte))) (sample : ow_sample_t)
    (context : σ) (w : World) (hwf : reads.all Outcome.sets_errno = true) :
    (ow_recv_loop callback bt_sock hci_handle reads sample context w).map
        (fun r => (decide (r.1 = 0), r.1))
      = (loop_failure callback hci_handle reads sample context).map reported := by
  have h := congrArg (Option.map (fun q : Nat × σ × List Op => (decide (q.1 = 0), q.1)))
    (ow_recv_loop_spec callback bt_sock hci_handle reads sample context w)
  simp only [Option.map_map] at h
  refine Eq.trans h ?_
  unfold loop_failure
  by_cases hs : (feed callback (decodeAll sample (accepted hci_handle (live reads))) context).2.2
      = true
  · rw [if_pos hs, if_pos hs]
    rfl
  · rw [if_neg hs, if_neg hs]
    cases hd : reads.drop (live reads).length with
    | nil => rfl
    | cons r rest =>
      have hmem : r ∈ reads := List.mem_of_mem_drop (by rw [hd]; exact List.mem_cons_self _ _)
      have hr : r.sets_errno = true := (List.all_eq_true.mp hwf) r hmem
      have hne := fatal_code_ne_zero r hr
      simp [hne, reported]

theorem returned_close_out {σ : Type} (t : Script) (bt_sock error : Nat) (w : World)
    (context : σ) :
    returned ((close_out t bt_sock error w).1, context, (close_out t bt_sock error w).2)
      = (decide (error = 0), error) := close_out_spec t bt_sock error w

theorem reported_of_ne_zero (e : Nat) (h : e ≠ 0) : (decide (e = 0), e) = reported (some e) := by
  simp [reported, h]

/-- The part of `ow_recv` from the filter switch on, as a caller sees it. -/
theorem ow_recv_receive_verdict {σ : Type} (callback : ow_sample_t → σ → Bool × σ) (context : σ)
    (sample : ow_sample_t) (bt_sock hci_handle : Nat) (old : hci_filter) (t : Script) (w : World)
    (hrf : t.recv_set_filter.sets_errno = true)
    (hreads : t.recv_reads.all Outcome.sets_errno = true) :
    Option.map returned (ow_recv_receive callback context sample bt_sock hci_handle old t w)
      = Option.map reported
          (match t.recv_set_filter with
            | .fail e => some (some e)
            | .ok _ => loop_failure callback hci_handle t.recv_reads sample context) := by
  unfold ow_recv_receive
  cases hf : t.recv_set_filter with
  | fail e =>
    have he : e ≠ 0 := by simpa [Outcome.sets_errno, hf] using hrf
    simp only [ow_set_hci_filter, Option.map_some']
    rw [← reported_of_ne_zero e he]
    exact congrArg some (disc_close_out_spec t bt_sock hci_handle e _)
  | ok u =>
    simp only [ow_set_hci_filter]
    rw [← ow_recv_loop_error callback bt_sock hci_handle t.recv_reads sample context
      { w with filter := async_filter, log := w.log ++ [Op.set_filter bt_sock async_filter] }
      hreads]
    cases ow_recv_loop callback bt_sock hci_handle t.recv_reads sample context
      { w with filter := async_filter, log := w.log ++ [Op.set_filter bt_sock async_filter] } with
    | none => rfl
    | some r =>
      simp only [Option.map_some']
      exact congrArg some (restore_disc_close_out_spec t bt_sock hci_handle old r.1 r.2.2)

/-- The part of `ow_recv` from the connect on, as a caller sees it. -/
theorem ow_recv_connect_verdict {σ : Type} (config : ow_config_t)
    (callback : ow_sample_t → σ → Bool × σ) (context : σ) (sample : ow_sample_t) (bt_sock : Nat)
    (old : hci_filter) (addr : List Byte) (t : Script) (w : World)
    (hcc : t.create_conn.sets_errno = true) (hrf : t.recv_set_filter.sets_errno = true)
    (hreads : t.recv_reads.all Outcome.sets_errno = true) :
    Option.map returned (ow_recv_connect config callback context sample bt_sock old addr t w)
      = Option.map reported
          (if config.connect_mode = OW_CONNECT_MODE_AUTOMATIC
              ∨ config.connect_mode = OW_CONNECT_MODE_MANUAL then
            match t.create_conn with
            | .fail e => some (some e)
            | .ok handle =>
              match t.recv_set_filter with
              | .fail e => some (some e)
              | .ok _ => loop_failure callback (handle % 65536) t.recv_reads sample context
          else some (some EINVAL)) := by
  have hconn : ∀ params : ow_connect_params,
      Option.map returned
          (match ow_connect bt_sock addr params t.create_conn w with
            | (none, w) =>
              let r := close_out t bt_sock w.errno w
              some (r.1, context, r.2)
            | (some hci_handle, w) =>
              ow_recv_receive callback context sample bt_sock hci_handle old t w)
        = Option.map reported
            (match t.create_conn with
              | .fail e => some (some e)
              | .ok handle =>
                match t.recv_set_filter with
                | .fail e => some (some e)
                | .ok _ => loop_failure callback (handle % 65536) t.recv_reads sample context) := by
    intro params
    cases hc : t.create_conn with
    | fail e =>
      have he : e ≠ 0 := by simpa [Outcome.sets_errno, hc] using hcc
      simp only [ow_connect, Option.map_some']
      rw [← reported_of_ne_zero e he]
      exact congrArg some (close_out_spec t bt_sock e _)
    | ok handle =>
      simp only [ow_connect]
      exact ow_recv_receive_verdict callback context sample bt_sock _ old t _ hrf hreads
  unfold ow_recv_connect
  by_cases h1 : config.connect_mode = OW_CONNECT_MODE_AUTOMATIC
  · rw [if_pos h1, if_pos (Or.inl h1)]
    exact hconn _
  · rw [if_neg h1]
    by_cases h2 : config.connect_mode = OW_CONNECT_MODE_MANUAL
    · rw [if_pos h2, if_pos (Or.inr h2)]
      exact hconn _
    · rw [if_neg h2, if_neg (by tauto)]
      simp only [Option.map_some']
      exact congrArg some (close_out_spec t bt_sock EINVAL w)

/-- The part of `ow_recv` from the scan on, as a caller sees it. -/
theorem ow_recv_scan_verdict {σ : Type} (config : ow_config_t)
    (callback : ow_sample_t → σ → Bool × σ) (context : σ) (sample : ow_sample_t) (bt_sock : Nat)
    (old : hci_filter) (addr : List Byte) (t : Script) (w : World)
    (hsf : t.scan_set_filter.sets_errno = true) (hsp : t.scan_parameters.sets_errno = true)
    (hse : t.scan_enable.sets_errno = true)
    (hsr : t.scan_reads.all Outcome.sets_errno = true)
    (hcc : t.create_conn.sets_errno = true) (hrf : t.recv_set_filter.sets_errno = true)
    (hreads : t.recv_reads.all Outcome.sets_errno = true) :
    Option.map returned (ow_recv_scan config callback context sample bt_sock old addr t w)
      = Option.map reported
          (match (if config.scan_mode = OW_SCAN_MODE_NONE then some none
                  else if config.scan_mode = OW_SCAN_MODE_AUTOMATIC then
                    scan_failure automatic_scan_params t
                  else if config.scan_mode = OW_SCAN_MODE_MANUAL then
                    scan_failure config.scan_params t
                  else some (some EINVAL)) with
            | none => none
            | some (some e) => some (some e)
            | some none =>
              if config.connect_mode = OW_CONNECT_MODE_AUTOMATIC
                  ∨ config.connect_mode = OW_CONNECT_MODE_MANUAL then
                match t.create_conn with
                | .fail e => some (some e)
                | .ok handle =>
                  match t.recv_set_filter with
                  | .fail e => some (some e)
                  | .ok _ => loop_failure callback (handle % 65536) t.recv_reads sample context
              else some (some EINVAL)) := by
  have hscan : ∀ params : ow_scan_params,
      Option.map returned
          (match ow_scan_for_address bt_sock params old addr t w with
            | none => none
            | some (false, _, w) =>
              let r := close_out t bt_sock w.errno w
              some (r.1, context, r.2)
            | some (true, addr, w) =>
              ow_recv_connect config callback context sample bt_sock old addr t w)
        = Option.map reported
            (match scan_failure params t with
              | none => none
              | some (some e) => some (some e)
              | some none =>
                if config.connect_mode = OW_CONNECT_MODE_AUTOMATIC
                    ∨ config.connect_mode = OW_CONNECT_MODE_MANUAL then
                  match t.create_conn with
                  | .fail e => some (some e)
                  | .ok handle =>
                    match t.recv_set_filter with
                    | .fail e => some (some e)
                    | .ok _ => loop_failure callback (handle % 65536) t.recv_reads sample context
                else some (some EINVAL)) := by
    intro params
    have hv := ow_scan_for_address_verdict bt_sock params old addr t w hsp hse hsr
    cases hres : ow_scan_for_address bt_sock params old addr t w with
    | none =>
      rw [hres] at hv
      cases hsf' : scan_failure params t with
      | none => rfl
      | some v => rw [hsf'] at hv; simp at hv
    | some r =>
      obtain ⟨b, a, w1⟩ := r
      rw [hres] at hv
      cases hsf' : scan_failure params t with
      | none => rw [hsf'] at hv; simp at hv
      | some v =>
        rw [hsf'] at hv
        simp only [Option.map_some', Option.some.injEq] at hv
        cases b with
        | false =>
          have hne := scan_false_errno bt_sock params old addr t w a w1 hres hsf
          cases v with
          | none => simp at hv
          | some e =>
            simp only [Bool.false_eq_true, if_false, Prod.mk.injEq, true_and] at hv
            simp only [Option.map_some']
            rw [← hv, ← reported_of_ne_zero _ hne]
            exact congrArg some (close_out_spec t bt_sock w1.errno w1)
        | true =>
          cases v with
          | some e => simp at hv
          | none =>
            simp only
            exact ow_recv_connect_verdict config callback context sample bt_sock old a t w1
              hcc hrf hreads
  unfold ow_recv_scan
  by_cases h0 : config.scan_mode = OW_SCAN_MODE_NONE
  · rw [if_pos h0, if_pos h0]
    exact ow_recv_connect_verdict config callback context sample bt_sock old _ t w hcc hrf hreads
  · rw [if_neg h0, if_neg h0]
    by_cases h1 : config.scan_mode = OW_SCAN_MODE_AUTOMATIC
    · rw [if_pos h1, if_pos h1]
      exact hscan _
    · rw [if_neg h1, if_neg h1]
      by_cases h2 : config.scan_mode = OW_SCAN_MODE_MANUAL
      · rw [if_pos h2, if_pos h2]
        exact hscan _
      · rw [if_neg h2, if_neg h2]
        simp only [Option.map_some']
        exact congrArg some (close_out_spec t bt_sock EINVAL w)

/-- What `ow_recv` returns and reports is what the reference `session_failure` says,
when failing calls set a nonzero `errno`. -/
theorem ow_recv_verdict {σ : Type} (config : ow_config_t)
    (callback : ow_sample_t → σ → Bool × σ) (context : σ) (sample : ow_sample_t)
    (addr : List Byte) (t : Script) (w : World) (hwf : t.sets_errno = true) :
    Option.map returned (ow_recv config callback context sample addr t w)
      = Option.map reported (session_failure config callback context sample t) := by
  simp only [Script.sets_errno, Bool.and_eq_true] at hwf
  obtain ⟨⟨⟨⟨⟨⟨⟨⟨hod, hgf⟩, hsf⟩, hsp⟩, hse⟩, hsr⟩, hcc⟩, hrf⟩, hreads⟩ := hwf
  have hfrom : ∀ (dev_id : Int) (w0 : World),
      Option.map returned
          (match ow_open_socket dev_id t.open_dev w0 with
            | (none, w) => some (false, context, w)
            | (some bt_sock, w) =>
              match ow_get_hci_filter bt_sock t.get_filter w with
              | (none, w) =>
                let r := close_out t bt_sock w.errno w
                some (r.1, context, r.2)
              | (some old_hci_filter, w) =>
                ow_recv_scan config callback context sample bt_sock old_hci_filter addr t w)
        = Option.map reported
            (match t.open_dev with
              | .fail e => some (some e)
              | .ok _ =>
                match t.get_filter with
                | .fail e => some (some e)
                | .ok _ =>
                  match (if config.scan_mode = OW_SCAN_MODE_NONE then some none
                         else if config.scan_mode = OW_SCAN_MODE_AUTOMATIC then
                           scan_failure automatic_scan_params t
                         else if config.scan_mode = OW_SCAN_MODE_MANUAL then
                           scan_failure config.scan_params t
                         else some (some EINVAL)) with
                  | none => none
                  | some (some e) => some (some e)
                  | some none =>
                    if config.connect_mode = OW_CONNECT_MODE_AUTOMATIC
                        ∨ config.connect_mode = OW_CONNECT_MODE_MANUAL then
                      match t.create_conn with
                      | .fail e => some (some e)
                      | .ok handle =>
                        match t.recv_set_filter with
                        | .fail e => some (some e)
                        | .ok _ =>
                          loop_failure callback (handle % 65536) t.recv_reads sample context
                    else some (some EINVAL)) := by
    intro dev_id w0
    cases ho : t.open_dev with
    | fail e =>
      have he : e ≠ 0 := by simpa [Outcome.sets_errno, ho] using hod
      simp only [ow_open_socket, Option.map_some', World.call, returned, reported]
      simp [he]
    | ok bt_sock =>
      simp only [ow_open_socket]
      cases hg : t.get_filter with
      | fail e =>
        have he : e ≠ 0 := by simpa [Outcome.sets_errno, hg] using hgf
        simp only [ow_get_hci_filter, Option.map_some']
        rw [← reported_of_ne_zero e he]
        exact congrArg some (close_out_spec t bt_sock e _)
      | ok u =>
        simp only [ow_get_hci_filter]
        exact ow_recv_scan_verdict config callback context sample bt_sock _ addr t _
          hsf hsp hse hsr hcc hrf hreads
  unfold ow_recv session_failure
  by_cases hauto : config.dev_id = OW_DEV_ID_AUTOMATIC
  · rw [if_pos hauto]
    unfold ow_get_default_device_id
    by_cases hr : t.route < 0
    · rw [if_pos (And.intro hauto hr)]
      simp only [hr, if_true, Option.map_some', returned, reported]
      simp [ENODEV]
    · have hn : ¬ (config.dev_id = OW_DEV_ID_AUTOMATIC ∧ t.route < 0) := fun h => hr h.2
      rw [if_neg hn, if_neg hr]
      exact hfrom _ _
  · have hn : ¬ (config.dev_id = OW_DEV_ID_AUTOMATIC ∧ t.route < 0) := fun h => hauto h.1
    rw [if_neg hauto, if_neg hn]
    exact hfrom _ _

/-- A fatal verdict of one scan step comes from a failing read, a zero-byte read, or
an event of at least 14 bytes whose subevent is not the advertising report. -/
theorem scan_step_fatal_cases (params : ow_scan_params) (r : Outcome (List Byte)) (e : Nat)
    (h : scan_step params r = some (ScanEnd.fatal e)) :
    r = Outcome.fail e
    ∨ (e = ENODATA ∧ ∃ bytes, r = Outcome.ok bytes
        ∧ ((bytes.take HCI_MAX_EVENT_SIZE).length = 0
          ∨ (14 ≤ (bytes.take HCI_MAX_EVENT_SIZE).length
              ∧ byteAt (bytes.take HCI_MAX_EVENT_SIZE) 3 ≠ 0x02))) := by
  cases r with
  | fail e' =>
    simp only [scan_step] at h
    split_ifs at h
    simp only [Option.some.injEq, ScanEnd.fatal.injEq] at h
    exact Or.inl (by rw [h])
  | ok bytes =>
    right
    simp only [scan_step] at h
    split_ifs at h with h0 h14 h3
    · simp only [Option.some.injEq, ScanEnd.fatal.injEq] at h
      exact ⟨h.symm, bytes, rfl, Or.inl h0⟩
    · simp only [Option.some.injEq, ScanEnd.fatal.injEq] at h
      exact ⟨h.symm, bytes, rfl, Or.inr ⟨by omega, h3⟩⟩
    · split at h
      · exact absurd h (by simp)
      · split_ifs at h
        exact absurd h (by simp)

theorem scan_verdict_fatal_mem (params : ow_scan_params) :
    ∀ (reads : List (Outcome (List Byte))) (e k : Nat),
      scan_verdict params reads = some (ScanEnd.fatal e, k) →
      ∃ r, r ∈ reads ∧ scan_step params r = some (ScanEnd.fatal e) := by
  intro reads
  induction reads with
  | nil => intro e k h; simp [scan_verdict] at h
  | cons r rest ih =>
    intro e k h
    rw [scan_verdict] at h
    cases hs : scan_step params r with
    | none =>
      rw [hs] at h
      simp only [Option.map_eq_some', Prod.mk.injEq] at h
      obtain ⟨p, hp, h1, _⟩ := h
      obtain ⟨r', hr', hs'⟩ := ih e p.2 (by rw [hp, ← h1])
      exact ⟨r', List.mem_cons_of_mem _ hr', hs'⟩
    | some s =>
      rw [hs] at h
      simp only [Option.some.injEq, Prod.mk.injEq] at h
      exact ⟨r, List.mem_cons_self _ _, by rw [hs, h.1]⟩

/-- The read that follows the live prefix of a stream is in the stream and ends it. -/
theorem drop_live :
    ∀ (reads : List (Outcome (List Byte))) (r : Outcome (List Byte))
      (rest : List (Outcome (List Byte))),
      reads.drop (live reads).length = r :: rest → r ∈ reads ∧ is_fatal r = true := by
  intro reads
  induction reads with
  | nil => intro r rest h; simp [live] at h
  | cons x xs ih =>
    intro r rest h
    by_cases hx : is_fatal x = true
    · have hl : live (x :: xs) = [] := by simp [live, List.takeWhile, hx]
      rw [hl] at h
      simp only [List.length_nil, List.drop_zero, List.cons.injEq] at h
      rw [← h.1]
      exact ⟨List.mem_cons_self _ _, hx⟩
    · have hl : live (x :: xs) = x :: live xs := by simp [live, List.takeWhile, hx]
      rw [hl] at h
      simp only [List.length_cons, List.drop_succ_cons] at h
      obtain ⟨h1, h2⟩ := ih r rest h
      exact ⟨List.mem_cons_of_mem _ h1, h2⟩

/-- A fatal verdict of the scan stage of the reference, by its origin. -/
theorem scan_failure_cases (params : ow_scan_params) (t : Script) (e : Nat)
    (h : scan_failure params t = some (some e)) :
    t.scan_set_filter = Outcome.fail e ∨ t.scan_parameters = Outcome.fail e
    ∨ t.scan_enable = Outcome.fail e ∨ Outcome.fail e ∈ t.scan_reads
    ∨ (e = ENODATA ∧ ∃ bytes, Outcome.ok bytes ∈ t.scan_reads
        ∧ ((bytes.take HCI_MAX_EVENT_SIZE).length = 0
          ∨ (14 ≤ (bytes.take HCI_MAX_EVENT_SIZE).length
              ∧ byteAt (bytes.take HCI_MAX_EVENT_SIZE) 3 ≠ 0x02))) := by
  unfold scan_failure at h
  cases hf : t.scan_set_filter with
  | fail e' =>
    rw [hf] at h
    simp only [Option.some.injEq] at h
    exact Or.inl (by rw [h])
  | ok u =>
    rw [hf] at h
    cases hp : t.scan_parameters with
    | fail e' =>
      rw [hp] at h
      simp only [Option.some.injEq] at h
      exact Or.inr (Or.inl (by rw [h]))
    | ok u2 =>
      rw [hp] at h
      cases hen : t.scan_enable with
      | fail e' =>
        rw [hen] at h
        simp only [Option.some.injEq] at h
        exact Or.inr (Or.inr (Or.inl (by rw [h])))
      | ok u3 =>
        rw [hen] at h
        simp only at h
        cases hv : scan_verdict params t.scan_reads with
        | none => rw [hv] at h; simp at h
        | some p =>
          obtain ⟨s, k⟩ := p
          rw [hv] at h
          cases s with
          | found a => simp at h
          | fatal e' =>
            simp only [Option.some.injEq] at h
            subst h
            obtain ⟨r, hr, hs⟩ := scan_verdict_fatal_mem params t.scan_reads e' k hv
            rcases scan_step_fatal_cases params r e' hs with h1 | ⟨h1, bytes, h2, h3⟩
            · exact Or.inr (Or.inr (Or.inr (Or.inl (h1 ▸ hr))))
            · exact Or.inr (Or.inr (Or.inr (Or.inr ⟨h1, bytes, h2 ▸ hr, h3⟩)))

/-- A fatal verdict of the receive loop of the reference, by its origin. -/
theorem loop_failure_cases {σ : Type} (callback : ow_sample_t → σ → Bool × σ) (hci_handle : Nat)
    (reads : List (Outcome (List Byte))) (sample : ow_sample_t) (context : σ) (e : Nat)
    (h : loop_failure callback hci_handle reads sample context = some (some e)) :
    Outcome.fail e ∈ reads ∨ (e = ENODATA ∧ Outcome.ok [] ∈ reads) := by
  unfold loop_failure at h
  by_cases hstop :
      (feed callback (decodeAll sample (accepted hci_handle (live reads))) context).2.2 = true
  · rw [if_pos hstop] at h
    simp at h
  rw [if_neg hstop] at h
  cases hd : reads.drop (live reads).length with
  | nil => rw [hd] at h; simp at h
  | cons r rest =>
    rw [hd] at h
    simp only [Option.some.injEq] at h
    obtain ⟨hr, hfat⟩ := drop_live reads r rest hd
    cases r with
    | fail e' =>
      simp only [fatal_code] at h
      exact Or.inl (h ▸ hr)
    | ok bytes =>
      simp only [fatal_code] at h
      have hb : bytes = [] := by simpa [is_fatal] using hfat
      exact Or.inr ⟨h.symm, hb ▸ hr⟩

/-- A success of the reference is a stop requested by the callback in the loop. -/
theorem loop_failure_none {σ : Type} (callback : ow_sample_t → σ → Bool × σ) (hci_handle : Nat)
    (reads : List (Outcome (List Byte))) (sample : ow_sample_t) (context : σ) :
    loop_failure callback hci_handle reads sample context = some none
      ↔ (feed callback (decodeAll sample (accepted hci_handle (live reads))) context).2.2
          = true := by
  unfold loop_failure
  constructor
  · intro h
    by_contra hn
    rw [if_neg hn] at h
    cases hd : reads.drop (live reads).length with
    | nil => rw [hd] at h; simp at h
    | cons r rest => rw [hd] at h; simp at h
  · intro h
    rw [if_pos h]

/-- The stages of the reference before the loop: `none` when they all succeed and
the loop is entered with the handle, the code of the first failing step otherwise,
`some none` when the scan never ends. -/
theorem session_failure_none {σ : Type} (config : ow_config_t)
    (callback : ow_sample_t → σ → Bool × σ) (context : σ) (sample : ow_sample_t) (t : Script)
    (h : session_failure config callback context sample t = some none) :
    ∃ handle, t.create_conn = Outcome.ok handle
      ∧ (feed callback
          (decodeAll sample (accepted (handle % 65536) (live t.recv_reads))) context).2.2
          = true := by
  unfold session_failure at h
  by_cases hd : config.dev_id = OW_DEV_ID_AUTOMATIC ∧ t.route < 0
  · rw [if_pos hd] at h
    simp at h
  rw [if_neg hd] at h
  cases ho : t.open_dev with
  | fail e => rw [ho] at h; simp at h
  | ok s =>
    rw [ho] at h
    cases hg : t.get_filter with
    | fail e => rw [hg] at h; simp at h
    | ok u =>
      rw [hg] at h
      simp only at h
      split at h
      · simp at h
      · simp at h
      · by_cases hm : config.connect_mode = OW_CONNECT_MODE_AUTOMATIC
            ∨ config.connect_mode = OW_CONNECT_MODE_MANUAL
        swap
        · rw [if_neg hm] at h
          simp at h
        rw [if_pos hm] at h
        cases hc : t.create_conn with
        | fail e => rw [hc] at h; simp at h
        | ok handle =>
          rw [hc] at h
          cases hr : t.recv_set_filter with
          | fail e => rw [hr] at h; simp at h
          | ok u2 =>
            rw [hr] at h
            exact ⟨handle, rfl, (loop_failure_none callback _ _ sample context).1 h⟩

/-- A fatal verdict of the reference, by its origin. -/
theorem session_failure_cases {σ : Type} (config : ow_config_t)
    (callback : ow_sample_t → σ → Bool × σ) (context : σ) (sample : ow_sample_t) (t : Script)
    (e : Nat) (h : session_failure config callback context sample t = some (some e)) :
    (e = ENODEV ∧ config.dev_id = OW_DEV_ID_AUTOMATIC ∧ t.route < 0)
    ∨ (e = EINVAL
        ∧ ((config.scan_mode ≠ OW_SCAN_MODE_NONE ∧ config.scan_mode ≠ OW_SCAN_MODE_AUTOMATIC
              ∧ config.scan_mode ≠ OW_SCAN_MODE_MANUAL)
          ∨ (config.connect_mode ≠ OW_CONNECT_MODE_AUTOMATIC
              ∧ config.connect_mode ≠ OW_CONNECT_MODE_MANUAL)))
    ∨ (e = ENODATA
        ∧ (Outcome.ok [] ∈ t.recv_reads
          ∨ ∃ bytes, Outcome.ok bytes ∈ t.scan_reads
              ∧ ((bytes.take HCI_MAX_EVENT_SIZE).length = 0
                ∨ (14 ≤ (bytes.take HCI_MAX_EVENT_SIZE).length
                    ∧ byteAt (bytes.take HCI_MAX_EVENT_SIZE) 3 ≠ 0x02))))
    ∨ t.open_dev = Outcome.fail e ∨ t.get_filter = Outcome.fail e
    ∨ t.scan_set_filter = Outcome.fail e ∨ t.scan_parameters = Outcome.fail e
    ∨ t.scan_enable = Outcome.fail e ∨ Outcome.fail e ∈ t.scan_reads
    ∨ t.create_conn = Outcome.fail e ∨ t.recv_set_filter = Outcome.fail e
    ∨ Outcome.fail e ∈ t.recv_reads := by
  have hscan : ∀ params, scan_failure params t = some (some e) →
      (e = ENODATA
        ∧ (Outcome.ok [] ∈ t.recv_reads
          ∨ ∃ bytes, Outcome.ok bytes ∈ t.scan_reads
              ∧ ((bytes.take HCI_MAX_EVENT_SIZE).length = 0
                ∨ (14 ≤ (bytes.take HCI_MAX_EVENT_SIZE).length
                    ∧ byteAt (bytes.take HCI_MAX_EVENT_SIZE) 3 ≠ 0x02))))
      ∨ t.scan_set_filter = Outcome.fail e ∨ t.scan_parameters = Outcome.fail e
      ∨ t.scan_enable = Outcome.fail e ∨ Outcome.fail e ∈ t.scan_reads := by
    intro params hs
    rcases scan_failure_cases params t e hs with h1 | h1 | h1 | h1 | ⟨h1, h2⟩
    · exact Or.inr (Or.inl h1)
    · exact Or.inr (Or.inr (Or.inl h1))
    · exact Or.inr (Or.inr (Or.inr (Or.inl h1)))
    · exact Or.inr (Or.inr (Or.inr (Or.inr h1)))
    · exact Or.inl ⟨h1, Or.inr h2⟩
  have hconn :
      (if config.connect_mode = OW_CONNECT_MODE_AUTOMATIC
            ∨ config.connect_mode = OW_CONNECT_MODE_MANUAL then
          match t.create_conn with
          | .fail e => some (some e)
          | .ok handle =>
            match t.recv_set_filter with
            | .fail e => some (some e)
            | .ok _ => loop_failure callback (handle % 65536) t.recv_reads sample context
        else some (some EINVAL)) = some (some e) →
      (e = EINVAL ∧ config.connect_mode ≠ OW_CONNECT_MODE_AUTOMATIC
          ∧ config.connect_mode ≠ OW_CONNECT_MODE_MANUAL)
      ∨ (e = ENODATA ∧ Outcome.ok [] ∈ t.recv_reads)
      ∨ t.create_conn = Outcome.fail e ∨ t.recv_set_filter = Outcome.fail e
      ∨ Outcome.fail e ∈ t.recv_reads := by
    intro hc
    by_cases hm : config.connect_mode = OW_CONNECT_MODE_AUTOMATIC
        ∨ config.connect_mode = OW_CONNECT_MODE_MANUAL
    · rw [if_pos hm] at hc
      cases hcc : t.create_conn with
      | fail e' =>
        rw [hcc] at hc
        simp only [Option.some.injEq] at hc
        exact Or.inr (Or.inr (Or.inl (by rw [hc])))
      | ok handle =>
        rw [hcc] at hc
        cases hr : t.recv_set_filter with
        | fail e' =>
          rw [hr] at hc
          simp only [Option.some.injEq] at hc
          exact Or.inr (Or.inr (Or.inr (Or.inl (by rw [hc]))))
        | ok u =>
          rw [hr] at hc
          rcases loop_failure_cases callback _ _ sample context e hc with h1 | h1
          · exact Or.inr (Or.inr (Or.inr (Or.inr h1)))
          · exact Or.inr (Or.inl h1)
    · rw [if_neg hm] at hc
      simp only [Option.some.injEq] at hc
      exact Or.inl ⟨hc.symm, fun h1 => hm (Or.inl h1), fun h1 => hm (Or.inr h1)⟩
  have hmode :
      (if config.scan_mode = OW_SCAN_MODE_NONE then some none
        else if config.scan_mode = OW_SCAN_MODE_AUTOMATIC then
          scan_failure automatic_scan_params t
        else if config.scan_mode = OW_SCAN_MODE_MANUAL then
          scan_failure config.scan_params t
        else some (some EINVAL)) = some (some e) →
      (e = EINVAL ∧ config.scan_mode ≠ OW_SCAN_MODE_NONE
          ∧ config.scan_mode ≠ OW_SCAN_MODE_AUTOMATIC ∧ config.scan_mode ≠ OW_SCAN_MODE_MANUAL)
      ∨ (e = ENODATA
        ∧ (Outcome.ok [] ∈ t.recv_reads
          ∨ ∃ bytes, Outcome.ok bytes ∈ t.scan_reads
              ∧ ((bytes.take HCI_MAX_EVENT_SIZE).length = 0
                ∨ (14 ≤ (bytes.take HCI_MAX_EVENT_SIZE).length
                    ∧ byteAt (bytes.take HCI_MAX_EVENT_SIZE) 3 ≠ 0x02))))
      ∨ t.scan_set_filter = Outcome.fail e ∨ t.scan_parameters = Outcome.fail e
      ∨ t.scan_enable = Outcome.fail e ∨ Outcome.fail e ∈ t.scan_reads := by
    intro hm
    by_cases h0 : config.scan_mode = OW_SCAN_MODE_NONE
    · rw [if_pos h0] at hm
      simp at hm
    · rw [if_neg h0] at hm
      by_cases h1 : config.scan_mode = OW_SCAN_MODE_AUTOMATIC
      · rw [if_pos h1] at hm
        exact Or.inr (hscan _ hm)
      · rw [if_neg h1] at hm
        by_cases h2 : config.scan_mode = OW_SCAN_MODE_MANUAL
        · rw [if_pos h2] at hm
          exact Or.inr (hscan _ hm)
        · rw [if_neg h2] at hm
          simp only [Option.some.injEq] at hm
          exact Or.inl ⟨hm.symm, h0, h1, h2⟩
  unfold session_failure at h
  by_cases hd : config.dev_id = OW_DEV_ID_AUTOMATIC ∧ t.route < 0
  · rw [if_pos hd] at h
    simp only [Option.some.injEq] at h
    exact Or.inl ⟨h.symm, hd⟩
  · rw [if_neg hd] at h
    cases ho : t.open_dev with
    | fail e' =>
      rw [ho] at h
      simp only [Option.some.injEq] at h
      exact Or.inr (Or.inr (Or.inr (Or.inl (by rw [h]))))
    | ok s =>
      rw [ho] at h
      cases hg : t.get_filter with
      | fail e' =>
        rw [hg] at h
        simp only [Option.some.injEq] at h
        exact Or.inr (Or.inr (Or.inr (Or.inr (Or.inl (by rw [h])))))
      | ok u =>
        rw [hg] at h
        simp only at h
        cases hsc : (if config.scan_mode = OW_SCAN_MODE_NONE then some none
            else if config.scan_mode = OW_SCAN_MODE_AUTOMATIC then
              scan_failure automatic_scan_params t
            else if config.scan_mode = OW_SCAN_MODE_MANUAL then
              scan_failure config.scan_params t
            else some (some EINVAL)) with
        | none => rw [hsc] at h; simp at h
        | some v =>
          rw [hsc] at h
          cases v with
          | some e' =>
            simp only [Option.some.injEq] at h
            subst h
            rcases hmode hsc with ⟨h1, h2⟩ | h1 | h1 | h1 | h1 | h1
            · exact Or.inr (Or.inl ⟨h1, Or.inl h2⟩)
            · exact Or.inr (Or.inr (Or.inl h1))
            · exact Or.inr (Or.inr (Or.inr (Or.inr (Or.inr (Or.inl h1)))))
            · exact Or.inr (Or.inr (Or.inr (Or.inr (Or.inr (Or.inr (Or.inl h1))))))
            · exact Or.inr (Or.inr (Or.inr (Or.inr (Or.inr (Or.inr (Or.inr (Or.inl h1)))))))
            · exact Or.inr (Or.inr (Or.inr (Or.inr (Or.inr (Or.inr (Or.inr (Or.inr
                (Or.inl h1))))))))
          | none =>
            rcases hconn h with ⟨h1, h2⟩ | ⟨h1, h2⟩ | h1 | h1 | h1
            · exact Or.inr (Or.inl ⟨h1, Or.inr h2⟩)
            · exact Or.inr (Or.inr (Or.inl ⟨h1, Or.inl h2⟩))
            · exact Or.inr (Or.inr (Or.inr (Or.inr (Or.inr (Or.inr (Or.inr (Or.inr (Or.inr
                (Or.inl h1)))))))))
            · exact Or.inr (Or.inr (Or.inr (Or.inr (Or.inr (Or.inr (Or.inr (Or.inr (Or.inr
                (Or.inr (Or.inl h1))))))))))
            · exact Or.inr (Or.inr (Or.inr (Or.inr (Or.inr (Or.inr (Or.inr (Or.inr (Or.inr
                (Or.inr (Or.inr h1))))))))))

/-- A code of the reference is nonzero when failing calls set a nonzero `errno`. -/
theorem session_failure_ne_zero {σ : Type} (config : ow_config_t)
    (callback : ow_sample_t → σ → Bool × σ) (context : σ) (sample : ow_sample_t) (t : Script)
    (e : Nat) (hwf : t.sets_errno = true)
    (h : session_failure config callback context sample t = some (some e)) : e ≠ 0 := by
  simp only [Script.sets_errno, Bool.and_eq_true] at hwf
  obtain ⟨⟨⟨⟨⟨⟨⟨⟨hod, hgf⟩, hsf⟩, hsp⟩, hse⟩, hsr⟩, hcc⟩, hrf⟩, hreads⟩ := hwf
  have one : ∀ {α : Type} (r : Outcome α), r.sets_errno = true → r = Outcome.fail e → e ≠ 0 := by
    intro α r hr he
    rw [he] at hr
    simpa [Outcome.sets_errno] using hr
  have many : ∀ (l : List (Outcome (List Byte))), l.all Outcome.sets_errno = true →
      Outcome.fail e ∈ l → e ≠ 0 := by
    intro l hl hm
    exact one _ (List.all_eq_true.1 hl _ hm) rfl
  rcases session_failure_cases config callback context sample t e h with
    h1 | h1 | h1 | h1 | h1 | h1 | h1 | h1 | h1 | h1 | h1 | h1
  · rw [h1.1]; decide
  · rw [h1.1]; decide
  · rw [h1.1]; decide
  · exact one _ hod h1
  · exact one _ hgf h1
  · exact one _ hsf h1
  · exact one _ hsp h1
  · exact one _ hse h1
  · exact many _ hsr h1
  · exact one _ hcc h1
  · exact one _ hrf h1
  · exact many _ hreads h1

/-- C13 (amended). When every failing call before the teardown sets a nonzero
`errno`, what `ow_recv` returns and reports is what the reference `session_failure`
says: `true` exactly when no step failed, which happens only when the receive loop was
entered and ended because the callback returned `false`; otherwise `false`, and the
reported code is nonzero, is that of the first failing step, and is `ENODEV` when no
default adapter exists, `EINVAL` for an unrecognised scan or connect mode, `ENODATA`
for a zero-byte read or for a scan event of at least 14 bytes whose subevent is not
the advertising report, or the code of a failing transport call. The outcomes of the
teardown steps (scan disable, the two filter restores, disconnect, close) change
neither the return value nor the reported code. -/
theorem C13_return_and_error {σ : Type} (config : ow_config_t)
    (callback : ow_sample_t → σ → Bool × σ) (context : σ) (sample : ow_sample_t)
    (addr : List Byte) (t : Script) (w : World) (hwf : t.sets_errno = true) :
    Option.map returned (ow_recv config callback context sample addr t w)
        = Option.map reported (session_failure config callback context sample t)
    ∧ (∀ r, ow_recv config callback context sample addr t w = some r →
        (r.1 = true ↔ session_failure config callback context sample t = some none)
        ∧ (r.1 = true → ∃ handle, t.create_conn = Outcome.ok handle
            ∧ (feed callback
                (decodeAll sample (accepted (handle % 65536) (live t.recv_reads)))
                context).2.2 = true)
        ∧ (r.1 = false → r.2.2.errno ≠ 0
            ∧ session_failure config callback context sample t = some (some r.2.2.errno)
            ∧ ((r.2.2.errno = ENODEV ∧ config.dev_id = OW_DEV_ID_AUTOMATIC ∧ t.route < 0)
              ∨ (r.2.2.errno = EINVAL
                  ∧ ((config.scan_mode ≠ OW_SCAN_MODE_NONE
                        ∧ config.scan_mode ≠ OW_SCAN_MODE_AUTOMATIC
                        ∧ config.scan_mode ≠ OW_SCAN_MODE_MANUAL)
                    ∨ (config.connect_mode ≠ OW_CONNECT_MODE_AUTOMATIC
                        ∧ config.connect_mode ≠ OW_CONNECT_MODE_MANUAL)))
              ∨ (r.2.2.errno = ENODATA
                  ∧ (Outcome.ok [] ∈ t.recv_reads
                    ∨ ∃ bytes, Outcome.ok bytes ∈ t.scan_reads
                        ∧ ((bytes.take HCI_MAX_EVENT_SIZE).length = 0
                          ∨ (14 ≤ (bytes.take HCI_MAX_EVENT_SIZE).length
                              ∧ byteAt (bytes.take HCI_MAX_EVENT_SIZE) 3 ≠ 0x02))))
              ∨ t.open_dev = Outcome.fail r.2.2.errno
              ∨ t.get_filter = Outcome.fail r.2.2.errno
              ∨ t.scan_set_filter = Outcome.fail r.2.2.errno
              ∨ t.scan_parameters = Outcome.fail r.2.2.errno
              ∨ t.scan_enable = Outcome.fail r.2.2.errno
              ∨ Outcome.fail r.2.2.errno ∈ t.scan_reads
              ∨ t.create_conn = Outcome.fail r.2.2.errno
              ∨ t.recv_set_filter = Outcome.fail r.2.2.errno
              ∨ Outcome.fail r.2.2.errno ∈ t.recv_reads)))
    ∧ (∀ sd sr re di cl : Outcome Unit,
        Option.map returned
            (ow_recv config callback context sample addr
              { t with scan_disable := sd, scan_restore := sr, restore := re,
                       disconnect := di, close_dev := cl } w)
          = Option.map returned (ow_recv config callback context sample addr t w)) := by
  have hv := ow_recv_verdict config callback context sample addr t w hwf
  refine ⟨hv, ?_, ?_⟩
  · intro r hr
    rw [hr] at hv
    cases hs : session_failure config callback context sample t with
    | none => rw [hs] at hv; simp at hv
    | some v =>
      rw [hs] at hv
      simp only [Option.map_some', Option.some.injEq, returned] at hv
      cases v with
      | none =>
        have h1 : r.1 = true := by
          have := congrArg Prod.fst hv
          simpa [reported] using this
        refine ⟨⟨fun _ => rfl, fun _ => h1⟩, fun _ => ?_, fun h0 => ?_⟩
        · exact session_failure_none config callback context sample t hs
        · rw [h1] at h0
          exact absurd h0 (by simp)
      | some e =>
        have h1 : r.1 = false := by
          have := congrArg Prod.fst hv
          simpa [reported] using this
        have h2 : r.2.2.errno = e := by
          have := congrArg Prod.snd hv
          simpa [reported, h1] using this
        refine ⟨⟨fun h => ?_, fun h => ?_⟩, fun h => ?_, fun _ => ?_⟩
        · rw [h1] at h
          exact absurd h (by simp)
        · simp at h
        · rw [h1] at h
          exact absurd h (by simp)
        · have hne : e ≠ 0 :=
            session_failure_ne_zero config callback context sample t e hwf hs
          rw [h2]
          exact ⟨hne, rfl, session_failure_cases config callback context sample t e hs⟩
  · intro sd sr re di cl
    rw [hv]
    exact ow_recv_verdict config callback context sample addr
      { t with scan_disable := sd, scan_restore := sr, restore := re,
               disconnect := di, close_dev := cl } w hwf

/-- Witness of C13. A session whose callback stops at its second sample returns
`true`; the same session with a stream that ends in a read failing with code 5, and
whose disconnect and close fail as well, returns `false` and reports 5. -/
theorem C13_return_and_error_witness :
    (script_ok scan_stream stream7).sets_errno = true
    ∧ Option.map returned
        (ow_recv config_auto (record_until 2) [] sample0 [] (script_ok scan_stream stream7)
          world0) = some (true, 0)
    ∧ Option.map returned
        (ow_recv config_auto (record_until 9) [] sample0 []
          { script_ok scan_stream (stream7 ++ [.fail 5]) with
            disconnect := .fail 16, close_dev := .fail 9 } world0) = some (false, 5) :=
  ⟨by decide,
   (C13_return_and_error config_auto (record_until 2) [] sample0 []
      (script_ok scan_stream stream7) world0 (by decide)).1.trans (by decide),
   (C13_return_and_error config_auto (record_until 9) [] sample0 []
      { script_ok scan_stream (stream7 ++ [.fail 5]) with
        disconnect := .fail 16, close_dev := .fail 9 } world0 (by decide)).1.trans (by decide)⟩

/-- Counterexample to C13 as stated. The adapter exists, the modes are the automatic
ones, every transport call succeeds and no read is empty, yet `ow_recv` returns
`false` and reports `ENODATA`: the scan read an event of 14 bytes whose subevent is
not the advertising report. -/
theorem C13_counterexample :
    Option.map returned
        (ow_recv config_auto (record_until 1) [] sample0 []
          (script_ok [.ok evt_other] stream7) world0) = some (false, ENODATA)
    ∧ ¬ ((script_ok [.ok evt_other] stream7).route < 0)
    ∧ config_auto.scan_mode = OW_SCAN_MODE_AUTOMATIC
    ∧ config_auto.connect_mode = OW_CONNECT_MODE_AUTOMATIC
    ∧ (∀ r ∈ (script_ok [.ok evt_other] stream7).scan_reads
            ++ (script_ok [.ok evt_other] stream7).recv_reads,
        ∃ bytes, r = Outcome.ok bytes ∧ bytes ≠ [])
    ∧ (∃ s, (script_ok [.ok evt_other] stream7).open_dev = Outcome.ok s)
    ∧ (script_ok [.ok evt_other] stream7).get_filter = Outcome.ok ()
    ∧ (script_ok [.ok evt_other] stream7).scan_set_filter = Outcome.ok ()
    ∧ (script_ok [.ok evt_other] stream7).scan_parameters = Outcome.ok ()
    ∧ (script_ok [.ok evt_other] stream7).scan_enable = Outcome.ok ()
    ∧ (script_ok [.ok evt_other] stream7).scan_disable = Outcome.ok ()
    ∧ (script_ok [.ok evt_other] stream7).scan_restore = Outcome.ok ()
    ∧ (script_ok [.ok evt_other] stream7).close_dev = Outcome.ok () := by
  refine ⟨by decide, by decide, rfl, rfl, ?_, ⟨3, rfl⟩, rfl, rfl, rfl, rfl, rfl, rfl, rfl⟩
  intro r hr
  simp only [script_ok, stream7, List.cons_append, List.nil_append, List.mem_cons,
    List.mem_singleton, List.not_mem_nil, or_false] at hr
  rcases hr with h | h | h | h | h | h | h | h <;> exact ⟨_, h, by simp [evt_other, notification]⟩

/-! ## C11: the operations `ow_recv` issues and their teardown -/

theorem ow_recv_loop_log {σ : Type} (callback : ow_sample_t → σ → Bool × σ)
    (bt_sock hci_handle : Nat) (reads : List (Outcome (List Byte))) (sample : ow_sample_t)
    (context : σ) (w : World) (r : Nat × σ × World)
    (h : ow_recv_loop callback bt_sock hci_handle reads sample context w = some r) :
    ∃ k, r.2.2.log = w.log ++ List.replicate k (Op.read bt_sock) := by
  have hs := ow_recv_loop_spec callback bt_sock hci_handle reads sample context w
  rw [h] at hs
  simp only [Option.map_some'] at hs
  by_cases hstop :
      (feed callback (decodeAll sample (accepted hci_handle (live reads))) context).2.2 = true
  · rw [if_pos hstop] at hs
    simp only [Option.some.injEq, Prod.mk.injEq] at hs
    exact ⟨_, hs.2.2⟩
  · rw [if_neg hstop] at hs
    cases hd : reads.drop (live reads).length with
    | nil => rw [hd] at hs; simp at hs
    | cons x rest =>
      rw [hd] at hs
      simp only [Option.some.injEq, Prod.mk.injEq] at hs
      exact ⟨_, hs.2.2⟩

theorem quiet_read (bt_sock : Nat) (k : Nat) :
    ∀ op ∈ List.replicate k (Op.read bt_sock), op.quiet = true := by
  intro op hop
  rw [List.eq_of_mem_replicate hop]
  rfl

theorem close_out_log (t : Script) (bt_sock error : Nat) (w : World) :
    (close_out t bt_sock error w).2.log = w.log ++ [Op.close_dev bt_sock] := by
  unfold close_out
  by_cases he : error = 0
  · simp only [he, if_true, call_log]
  · simp only [he, if_false, call_log]

theorem disc_close_out_log (t : Script) (bt_sock hci_handle error : Nat) (w : World) :
    (disc_close_out t bt_sock hci_handle error w).2.log
      = w.log ++ [Op.disconnect bt_sock hci_handle HCI_OE_USER_ENDED_CONNECTION 10000,
          Op.close_dev bt_sock] := by
  unfold disc_close_out
  simp only [close_out_log, call_log, List.append_assoc, List.cons_append, List.nil_append]

theorem restore_disc_close_out_log (t : Script) (bt_sock hci_handle : Nat) (old : hci_filter)
    (error : Nat) (w : World) :
    (restore_disc_close_out t bt_sock hci_handle old error w).2.log
      = w.log ++ [Op.set_filter bt_sock old,
          Op.disconnect bt_sock hci_handle HCI_OE_USER_ENDED_CONNECTION 10000,
          Op.close_dev bt_sock] := by
  unfold restore_disc_close_out
  simp only [disc_close_out_log, set_filter_log, List.append_assoc, List.cons_append,
    List.nil_append]

/-- The operations of `ow_recv` from the install of the receive filter on. -/
theorem ow_recv_receive_log {σ : Type} (callback : ow_sample_t → σ → Bool × σ) (context : σ)
    (sample : ow_sample_t) (bt_sock hci_handle : Nat) (old : hci_filter) (t : Script)
    (w : World) (r : Bool × σ × World)
    (h : ow_recv_receive callback context sample bt_sock hci_handle old t w = some r) :
    ∃ pre, r.2.2.log
        = w.log ++ pre ++ teardown_from bt_sock old (some hci_handle) t.recv_set_filter.is_ok
      ∧ ∀ op ∈ pre, op.quiet = true := by
  unfold ow_recv_receive at h
  cases hf : t.recv_set_filter with
  | fail e =>
    rw [hf] at h
    simp only [ow_set_hci_filter, Option.some.injEq] at h
    refine ⟨[Op.set_filter bt_sock async_filter], ?_, ?_⟩
    · rw [← h]
      simp only [disc_close_out_log, teardown_from, Outcome.is_ok, List.append_assoc,
        List.cons_append, List.nil_append, Bool.false_eq_true, if_false]
    · intro op hop
      rw [List.mem_singleton.1 hop]
      rfl
  | ok u =>
    rw [hf] at h
    simp only [ow_set_hci_filter] at h
    cases hl : ow_recv_loop callback bt_sock hci_handle t.recv_reads sample context
        { w with filter := async_filter,
                 log := w.log ++ [Op.set_filter bt_sock async_filter] } with
    | none => rw [hl] at h; simp at h
    | some q =>
      obtain ⟨k, hk⟩ := ow_recv_loop_log callback bt_sock hci_handle t.recv_reads sample context
        _ q hl
      obtain ⟨error, c, w2⟩ := q
      rw [hl] at h
      simp only [Option.some.injEq] at h
      refine ⟨Op.set_filter bt_sock async_filter :: List.replicate k (Op.read bt_sock), ?_, ?_⟩
      · rw [← h]
        simp only at hk
        simp only [restore_disc_close_out_log, hk, teardown_from, Outcome.is_ok,
          List.append_assoc, List.cons_append, List.nil_append, if_true]
      · intro op hop
        rcases List.mem_cons.1 hop with h1 | h1
        · rw [h1]; rfl
        · exact quiet_read bt_sock k op h1

theorem quiet_scan_ops (bt_sock : Nat) (params : ow_scan_params) (old : hci_filter) (k : Nat)
    (a b : List Op)
    (ha : ∀ op ∈ a, op ∈ [Op.set_filter bt_sock event_filter, op_scan_parameters bt_sock params,
      op_scan_enable bt_sock params OW_SCAN_ENABLE])
    (hb : ∀ op ∈ b, op ∈ [op_scan_enable bt_sock params OW_SCAN_DISABLE,
      Op.set_filter bt_sock old]) :
    ∀ op ∈ a ++ List.replicate k (Op.read bt_sock) ++ b, op.quiet = true := by
  intro op hop
  simp only [List.mem_append] at hop
  rcases hop with (h | h) | h
  · have := ha op h
    simp only [List.mem_cons, List.mem_singleton, List.not_mem_nil, or_false] at this
    rcases this with h1 | h1 | h1 <;> rw [h1] <;> rfl
  · exact quiet_read bt_sock k op h
  · have := hb op h
    simp only [List.mem_cons, List.mem_singleton, List.not_mem_nil, or_false] at this
    rcases this with h1 | h1 <;> rw [h1] <;> rfl

/-- The operations of the scanner are quiet. -/
theorem ow_scan_for_address_log (bt_sock : Nat) (params : ow_scan_params) (old : hci_filter)
    (addr : List Byte) (t : Script) (w : World) (r : Bool × List Byte × World)
    (h : ow_scan_for_address bt_sock params old addr t w = some r) :
    ∃ ops, r.2.2.log = w.log ++ ops ∧ ∀ op ∈ ops, op.quiet = true := by
  have hs := ow_scan_for_address_spec bt_sock params old addr t w
  rw [h] at hs
  simp only [Option.map_some'] at hs
  cases hf : t.scan_set_filter with
  | fail e =>
    rw [hf] at hs
    simp only [Option.some.injEq, Prod.mk.injEq] at hs
    refine ⟨_, hs.2.2.1, ?_⟩
    have := quiet_scan_ops bt_sock params old 0 [Op.set_filter bt_sock event_filter] []
      (by intro op hop; simp only [List.mem_singleton] at hop; simp [hop]) (by simp)
    simpa using this
  | ok u =>
    rw [hf] at hs
    cases hp : t.scan_parameters with
    | fail e =>
      rw [hp] at hs
      simp only [Option.some.injEq, Prod.mk.injEq] at hs
      refine ⟨_, hs.2.2.1, ?_⟩
      have := quiet_scan_ops bt_sock params old 0
        [Op.set_filter bt_sock event_filter, op_scan_parameters bt_sock params]
        [Op.set_filter bt_sock old]
        (by intro op hop; simp only [List.mem_cons, List.mem_singleton, List.not_mem_nil,
              or_false] at hop; rcases hop with h1 | h1 <;> simp [h1])
        (by intro op hop; simp only [List.mem_singleton] at hop; simp [hop])
      simpa using this
    | ok u2 =>
      rw [hp] at hs
      cases hen : t.scan_enable with
      | fail e =>
        rw [hen] at hs
        simp only [Option.some.injEq, Prod.mk.injEq] at hs
        refine ⟨_, hs.2.2.1, ?_⟩
        have := quiet_scan_ops bt_sock params old 0
          [Op.set_filter bt_sock event_filter, op_scan_parameters bt_sock params,
            op_scan_enable bt_sock params OW_SCAN_ENABLE]
          [Op.set_filter bt_sock old]
          (by intro op hop; exact hop)
          (by intro op hop; simp only [List.mem_singleton] at hop; simp [hop])
        simpa using this
      | ok u3 =>
        rw [hen] at hs
        simp only at hs
        cases hv : scan_verdict params t.scan_reads with
        | none => rw [hv] at hs; simp at hs
        | some p =>
          rw [hv] at hs
          simp only [Option.map_some', Option.some.injEq, Prod.mk.injEq] at hs
          refine ⟨[Op.set_filter bt_sock event_filter, op_scan_parameters bt_sock params,
              op_scan_enable bt_sock params OW_SCAN_ENABLE]
            ++ List.replicate p.2 (Op.read bt_sock)
            ++ [op_scan_enable bt_sock params OW_SCAN_DISABLE, Op.set_filter bt_sock old],
            ?_, ?_⟩
          · rw [hs.2.2.1]
            simp only [List.append_assoc]
          · exact quiet_scan_ops bt_sock params old p.2 _ _ (fun _ hop => hop)
              (fun _ hop => hop)

theorem quiet_any_create_conn (a : List Op) (ha : ∀ op ∈ a, op.quiet = true) :
    a.any Op.is_create_conn = false := by
  rw [List.any_eq_false]
  intro op hop
  have := ha op hop
  cases op <;> simp_all [Op.quiet, Op.is_create_conn, Op.is_open, Op.is_disconnect, Op.is_close]

theorem quiet_any_open (a : List Op) (ha : ∀ op ∈ a, op.quiet = true) :
    a.any Op.is_open = false := by
  rw [List.any_eq_false]
  intro op hop
  have := ha op hop
  cases op <;> simp_all [Op.quiet, Op.is_create_conn, Op.is_open, Op.is_disconnect, Op.is_close]

theorem quiet_countP (a : List Op) (ha : ∀ op ∈ a, op.quiet = true) :
    a.countP Op.is_open = 0 ∧ a.countP Op.is_create_conn = 0
    ∧ a.countP Op.is_disconnect = 0 ∧ a.countP Op.is_close = 0 := by
  simp only [List.countP_eq_zero]
  refine ⟨?_, ?_, ?_, ?_⟩ <;> intro op hop <;> have := ha op hop <;>
    cases op <;> simp_all [Op.quiet, Op.is_create_conn, Op.is_open, Op.is_disconnect, Op.is_close]

theorem conn_ref_quiet_append (t : Script) (a b : List Op) (ha : ∀ op ∈ a, op.quiet = true) :
    conn_ref t (a ++ b) = conn_ref t b := by
  unfold conn_ref
  rw [List.any_append, quiet_any_create_conn a ha, Bool.false_or]

/-- The operations of `ow_recv` from the connect on. -/
theorem ow_recv_connect_log {σ : Type} (config : ow_config_t)
    (callback : ow_sample_t → σ → Bool × σ) (context : σ) (sample : ow_sample_t) (bt_sock : Nat)
    (old : hci_filter) (addr : List Byte) (t : Script) (w : World) (r : Bool × σ × World)
    (h : ow_recv_connect config callback context sample bt_sock old addr t w = some r) :
    ∃ pre, r.2.2.log
        = w.log ++ pre ++ teardown_from bt_sock old (conn_ref t pre)
            ((conn_ref t pre).isSome && t.recv_set_filter.is_ok)
      ∧ pre.countP Op.is_open = 0 ∧ pre.countP Op.is_create_conn ≤ 1
      ∧ pre.countP Op.is_disconnect = 0 ∧ pre.countP Op.is_close = 0 := by
  have hclose : ∀ (error : Nat),
      some ((close_out t bt_sock error w).1, context, (close_out t bt_sock error w).2) = some r →
      ∃ pre, r.2.2.log
          = w.log ++ pre ++ teardown_from bt_sock old (conn_ref t pre)
              ((conn_ref t pre).isSome && t.recv_set_filter.is_ok)
        ∧ pre.countP Op.is_open = 0 ∧ pre.countP Op.is_create_conn ≤ 1
        ∧ pre.countP Op.is_disconnect = 0 ∧ pre.countP Op.is_close = 0 := by
    intro error he
    simp only [Option.some.injEq] at he
    refine ⟨[], ?_, by simp, by simp, by simp, by simp⟩
    rw [← he]
    simp [close_out_log, conn_ref, teardown_from]
  have hparams : ∀ (params : ow_connect_params),
      (match ow_connect bt_sock addr params t.create_conn w with
        | (none, w) =>
          let r := close_out t bt_sock w.errno w
          some (r.1, context, r.2)
        | (some hci_handle, w) =>
          ow_recv_receive callback context sample bt_sock hci_handle old t w) = some r →
      ∃ pre, r.2.2.log
          = w.log ++ pre ++ teardown_from bt_sock old (conn_ref t pre)
              ((conn_ref t pre).isSome && t.recv_set_filter.is_ok)
        ∧ pre.countP Op.is_open = 0 ∧ pre.countP Op.is_create_conn ≤ 1
        ∧ pre.countP Op.is_disconnect = 0 ∧ pre.countP Op.is_close = 0 := by
    intro params hc
    cases hcc : t.create_conn with
    | fail e =>
      rw [hcc] at hc
      simp only [ow_connect, Option.some.injEq] at hc
      refine ⟨[Op.le_create_conn bt_sock params addr], ?_, rfl, ?_, rfl, rfl⟩
      swap
      · rw [List.countP_cons, List.countP_nil]; simp [Op.is_create_conn]
      rw [← hc]
      simp [close_out_log, call_log, conn_ref, hcc, teardown_from, Op.is_create_conn]
    | ok handle =>
      rw [hcc] at hc
      simp only [ow_connect] at hc
      obtain ⟨pre, hlog, hq⟩ := ow_recv_receive_log callback context sample bt_sock
        (handle % 65536) old t _ r hc
      obtain ⟨q1, q2, q3, q4⟩ := quiet_countP pre hq
      have hcr : conn_ref t (Op.le_create_conn bt_sock params addr :: pre)
          = some (handle % 65536) := by
        simp [conn_ref, hcc, Op.is_create_conn]
      refine ⟨Op.le_create_conn bt_sock params addr :: pre, ?_, ?_, ?_, ?_, ?_⟩
      · rw [hlog, hcr]
        simp only [call_log, List.append_assoc, List.cons_append, List.nil_append,
          Option.isSome_some, Bool.true_and]
      · rw [List.countP_cons, q1]; rfl
      · rw [List.countP_cons, q2]; simp [Op.is_create_conn]
      · rw [List.countP_cons, q3]; rfl
      · rw [List.countP_cons, q4]; rfl
  unfold ow_recv_connect at h
  by_cases h1 : config.connect_mode = OW_CONNECT_MODE_AUTOMATIC
  · rw [if_pos h1] at h
    exact hparams _ h
  · rw [if_neg h1] at h
    by_cases h2 : config.connect_mode = OW_CONNECT_MODE_MANUAL
    · rw [if_pos h2] at h
      exact hparams _ h
    · rw [if_neg h2] at h
      exact hclose _ h

/-- The operations of `ow_recv` from the scan on. -/
theorem ow_recv_scan_log {σ : Type} (config : ow_config_t)
    (callback : ow_sample_t → σ → Bool × σ) (context : σ) (sample : ow_sample_t) (bt_sock : Nat)
    (old : hci_filter) (addr : List Byte) (t : Script) (w : World) (r : Bool × σ × World)
    (h : ow_recv_scan config callback context sample bt_sock old addr t w = some r) :
    ∃ pre, r.2.2.log
        = w.log ++ pre ++ teardown_from bt_sock old (conn_ref t pre)
            ((conn_ref t pre).isSome && t.recv_set_filter.is_ok)
      ∧ pre.countP Op.is_open = 0 ∧ pre.countP Op.is_create_conn ≤ 1
      ∧ pre.countP Op.is_disconnect = 0 ∧ pre.countP Op.is_close = 0 := by
  have hclose : ∀ (error : Nat) (w1 : World) (ops : List Op), w1.log = w.log ++ ops →
      (∀ op ∈ ops, op.quiet = true) →
      some ((close_out t bt_sock error w1).1, context, (close_out t bt_sock error w1).2)
        = some r →
      ∃ pre, r.2.2.log
          = w.log ++ pre ++ teardown_from bt_sock old (conn_ref t pre)
              ((conn_ref t pre).isSome && t.recv_set_filter.is_ok)
        ∧ pre.countP Op.is_open = 0 ∧ pre.countP Op.is_create_conn ≤ 1
        ∧ pre.countP Op.is_disconnect = 0 ∧ pre.countP Op.is_close = 0 := by
    intro error w1 ops hw1 hq he
    simp only [Option.some.injEq] at he
    obtain ⟨q1, q2, q3, q4⟩ := quiet_countP ops hq
    have hcr : conn_ref t ops = none := by
      simp [conn_ref, quiet_any_create_conn ops hq]
    refine ⟨ops, ?_, q1, by omega, q3, q4⟩
    rw [← he, hcr]
    simp [close_out_log, hw1, teardown_from]
  have hscan : ∀ (params : ow_scan_params),
      (match ow_scan_for_address bt_sock params old addr t w with
        | none => none
        | some (false, _, w) =>
          let r := close_out t bt_sock w.errno w
          some (r.1, context, r.2)
        | some (true, addr, w) =>
          ow_recv_connect config callback context sample bt_sock old addr t w) = some r →
      ∃ pre, r.2.2.log
          = w.log ++ pre ++ teardown_from bt_sock old (conn_ref t pre)
              ((conn_ref t pre).isSome && t.recv_set_filter.is_ok)
        ∧ pre.countP Op.is_open = 0 ∧ pre.countP Op.is_create_conn ≤ 1
        ∧ pre.countP Op.is_disconnect = 0 ∧ pre.countP Op.is_close = 0 := by
    intro params hm
    cases hres : ow_scan_for_address bt_sock params old addr t w with
    | none => rw [hres] at hm; simp at hm
    | some q =>
      obtain ⟨ops, hops, hq⟩ := ow_scan_for_address_log bt_sock params old addr t w q hres
      obtain ⟨b, a, w1⟩ := q
      rw [hres] at hm
      cases b with
      | false => exact hclose _ w1 ops hops hq hm
      | true =>
        simp only at hm hops
        obtain ⟨pre, hlog, p1, p2, p3, p4⟩ := ow_recv_connect_log config callback context sample
          bt_sock old a t w1 r hm
        obtain ⟨q1, q2, q3, q4⟩ := quiet_countP ops hq
        refine ⟨ops ++ pre, ?_, ?_, ?_, ?_, ?_⟩
        · rw [hlog, hops, conn_ref_quiet_append t ops pre hq]
          simp only [List.append_assoc]
        · rw [List.countP_append, q1, p1]
        · rw [List.countP_append, q2]; omega
        · rw [List.countP_append, q3, p3]
        · rw [List.countP_append, q4, p4]
  unfold ow_recv_scan at h
  by_cases h0 : config.scan_mode = OW_SCAN_MODE_NONE
  · rw [if_pos h0] at h
    exact ow_recv_connect_log config callback context sample bt_sock old _ t w r h
  · rw [if_neg h0] at h
    by_cases h1 : config.scan_mode = OW_SCAN_MODE_AUTOMATIC
    · rw [if_pos h1] at h
      exact hscan _ h
    · rw [if_neg h1] at h
      by_cases h2 : config.scan_mode = OW_SCAN_MODE_MANUAL
      · rw [if_pos h2] at h
        exact hscan _ h
      · rw [if_neg h2] at h
        exact hclose EINVAL w [] (by simp) (by simp) h

theorem filter_of_countP_zero (p : Op → Bool) (a : List Op) (h : a.countP p = 0) :
    a.filter p = [] := by
  rw [List.countP_eq_length_filter] at h
  exact List.length_eq_zero.1 h

theorem teardown_from_close (bt_sock : Nat) (old : hci_filter) (conn : Option Nat)
    (installed : Bool) :
    (teardown_from bt_sock old conn installed).filter Op.is_close = [Op.close_dev bt_sock]
    ∧ (teardown_from bt_sock old conn installed).filter Op.is_disconnect
        = (match conn with
            | some hci_handle =>
              [Op.disconnect bt_sock hci_handle HCI_OE_USER_ENDED_CONNECTION 10000]
            | none => [])
    ∧ (teardown_from bt_sock old conn installed).getLast? = some (Op.close_dev bt_sock) := by
  cases installed <;> cases conn <;>
    simp [teardown_from, List.filter, Op.is_close, Op.is_disconnect]

/-- The operations of `ow_recv`: a body without disconnect or close, then the teardown. -/
theorem ow_recv_log {σ : Type} (config : ow_config_t)
    (callback : ow_sample_t → σ → Bool × σ) (context : σ) (sample : ow_sample_t)
    (addr : List Byte) (t : Script) (w : World) (r : Bool × σ × World)
    (h : ow_recv config callback context sample addr t w = some r) :
    ∃ body, r.2.2.log = w.log ++ body ++ teardown_ref t w.filter body
      ∧ body.countP Op.is_open ≤ 1 ∧ body.countP Op.is_create_conn ≤ 1
      ∧ body.countP Op.is_disconnect = 0 ∧ body.countP Op.is_close = 0
      ∧ ((conn_ref t body).isSome = true → (sock_ref t body).isSome = true) := by
  have hfrom : ∀ (pre0 : List Op) (dev_id : Int) (w0 : World), w0.log = w.log ++ pre0 →
      w0.filter = w.filter → (∀ op ∈ pre0, op = Op.get_route) →
      (match ow_open_socket dev_id t.open_dev w0 with
        | (none, w) => some (false, context, w)
        | (some bt_sock, w) =>
          match ow_get_hci_filter bt_sock t.get_filter w with
          | (none, w) =>
            let r := close_out t bt_sock w.errno w
            some (r.1, context, r.2)
          | (some old_hci_filter, w) =>
            ow_recv_scan config callback context sample bt_sock old_hci_filter addr t w)
        = some r →
      ∃ body, r.2.2.log = w.log ++ body ++ teardown_ref t w.filter body
        ∧ body.countP Op.is_open ≤ 1 ∧ body.countP Op.is_create_conn ≤ 1
        ∧ body.countP Op.is_disconnect = 0 ∧ body.countP Op.is_close = 0
        ∧ ((conn_ref t body).isSome = true → (sock_ref t body).isSome = true) := by
    intro pre0 dev_id w0 hlog0 hfilter0 hpre0 hm
    have c0 : pre0.countP Op.is_open = 0 ∧ pre0.countP Op.is_create_conn = 0
        ∧ pre0.countP Op.is_disconnect = 0 ∧ pre0.countP Op.is_close = 0 := by
      simp only [List.countP_eq_zero]
      refine ⟨?_, ?_, ?_, ?_⟩ <;> intro op hop <;> rw [hpre0 op hop] <;> simp [Op.is_open,
        Op.is_create_conn, Op.is_disconnect, Op.is_close]
    have a0 : pre0.any Op.is_create_conn = false := by
      rw [List.any_eq_false]
      intro op hop
      rw [hpre0 op hop]
      simp [Op.is_create_conn]
    obtain ⟨c1, c2, c3, c4⟩ := c0
    cases ho : t.open_dev with
    | fail e =>
      rw [ho] at hm
      simp only [ow_open_socket, Option.some.injEq] at hm
      refine ⟨pre0 ++ [Op.open_dev dev_id], ?_, ?_, ?_, ?_, ?_, ?_⟩
      · rw [← hm]
        simp [call_log, hlog0, teardown_ref, sock_ref, ho]
      · rw [List.countP_append, c1]; simp [Op.is_open]
      · rw [List.countP_append, c2]; simp [Op.is_create_conn]
      · rw [List.countP_append, c3]; simp [Op.is_disconnect]
      · rw [List.countP_append, c4]; simp [Op.is_close]
      · simp [conn_ref, a0, Op.is_create_conn]
    | ok bt_sock =>
      rw [ho] at hm
      simp only [ow_open_socket] at hm
      cases hg : t.get_filter with
      | fail e =>
        rw [hg] at hm
        simp only [ow_get_hci_filter, Option.some.injEq] at hm
        refine ⟨pre0 ++ [Op.open_dev dev_id, Op.get_filter bt_sock], ?_, ?_, ?_, ?_, ?_, ?_⟩
        · rw [← hm]
          simp [close_out_log, call_log, hlog0, teardown_ref, sock_ref, ho, conn_ref, a0,
            Op.is_open, Op.is_create_conn, teardown_from]
        · rw [List.countP_append, c1]; simp [Op.is_open]
        · rw [List.countP_append, c2]; simp [Op.is_create_conn]
        · rw [List.countP_append, c3]; simp [Op.is_disconnect]
        · rw [List.countP_append, c4]; simp [Op.is_close]
        · simp [conn_ref, a0, Op.is_create_conn]
      | ok u =>
        rw [hg] at hm
        simp only [ow_get_hci_filter] at hm
        obtain ⟨pre, hlog, p1, p2, p3, p4⟩ := ow_recv_scan_log config callback context sample
          bt_sock _ addr t _ r hm
        have hcr : conn_ref t (pre0 ++ [Op.open_dev dev_id, Op.get_filter bt_sock] ++ pre)
            = conn_ref t pre := by
          simp [conn_ref, a0, Op.is_create_conn]
        have hsr : sock_ref t (pre0 ++ [Op.open_dev dev_id, Op.get_filter bt_sock] ++ pre)
            = some bt_sock := by
          simp [sock_ref, ho, Op.is_open]
        refine ⟨pre0 ++ [Op.open_dev dev_id, Op.get_filter bt_sock] ++ pre, ?_, ?_, ?_, ?_, ?_,
          ?_⟩
        · rw [hlog]
          unfold teardown_ref
          rw [hsr, hcr]
          simp only [call_filter, call_log, hlog0, hfilter0, List.append_assoc,
            List.cons_append, List.nil_append]
        · rw [List.countP_append, List.countP_append, c1, p1]; simp [Op.is_open]
        · rw [List.countP_append, List.countP_append, c2]
          simp only [List.countP_cons, List.countP_nil, Op.is_create_conn]
          simpa using p2
        · rw [List.countP_append, List.countP_append, c3, p3]; simp [Op.is_disconnect]
        · rw [List.countP_append, List.countP_append, c4, p4]; simp [Op.is_close]
        · intro _
          rw [hsr]
          rfl
  unfold ow_recv at h
  by_cases hauto : config.dev_id = OW_DEV_ID_AUTOMATIC
  · rw [if_pos hauto] at h
    unfold ow_get_default_device_id at h
    by_cases hr : t.route < 0
    · rw [if_pos hr] at h
      simp only [Option.some.injEq] at h
      refine ⟨[Op.get_route], ?_, ?_, ?_, ?_, ?_, ?_⟩
      · rw [← h]
        simp [teardown_ref, sock_ref, Op.is_open]
      · simp [Op.is_open]
      · simp [Op.is_create_conn]
      · simp [Op.is_disconnect]
      · simp [Op.is_close]
      · simp [conn_ref, Op.is_create_conn]
    · rw [if_neg hr] at h
      exact hfrom [Op.get_route] t.route { w with log := w.log ++ [Op.get_route] } rfl rfl
        (by simp) h
  · rw [if_neg hauto] at h
    exact hfrom [] config.dev_id w (by simp) rfl (by simp) h

/-- C11. Resource release in `ow_recv`, for every script of outcomes of the transport
operations and every result. The operations issued are a body without disconnect or
close, with at most one open and at most one connect, followed by the teardown
`teardown_ref`: nothing when no socket was opened, otherwise the restore of the saved
filter (when the receive filter was installed), then the disconnect with the handle
connect returned (when connect succeeded), then the close of the socket open returned.
So the close is issued exactly once when the open succeeded and never otherwise, the
disconnect exactly once when the connect succeeded and never otherwise, and the close
is the last operation. -/
theorem C11_release {σ : Type} (config : ow_config_t)
    (callback : ow_sample_t → σ → Bool × σ) (context : σ) (sample : ow_sample_t)
    (addr : List Byte) (t : Script) (w : World) (r : Bool × σ × World)
    (h : ow_recv config callback context sample addr t w = some r) :
    ∃ body, r.2.2.log = w.log ++ body ++ teardown_ref t w.filter body
      ∧ body.countP Op.is_open ≤ 1 ∧ body.countP Op.is_create_conn ≤ 1
      ∧ body.countP Op.is_disconnect = 0 ∧ body.countP Op.is_close = 0
      ∧ ((conn_ref t body).isSome = true → (sock_ref t body).isSome = true)
      ∧ (body ++ teardown_ref t w.filter body).filter Op.is_close
          = (match sock_ref t body with
              | some bt_sock => [Op.close_dev bt_sock]
              | none => [])
      ∧ (body ++ teardown_ref t w.filter body).filter Op.is_disconnect
          = (match sock_ref t body, conn_ref t body with
              | some bt_sock, some hci_handle =>
                [Op.disconnect bt_sock hci_handle HCI_OE_USER_ENDED_CONNECTION 10000]
              | _, _ => [])
      ∧ (∀ bt_sock, sock_ref t body = some bt_sock →
          (body ++ teardown_ref t w.filter body).getLast? = some (Op.close_dev bt_sock)) := by
  obtain ⟨body, hlog, c1, c2, c3, c4, hcs⟩ :=
    ow_recv_log config callback context sample addr t w r h
  refine ⟨body, hlog, c1, c2, c3, c4, hcs, ?_, ?_, ?_⟩
  · rw [List.filter_append, filter_of_countP_zero _ body c4, List.nil_append]
    unfold teardown_ref
    cases hs : sock_ref t body with
    | none => rfl
    | some bt_sock => exact (teardown_from_close bt_sock w.filter _ _).1
  · rw [List.filter_append, filter_of_countP_zero _ body c3, List.nil_append]
    unfold teardown_ref
    cases hs : sock_ref t body with
    | none => rfl
    | some bt_sock =>
      simp only
      rw [(teardown_from_close bt_sock w.filter _ _).2.1]
      cases conn_ref t body <;> rfl
  · intro bt_sock hs
    unfold teardown_ref
    rw [hs]
    simp only
    have h3 := (teardown_from_close bt_sock w.filter (conn_ref t body)
      ((conn_ref t body).isSome && t.recv_set_filter.is_ok)).2.2
    rw [List.getLast?_append, h3]
    rfl

/-- Witness of C11. A session that scans, connects and receives until its callback
stops at the second sample: the trace ends with restore, disconnect, close. With a
failing connect the teardown is the close alone. -/
theorem C11_release_witness :
    (∃ r, ow_recv config_auto (record_until 2) [] sample0 [] (script_ok scan_stream stream7)
        world0 = some r
      ∧ r.2.2.log
          = [Op.get_route, Op.open_dev 0, Op.get_filter 3,
             Op.set_filter 3 event_filter, op_scan_parameters 3 automatic_scan_params,
             op_scan_enable 3 automatic_scan_params OW_SCAN_ENABLE,
             Op.read 3, Op.read 3, Op.read 3, Op.read 3,
             op_scan_enable 3 automatic_scan_params OW_SCAN_DISABLE,
             Op.set_filter 3 world0.filter,
             Op.le_create_conn 3 automatic_connect_params [0x11, 0x22, 0x33, 0x44, 0x55, 0x66],
             Op.set_filter 3 async_filter, Op.read 3, Op.read 3, Op.read 3,
             Op.set_filter 3 world0.filter,
             Op.disconnect 3 0x40 HCI_OE_USER_ENDED_CONNECTION 10000, Op.close_dev 3]
      ∧ ∃ body, r.2.2.log
          = world0.log ++ body
            ++ teardown_ref (script_ok scan_stream stream7) world0.filter body
        ∧ body.countP Op.is_disconnect = 0 ∧ body.countP Op.is_close = 0)
    ∧ (∃ r, ow_recv config_auto (record_until 2) [] sample0 []
          { script_ok scan_stream stream7 with create_conn := .fail 5 } world0 = some r
        ∧ (r.2.2.log.drop 12)
          = [Op.le_create_conn 3 automatic_connect_params [0x11, 0x22, 0x33, 0x44, 0x55, 0x66],
             Op.close_dev 3]
        ∧ ∃ body, r.2.2.log
            = world0.log ++ body
              ++ teardown_ref { script_ok scan_stream stream7 with create_conn := .fail 5 }
                  world0.filter body) := by
  refine ⟨⟨_, rfl, by decide, ?_⟩, ⟨_, rfl, by decide, ?_⟩⟩
  · obtain ⟨body, h1, _, _, h2, h3, _⟩ :=
      C11_release config_auto (record_until 2) [] sample0 [] (script_ok scan_stream stream7)
        world0 _ rfl
    exact ⟨body, h1, h2, h3⟩
  · obtain ⟨body, h1, _⟩ :=
      C11_release config_auto (record_until 2) [] sample0 []
        { script_ok scan_stream stream7 with create_conn := .fail 5 } world0 _ rfl
    exact ⟨body, h1⟩

/-! ## C20: what a decoded sample owes to the frames before it -/

/-- The sample the callback is given for the last of a run of accepted frames is the
decode of that frame over what the frames before it left in the `sample` variable. -/
theorem decodeAll_getLast (buf : List Byte) :
    ∀ (before : List (List Byte)) (s : ow_sample_t),
      (decodeAll s (before ++ [buf])).getLast? = some (decode (sample_after s before) buf) := by
  intro before
  induction before with
  | nil => intro s; rfl
  | cons b rest ih =>
    intro s
    have hne : decodeAll (decode s b) (rest ++ [buf]) ≠ [] := by
      intro h
      have := congrArg List.length h
      rw [decodeAll_length] at this
      simp at this
    rw [List.cons_append, decodeAll]
    cases hd : decodeAll (decode s b) (rest ++ [buf]) with
    | nil => exact absurd hd hne
    | cons x xs =>
      rw [List.getLast?_cons_cons, ← hd, ih]
      rfl

/-- C20. Weak freshness of the decoded samples. For every accepted frame, any two
runs of frames decoded before it and any two initial contents of the `sample`
variable, the two samples handed to the callback for the frame agree on unit, value
and the four status flags; on `current_type` when the unit is Millivolt, Volt,
Microampere, Milliampere or Ampere; on `is_diode_test` when the unit is Volt; on
`is_continuity_test` when the unit is Ohm. -/
theorem C20_weak_freshness (hci_handle : Nat) (buf : List Byte) (s s' : ow_sample_t)
    (before before' : List (List Byte)) (hacc : validate hci_handle buf = true) :
    (decodeAll s (before ++ [buf])).getLast? = some (decode (sample_after s before) buf)
    ∧ (decodeAll s' (before' ++ [buf])).getLast? = some (decode (sample_after s' before') buf)
    ∧ (decode (sample_after s before) buf).unit = (decode (sample_after s' before') buf).unit
    ∧ (decode (sample_after s before) buf).value = (decode (sample_after s' before') buf).value
    ∧ (decode (sample_after s before) buf).is_data_hold
        = (decode (sample_after s' before') buf).is_data_hold
    ∧ (decode (sample_after s before) buf).is_relative
        = (decode (sample_after s' before') buf).is_relative
    ∧ (decode (sample_after s before) buf).is_auto_range
        = (decode (sample_after s' before') buf).is_auto_range
    ∧ (decode (sample_after s before) buf).is_low_battery
        = (decode (sample_after s' before') buf).is_low_battery
    ∧ ((decode (sample_after s before) buf).unit ∈ [OW_UNIT_MILLIVOLT, OW_UNIT_VOLT,
          OW_UNIT_MICROAMPERE, OW_UNIT_MILLIAMPERE, OW_UNIT_AMPERE] →
        (decode (sample_after s before) buf).current_type
          = (decode (sample_after s' before') buf).current_type)
    ∧ ((decode (sample_after s before) buf).unit = OW_UNIT_VOLT →
        (decode (sample_after s before) buf).is_diode_test
          = (decode (sample_after s' before') buf).is_diode_test)
    ∧ ((decode (sample_after s before) buf).unit = OW_UNIT_OHM →
        (decode (sample_after s before) buf).is_continuity_test
          = (decode (sample_after s' before') buf).is_continuity_test) := by
  have _ := hacc
  have h := decodeUnit_fresh (sample_after s before) (sample_after s' before') (u16At buf 12)
  exact ⟨decodeAll_getLast buf before s, decodeAll_getLast buf before' s',
    decodeUnit_unit_congr _ _ _ _ rfl, rfl, rfl, rfl, rfl, rfl, h.1, h.2.1, h.2.2.1⟩

/-- Witness of C20. An accepted Volt frame decoded first, and decoded after a
Millivolt AC frame and a diode-test frame: the same current type and the same
`is_diode_test`. -/
theorem C20_weak_freshness_witness :
    validate 0x40 (notification 0x2040 0xF020 0 0 0x0708) = true
    ∧ (decode (sample_after sample0 []) (notification 0x2040 0xF020 0 0 0x0708)).unit
        = OW_UNIT_VOLT
    ∧ (decode (sample_after sample0 []) (notification 0x2040 0xF020 0 0 0x0708)).current_type
        = (decode (sample_after sample0
              [notification 0x2040 0xF058 0 0 0x0001, notification 0x2040 0xF2A0 0 0 0x0001])
            (notification 0x2040 0xF020 0 0 0x0708)).current_type
    ∧ (decode (sample_after sample0 []) (notification 0x2040 0xF020 0 0 0x0708)).is_diode_test
        = (decode (sample_after sample0
              [notification 0x2040 0xF058 0 0 0x0001, notification 0x2040 0xF2A0 0 0 0x0001])
            (notification 0x2040 0xF020 0 0 0x0708)).is_diode_test :=
  ⟨by decide, by decide,
   (C20_weak_freshness 0x40 (notification 0x2040 0xF020 0 0 0x0708) sample0 sample0 []
      [notification 0x2040 0xF058 0 0 0x0001, notification 0x2040 0xF2A0 0 0 0x0001]
      (by decide)).2.2.2.2.2.2.2.2.1 (by decide),
   (C20_weak_freshness 0x40 (notification 0x2040 0xF020 0 0 0x0708) sample0 sample0 []
      [notification 0x2040 0xF058 0 0 0x0001, notification 0x2040 0xF2A0 0 0 0x0001]
      (by decide)).2.2.2.2.2.2.2.2.2.1 (by decide)⟩

/-! ## C21: the bits of a frame the decoder does not read -/

/-- The value does not depend on bit 14 of the value word. -/
theorem decodeValue_bit14 (w v v' : Nat)
    (h : ∀ j, j ≠ 14 → v.testBit j = v'.testBit j) : decodeValue w v = decodeValue w v' := by
  have hs : decodeSign v = decodeSign v' := by
    rw [decodeSign_eq, decodeSign_eq, h 15 (by decide)]
  have hm : v &&& 0x3FFF = v' &&& 0x3FFF := by
    apply Nat.eq_of_testBit_eq
    intro j
    have e : (0x3FFF : Nat) = 2 ^ 14 - 1 := by norm_num
    rw [Nat.testBit_and, Nat.testBit_and, e, Nat.testBit_two_pow_sub_one]
    by_cases hj : j < 14
    · rw [h j (by omega)]
    · simp [hj]
  unfold decodeValue
  rw [hs, hm]

/-- The four status flags read the low four bits of the status byte. -/
theorem flags_low_nibble (b b' : Nat) (h : b % 16 = b' % 16) (k : Nat) (hk : k < 4) :
    ((b &&& (1 <<< k)) != 0) = ((b' &&& (1 <<< k)) != 0) := by
  have e : ∀ x : Nat, ((x &&& (1 <<< k)) != 0) = x.testBit k := by
    intro x
    have h2 := land_two_pow_ne_zero x k
    rw [Nat.one_shiftLeft]
    by_cases hx : x.testBit k = true
    · rw [hx]
      simpa using h2.mpr hx
    · have hx' : x.testBit k = false := by simpa using hx
      rw [hx']
      have : ¬ (x &&& 2 ^ k ≠ 0) := fun hc => hx (h2.mp hc)
      simpa using this
  have t : ∀ x : Nat, x.testBit k = (x % 16).testBit k := by
    intro x
    have e16 : (16 : Nat) = 2 ^ 4 := by norm_num
    rw [e16, Nat.testBit_mod_two_pow]
    simp [hk]
  rw [e, e, t b, t b', h]

/-- The decode of a frame reads the unit word, the low four bits of the status byte
and the value word without its bit 14. -/
theorem decode_congr (s : ow_sample_t) (buf buf' : List Byte)
    (hu : u16At buf 12 = u16At buf' 12) (hf : byteAt buf 14 % 16 = byteAt buf' 14 % 16)
    (hv : ∀ j, j ≠ 14 → (u16At buf 16).testBit j = (u16At buf' 16).testBit j) :
    decode s buf = decode s buf' := by
  unfold decode
  simp only
  rw [hu, decodeValue_bit14 (u16At buf' 12) (u16At buf 16) (u16At buf' 16) hv,
    flags_low_nibble _ _ hf 0 (by decide), flags_low_nibble _ _ hf 1 (by decide),
    flags_low_nibble _ _ hf 2 (by decide), flags_low_nibble _ _ hf 3 (by decide)]

/-- C21. Two accepted frames that agree on the unit word (bytes 12-13), on the low
four bits of the status byte (byte 14) and on the value word (bytes 16-17) except for
its bit 14 decode, from the same prior content of the `sample` variable, to samples
equal in every field. Bytes 0-11 (the validator's, with the top four bits of the
handle word masked out) and byte 15 are not read by the decoder, so the frames may
differ there, in the high four bits of the status byte and in bit 14 of the value
word. -/
theorem C21_ignored_bits (hci_handle : Nat) (buf buf' : List Byte) (s : ow_sample_t)
    (hacc : validate hci_handle buf = true) (hacc' : validate hci_handle buf' = true)
    (hunit : byteAt buf 12 = byteAt buf' 12 ∧ byteAt buf 13 = byteAt buf' 13)
    (hstatus : byteAt buf 14 % 16 = byteAt buf' 14 % 16)
    (hvalue : ∀ j, j ≠ 14 → (u16At buf 16).testBit j = (u16At buf' 16).testBit j) :
    decode s buf = decode s buf' := by
  have _ := hacc
  have _ := hacc'
  have hu : u16At buf 12 = u16At buf' 12 := by
    unfold u16At
    rw [hunit.1, hunit.2]
  exact decode_congr s buf buf' hu hstatus hvalue

/-- Witness of C21. Two frames accepted for the handle `0x40` that differ in the top
four bits of the handle word, in the high four bits of the status byte, in byte 15
and in bit 14 of the value word: the same sample. -/
theorem C21_ignored_bits_witness :
    validate 0x40 (notification 0x2040 0xF021 0x05 0x00 0x8708) = true
    ∧ validate 0x40 (notification 0x7040 0xF021 0xA5 0xEE 0xC708) = true
    ∧ notification 0x2040 0xF021 0x05 0x00 0x8708 ≠ notification 0x7040 0xF021 0xA5 0xEE 0xC708
    ∧ decode sample0 (notification 0x2040 0xF021 0x05 0x00 0x8708)
        = decode sample0 (notification 0x7040 0xF021 0xA5 0xEE 0xC708) :=
  ⟨by decide, by decide, by decide,
   C21_ignored_bits 0x40 (notification 0x2040 0xF021 0x05 0x00 0x8708)
     (notification 0x7040 0xF021 0xA5 0xEE 0xC708) sample0 (by decide) (by decide)
     ⟨by decide, by decide⟩ (by decide)
     (by
      intro j hj
      have e1 : u16At (notification 0x2040 0xF021 0x05 0x00 0x8708) 16 = 0x8708 := by decide
      have e2 : u16At (notification 0x7040 0xF021 0xA5 0xEE 0xC708) 16 = 0x8708 + 2 ^ 14 := by
        decide
      rw [e1, e2]
      have e3 : (0x8708 + 2 ^ 14 : Nat) = 0x8708 ^^^ 2 ^ 14 := by decide
      rw [e3, Nat.testBit_xor, Nat.testBit_two_pow]
      simp [Ne.symm hj])⟩

/-! ## C22: the range of the decoded values -/

/-- The decimal value `± m / 10^k` has at most three decimal places. -/
theorem decimal_value_milli (k m : Nat) (neg : Bool) (hk : k < 4) :
    ∃ z : ℤ, 1000 * ((if neg = true then (-1 : ℚ) else 1) * (1 / 10 ^ k) * (m : ℚ)) = z := by
  have hint : ∃ z : ℤ, 1000 * ((1 : ℚ) / 10 ^ k * (m : ℚ)) = z := by
    interval_cases k
    · exact ⟨1000 * m, by push_cast; ring⟩
    · exact ⟨100 * m, by push_cast; ring⟩
    · exact ⟨10 * m, by push_cast; ring⟩
    · exact ⟨m, by push_cast; ring⟩
  obtain ⟨z, hz⟩ := hint
  cases neg with
  | false => exact ⟨z, by rw [← hz]; simp⟩
  | true => exact ⟨-z, by push_cast; rw [← hz]; simp only [if_true]; ring⟩

/-- C22 (amended). For every accepted frame, with `w` the unit word and `v` the value
word: when the overflow bit (bit 2 of `w`) is clear the decoded value is a finite
`double` `x` whose sign bit is bit 15 of `v`, with `|x| ≤ 16383`, `x = 0` iff the
14-bit magnitude is 0, and `x < 0` iff the sign bit is set and the magnitude is not 0;
`x` is an integer when the scale bits are 00, and in general lies within the relative
distance `2^-52 + 2^-106` of the decimal value `y = ± m / 10^k`, for which `1000 * y`
is an integer; the value is the not-a-number sentinel iff the overflow bit is set. -/
theorem C22_value_range (hci_handle : Nat) (buf : List Byte) (s : ow_sample_t)
    (hacc : validate hci_handle buf = true) :
    ((u16At buf 12).testBit 2 = false →
      ∃ d : binary64, (decode s buf).value = some d
        ∧ d.negative = (u16At buf 16).testBit 15
        ∧ |d.toRat| ≤ 16383
        ∧ (d.toRat = 0 ↔ u16At buf 16 &&& 0x3FFF = 0)
        ∧ (d.toRat < 0 ↔ (u16At buf 16).testBit 15 = true ∧ u16At buf 16 &&& 0x3FFF ≠ 0)
        ∧ (u16At buf 12 % 4 = 0 → ∃ z : ℤ, d.toRat = z)
        ∧ ∃ y : ℚ, y = (if (u16At buf 16).testBit 15 then -1 else 1)
              * (1 / 10 ^ (u16At buf 12 % 4)) * ((u16At buf 16 &&& 0x3FFF : Nat) : ℚ)
            ∧ (∃ z : ℤ, 1000 * y = z)
            ∧ |d.toRat - y| ≤ |y| * (1 / 2 ^ 52 + 1 / 2 ^ 106))
    ∧ ((decode s buf).value = none ↔ (u16At buf 12).testBit 2 = true) := by
  have _ := hacc
  constructor
  · intro h
    have hm : u16At buf 16 &&& 0x3FFF < 16384 := by
      rw [land_3FFF]
      exact Nat.mod_lt _ (by norm_num)
    have hk : u16At buf 12 % 4 < 4 := Nat.mod_lt _ (by norm_num)
    obtain ⟨f1, f2, f3, f4, f5⟩ :=
      binary64_value_facts (u16At buf 12 % 4) (u16At buf 16 &&& 0x3FFF) hk hm
    have hd : (0 : ℚ) ≤ 1 / 10 ^ (u16At buf 12 % 4) * ((u16At buf 16 &&& 0x3FFF : Nat) : ℚ) := by
      positivity
    refine ⟨_, (decode_value s buf).trans (decodeValue_no_overflow _ _ h), rfl, ?_, ?_, ?_, ?_,
      _, rfl, decimal_value_milli _ _ _ hk, ?_⟩
    · unfold binary64.toRat
      simp only
      by_cases hb : (u16At buf 16).testBit 15 = true
      · rw [if_pos hb, abs_neg, abs_of_nonneg f2]
        exact f3
      · rw [if_neg hb, abs_of_nonneg f2]
        exact f3
    · unfold binary64.toRat
      simp only
      by_cases hb : (u16At buf 16).testBit 15 = true
      · rw [if_pos hb, neg_eq_zero]
        exact f4
      · rw [if_neg hb]
        exact f4
    · unfold binary64.toRat
      simp only
      by_cases hb : (u16At buf 16).testBit 15 = true
      · rw [if_pos hb, neg_lt_zero]
        constructor
        · intro hx
          exact ⟨hb, fun h0 => absurd (f4.mpr h0) (ne_of_gt hx)⟩
        · intro hx
          exact lt_of_le_of_ne f2 (fun hc => hx.2 (f4.mp hc.symm))
      · rw [if_neg hb]
        constructor
        · intro hx
          exact absurd hx (not_lt.mpr f2)
        · intro hx
          exact absurd hx.1 hb
    · intro h0
      unfold binary64.toRat
      simp only
      rw [f5 h0]
      by_cases hb : (u16At buf 16).testBit 15 = true
      · rw [if_pos hb]
        exact ⟨-((u16At buf 16 &&& 0x3FFF : Nat) : ℤ), by push_cast; rfl⟩
      · rw [if_neg hb]
        exact ⟨((u16At buf 16 &&& 0x3FFF : Nat) : ℤ), by push_cast; rfl⟩
    · unfold binary64.toRat
      simp only
      by_cases hb : (u16At buf 16).testBit 15 = true
      · rw [if_pos hb, if_pos hb]
        have e : ∀ x y : ℚ, -x - -1 * y = -(x - y) := by intro x y; ring
        have e2 : ∀ y : ℚ, |(-1 : ℚ) * y| = |y| := by intro y; rw [neg_one_mul, abs_neg]
        rw [mul_assoc, e, abs_neg, e2, abs_of_nonneg hd]
        exact f1
      · rw [if_neg hb, if_neg hb, one_mul, abs_of_nonneg hd]
        exact f1
  · rw [decode_value]
    by_cases h : (u16At buf 12).testBit 2 = true
    · rw [decodeValue_overflow _ _ h]
      simp [h]
    · have h' : (u16At buf 12).testBit 2 = false := by simpa using h
      rw [decodeValue_no_overflow _ _ h']
      simp [h']

/-- Witness of C22. The frame of `-1.8` (sign bit set, three places, magnitude 1800)
and a frame with the overflow bit. -/
theorem C22_value_range_witness :
    validate 0x40 (notification 0x2040 0xF023 0 0 0x8708) = true
    ∧ (∃ d : binary64, (decode sample0 (notification 0x2040 0xF023 0 0 0x8708)).value = some d
        ∧ |d.toRat| ≤ 16383 ∧ d.toRat < 0)
    ∧ (decode sample0 (notification 0x2040 0xF024 0 0 0x8708)).value = none := by
  refine ⟨by decide, ?_, ?_⟩
  · obtain ⟨d, hd, _, h1, _, h4, _⟩ :=
      (C22_value_range 0x40 (notification 0x2040 0xF023 0 0 0x8708) sample0 (by decide)).1
        (by decide)
    exact ⟨d, hd, h1, h4.mpr ⟨by decide, by decide⟩⟩
  · exact (C22_value_range 0x40 (notification 0x2040 0xF024 0 0 0x8708) sample0
      (by decide)).2.mpr (by decide)

/-- Counterexample to C22 as stated. The accepted frame with unit word `0xF021` (no
overflow bit, one decimal place) and value word `0x0003` decodes to the `double`
`0.30000000000000004`, and 1000 times this value is not an integer. -/
theorem C22_counterexample :
    validate 0x40 (notification 0x2040 0xF021 0 0 0x0003) = true
    ∧ (u16At (notification 0x2040 0xF021 0 0 0x0003) 12).testBit 2 = false
    ∧ (decode sample0 (notification 0x2040 0xF021 0 0 0x0003)).value
        = some { negative := false, magnitude := 1351079888211149 / 2 ^ 52 }
    ∧ ¬ ∃ z : ℤ,
        1000 * binary64.toRat { negative := false, magnitude := 1351079888211149 / 2 ^ 52 }
          = z := by
  have e0 : u16At (notification 0x2040 0xF021 0 0 0x0003) 12 = 0xF021 := by decide
  have e1 : u16At (notification 0x2040 0xF021 0 0 0x0003) 16 = 0x0003 := by decide
  have t1 : Nat.testBit 0x0003 15 = false := by decide
  have m1 : (0x0003 &&& 0x3FFF : Nat) = 3 := by decide
  have k1 : 0xF021 % 4 = 1 := by decide
  refine ⟨by decide, by decide, ?_, ?_⟩
  · rw [decode_value, e0, e1, decodeValue_no_overflow _ _ (by decide), t1, m1, k1,
      binary64_value_3_tenths]
  · rintro ⟨z, hz⟩
    unfold binary64.toRat at hz
    simp only [Bool.false_eq_true, if_false] at hz
    have h2 : (168884986026393625 : ℚ) = (z : ℚ) * 562949953421312 := by
      rw [← hz]
      norm_num
    have h3 : (168884986026393625 : ℤ) = z * 562949953421312 := by exact_mod_cast h2
    omega

/-! ## C23: the comparison of the decoded name with the target -/

/-- The C string in a buffer that ends with a terminator: the bytes before the first
zero byte. -/
theorem cstr_terminated (raw : List Byte) :
    cstr (raw ++ [0]) = raw.takeWhile (fun b => b != 0) := by
  unfold cstr
  induction raw with
  | nil => rfl
  | cons b rest ih =>
    by_cases hb : b = 0
    · subst hb
      rfl
    · have hb' : (b != 0) = true := by simpa using hb
      rw [List.cons_append, List.takeWhile_cons, List.takeWhile_cons, hb', ih]

/-- A list without a zero byte is its own C string. -/
theorem takeWhile_no_zero (l : List Byte) (h : ∀ b ∈ l, b ≠ 0) :
    l.takeWhile (fun b => b != 0) = l := by
  rw [List.takeWhile_eq_self_iff]
  intro b hb
  simpa using h b hb

/-- The C string of a target followed by a zero byte and further bytes is the target. -/
theorem takeWhile_target (target junk : List Byte) (h : ∀ b ∈ target, b ≠ 0) :
    (target ++ 0 :: junk).takeWhile (fun b => b != 0) = target := by
  induction target with
  | nil => rfl
  | cons b rest ih =>
    have hb : (b != 0) = true := by simpa using h b (List.mem_cons_self _ _)
    rw [List.cons_append, List.takeWhile_cons, hb]
    simp only [if_true, List.cons.injEq, true_and]
    exact ih (fun x hx => h x (List.mem_cons_of_mem _ hx))

theorem strcmp_eq_iff (a b : List Byte) : strcmp_eq a b = true ↔ cstr a = cstr b := by
  unfold strcmp_eq
  exact beq_iff_eq

/-- The name comparison of one iteration of the scan loop, for a frame that passes
the checks before it. -/
theorem ow_scan_loop_name (bt_sock : Nat) (params : ow_scan_params) (bytes : List Byte)
    (rest : List (Outcome (List Byte))) (addr : List Byte) (w : World) (name : List Byte)
    (h14 : OW_SCAN_MIN_LENGTH ≤ (bytes.take HCI_MAX_EVENT_SIZE).length)
    (hsub : byteAt (bytes.take HCI_MAX_EVENT_SIZE) OW_SCAN_META_OFFSET
      = OW_SCAN_SUBEVENT_ADVERTISING_INFO)
    (hlen : OW_SCAN_MIN_LENGTH + (info_of_buf (bytes.take HCI_MAX_EVENT_SIZE)).length
      ≤ (bytes.take HCI_MAX_EVENT_SIZE).length)
    (hfil : ow_scan_filter_matches_info params.filter_type
      (info_of_buf (bytes.take HCI_MAX_EVENT_SIZE)) = some true)
    (hname : ow_scan_parse_friendly_name (info_of_buf (bytes.take HCI_MAX_EVENT_SIZE))
      = some (some name)) :
    ow_scan_loop bt_sock params (Outcome.ok bytes :: rest) addr w
      = if strcmp_eq name params.name = true then
          some (0, (info_of_buf (bytes.take HCI_MAX_EVENT_SIZE)).bdaddr,
            w.call (Op.read bt_sock) (Outcome.ok bytes))
        else ow_scan_loop bt_sock params rest addr (w.call (Op.read bt_sock) (Outcome.ok bytes)) := by
  rw [ow_scan_loop]
  dsimp only
  have h0 : ¬ (bytes.take HCI_MAX_EVENT_SIZE).length = 0 := by
    unfold OW_SCAN_MIN_LENGTH at h14
    omega
  have h1 : ¬ (bytes.take HCI_MAX_EVENT_SIZE).length < OW_SCAN_MIN_LENGTH := by omega
  have h2 : ¬ byteAt (bytes.take HCI_MAX_EVENT_SIZE) OW_SCAN_META_OFFSET
      ≠ OW_SCAN_SUBEVENT_ADVERTISING_INFO := fun hc => hc hsub
  have h3 : ¬ (bytes.take HCI_MAX_EVENT_SIZE).length
      < OW_SCAN_MIN_LENGTH + (info_of_buf (bytes.take HCI_MAX_EVENT_SIZE)).length := by omega
  rw [if_neg h0, if_neg h1, if_neg h2, if_neg h3, hfil, hname]

/-- C23. The name comparison of the scanner is a C-string comparison. For every
report whose declared length does not exceed its data and every target: a decoded
name is the name bytes `raw` of the structure (at most 29) followed by a zero
terminator, so its C string is the bytes of `raw` before the first zero byte, all of
`raw` when it has none; `strcmp` holds iff these bytes equal those of the target
(the bytes of `params->name` before its terminator). Hence name bytes that are the
target, a zero byte and any further bytes match the target; a name structure of
declared length 1 decodes to the empty name, which is present and matches only the
empty target. In the scan loop a frame that passes the earlier checks ends the scan
with its address exactly when this comparison holds, and is passed over otherwise. -/
theorem C23_name_match (info : le_advertising_info) (hdata : info.length ≤ info.data.length)
    (target : List Byte) :
    (∀ name : List Byte, ow_scan_parse_friendly_name info = some (some name) →
      ∃ raw : List Byte, name = raw ++ [0] ∧ raw.length ≤ 29
        ∧ (∃ o ∈ tlv_structs info,
            (byteAt info.data (o + 1) = 0x08 ∨ byteAt info.data (o + 1) = 0x09)
            ∧ raw = (info.data.drop (o + 2)).take (byteAt info.data o - 1))
        ∧ cstr name = raw.takeWhile (fun b => b != 0)
        ∧ ((∀ b ∈ raw, b ≠ 0) → cstr name = raw)
        ∧ (strcmp_eq name target = true
            ↔ raw.takeWhile (fun b => b != 0) = target.takeWhile (fun b => b != 0))
        ∧ ((∀ b ∈ target, b ≠ 0) →
            (strcmp_eq name target = true ↔ raw.takeWhile (fun b => b != 0) = target))
        ∧ (∀ junk : List Byte, (∀ b ∈ target, b ≠ 0) → raw = target ++ 0 :: junk →
            strcmp_eq name target = true)
        ∧ (raw = [] → (strcmp_eq name target = true ↔ cstr target = [])))
    ∧ (∀ o : Nat,
        (tlv_structs info).find?
            (fun o => decide ((byteAt info.data (o + 1) = 0x08 ∨ byteAt info.data (o + 1) = 0x09)
              ∧ byteAt info.data o - 1 ≤ 29)) = some o →
        byteAt info.data o = 1 →
        ow_scan_parse_friendly_name info = some (some [0])
        ∧ (strcmp_eq [0] target = true ↔ cstr target = []))
    ∧ (∀ (bt_sock : Nat) (params : ow_scan_params) (bytes : List Byte)
        (rest : List (Outcome (List Byte))) (addr : List Byte) (w : World) (name : List Byte),
        OW_SCAN_MIN_LENGTH ≤ (bytes.take HCI_MAX_EVENT_SIZE).length →
        byteAt (bytes.take HCI_MAX_EVENT_SIZE) OW_SCAN_META_OFFSET
          = OW_SCAN_SUBEVENT_ADVERTISING_INFO →
        OW_SCAN_MIN_LENGTH + (info_of_buf (bytes.take HCI_MAX_EVENT_SIZE)).length
          ≤ (bytes.take HCI_MAX_EVENT_SIZE).length →
        ow_scan_filter_matches_info params.filter_type
          (info_of_buf (bytes.take HCI_MAX_EVENT_SIZE)) = some true →
        ow_scan_parse_friendly_name (info_of_buf (bytes.take HCI_MAX_EVENT_SIZE))
          = some (some name) →
        ow_scan_loop bt_sock params (Outcome.ok bytes :: rest) addr w
          = if cstr name = cstr params.name then
              some (0, (info_of_buf (bytes.take HCI_MAX_EVENT_SIZE)).bdaddr,
                w.call (Op.read bt_sock) (Outcome.ok bytes))
            else ow_scan_loop bt_sock params rest addr
              (w.call (Op.read bt_sock) (Outcome.ok bytes))) := by
  have href := parse_name_ref info hdata
  refine ⟨?_, ?_, ?_⟩
  · intro name hname
    rw [href] at hname
    simp only [Option.some.injEq] at hname
    unfold name_ref at hname
    rw [Option.map_eq_some'] at hname
    obtain ⟨o, ho, hn⟩ := hname
    have hmem := List.mem_of_find?_eq_some ho
    have hq := List.find?_some ho
    simp only [decide_eq_true_eq] at hq
    refine ⟨(info.data.drop (o + 2)).take (byteAt info.data o - 1), hn.symm, ?_,
      ⟨o, hmem, hq.1, rfl⟩, ?_, ?_, ?_, ?_, ?_, ?_⟩
    · exact le_trans (List.length_take_le _ _) hq.2
    · rw [← hn]
      exact cstr_terminated _
    · intro hz
      rw [← hn, cstr_terminated, takeWhile_no_zero _ hz]
    · rw [strcmp_eq_iff, ← hn, cstr_terminated]
      rfl
    · intro ht
      rw [strcmp_eq_iff, ← hn, cstr_terminated]
      unfold cstr
      rw [takeWhile_no_zero target ht]
    · intro junk ht hraw
      rw [strcmp_eq_iff, ← hn, cstr_terminated, hraw, takeWhile_target target junk ht]
      unfold cstr
      rw [takeWhile_no_zero target ht]
    · intro hraw
      rw [strcmp_eq_iff, ← hn, cstr_terminated, hraw]
      exact eq_comm
  · intro o ho hl
    constructor
    · rw [href]
      unfold name_ref
      rw [ho]
      simp only [Option.map_some', hl]
      rfl
    · rw [strcmp_eq_iff]
      exact eq_comm
  · intro bt_sock params bytes rest addr w name h14 hsub hlen hfil hname
    rw [ow_scan_loop_name bt_sock params bytes rest addr w name h14 hsub hlen hfil hname]
    by_cases hc : cstr name = cstr params.name
    · rw [if_pos hc, if_pos ((strcmp_eq_iff _ _).mpr hc)]
    · rw [if_neg hc, if_neg (fun h => hc ((strcmp_eq_iff _ _).mp h))]

/-- Witness of C23. A report whose complete-name structure holds `BDM`, a zero byte
and two further bytes matches the target `BDM`; a report whose name structure has
declared length 1 decodes to the empty name, which does not match `BDM` and matches
the empty target. -/
theorem C23_name_match_witness :
    (report [0x07, 0x09, 0x42, 0x44, 0x4D, 0x00, 0x58, 0x59]).length
        ≤ (report [0x07, 0x09, 0x42, 0x44, 0x4D, 0x00, 0x58, 0x59]).data.length
    ∧ ow_scan_parse_friendly_name (report [0x07, 0x09, 0x42, 0x44, 0x4D, 0x00, 0x58, 0x59])
        = some (some [0x42, 0x44, 0x4D, 0x00, 0x58, 0x59, 0x00])
    ∧ strcmp_eq [0x42, 0x44, 0x4D, 0x00, 0x58, 0x59, 0x00] [0x42, 0x44, 0x4D] = true
    ∧ ow_scan_parse_friendly_name (report [0x01, 0x08]) = some (some [0])
    ∧ strcmp_eq [0] [0x42, 0x44, 0x4D] = false
    ∧ (strcmp_eq [0] [] = true ↔ cstr ([] : List Byte) = []) := by
  have hname : ow_scan_parse_friendly_name
      (report [0x07, 0x09, 0x42, 0x44, 0x4D, 0x00, 0x58, 0x59])
        = some (some [0x42, 0x44, 0x4D, 0x00, 0x58, 0x59, 0x00]) := by decide
  refine ⟨by decide, hname, ?_, ?_, by decide, ?_⟩
  · obtain ⟨raw, hraw, _, _, _, _, _, _, hjunk, _⟩ :=
      (C23_name_match (report [0x07, 0x09, 0x42, 0x44, 0x4D, 0x00, 0x58, 0x59]) (by decide)
        [0x42, 0x44, 0x4D]).1 _ hname
    have e : raw = [0x42, 0x44, 0x4D] ++ 0 :: [0x58, 0x59] := by
      have h2 : raw ++ [0] = [0x42, 0x44, 0x4D, 0x00, 0x58, 0x59] ++ [0] := hraw.symm
      exact List.append_cancel_right h2
    exact hjunk [0x58, 0x59] (by simp) e
  · exact ((C23_name_match (report [0x01, 0x08]) (by decide) []).2.1 0 (by decide)
      (by decide)).1
  · exact ((C23_name_match (report [0x01, 0x08]) (by decide) []).2.1 0 (by decide)
      (by decide)).2

/-! ## C24: the TLV walks end -/

/-- The flags walk from `offset` ends within any fuel `f` with `n ≤ offset + 2 * f`,
and its result does not depend on the fuel. -/
theorem read_flags_loop_ends (info : le_advertising_info) :
    ∀ fuel fuel' offset : Nat, info.length ≤ offset + 2 * fuel →
      info.length ≤ offset + 2 * fuel' →
      ow_scan_read_flags_loop info fuel offset = ow_scan_read_flags_loop info fuel' offset
      ∧ ∃ r, ow_scan_read_flags_loop info fuel offset = some r := by
  intro fuel
  induction fuel with
  | zero =>
    intro fuel' offset h h'
    have hn : ¬ offset < info.length := by omega
    cases fuel' with
    | zero => exact ⟨rfl, none, by rw [ow_scan_read_flags_loop, if_neg hn]⟩
    | succ f' =>
      rw [ow_scan_read_flags_loop, ow_scan_read_flags_loop, if_neg hn, if_neg hn]
      exact ⟨rfl, none, rfl⟩
  | succ f ih =>
    intro fuel' offset h h'
    rw [ow_scan_read_flags_loop]
    by_cases hlt : offset < info.length
    · cases fuel' with
      | zero => omega
      | succ f' =>
        rw [ow_scan_read_flags_loop, if_pos hlt, if_pos hlt]
        dsimp only
        by_cases hc : byteAt info.data offset = 0
            ∨ offset + byteAt info.data offset ≥ info.length
        · rw [if_pos hc, if_pos hc]
          exact ⟨rfl, none, rfl⟩
        · rw [if_neg hc, if_neg hc]
          by_cases hf : byteAt info.data (offset + 1) = OW_SCAN_FILTER_FLAGS_TYPE
              ∧ byteAt info.data offset ≥ 2
          · rw [if_pos hf, if_pos hf]
            exact ⟨rfl, _, rfl⟩
          · rw [if_neg hf, if_neg hf]
            have hl : byteAt info.data offset ≠ 0 := fun h0 => hc (Or.inl h0)
            exact ih f' (offset + 1 + byteAt info.data offset) (by omega) (by omega)
    · rw [if_neg hlt]
      cases fuel' with
      | zero => rw [ow_scan_read_flags_loop, if_neg hlt]; exact ⟨rfl, none, rfl⟩
      | succ f' => rw [ow_scan_read_flags_loop, if_neg hlt]; exact ⟨rfl, none, rfl⟩

/-- The name walk from `offset` ends within any fuel `f` with `n ≤ offset + 2 * f`,
and its result does not depend on the fuel. -/
theorem parse_name_loop_ends (info : le_advertising_info) :
    ∀ fuel fuel' offset : Nat, info.length ≤ offset + 2 * fuel →
      info.length ≤ offset + 2 * fuel' →
      ow_scan_parse_friendly_name_loop info fuel offset
        = ow_scan_parse_friendly_name_loop info fuel' offset
      ∧ ∃ r, ow_scan_parse_friendly_name_loop info fuel offset = some r := by
  intro fuel
  induction fuel with
  | zero =>
    intro fuel' offset h h'
    have hn : ¬ offset < info.length := by omega
    cases fuel' with
    | zero => exact ⟨rfl, none, by rw [ow_scan_parse_friendly_name_loop, if_neg hn]⟩
    | succ f' =>
      rw [ow_scan_parse_friendly_name_loop, ow_scan_parse_friendly_name_loop, if_neg hn,
        if_neg hn]
      exact ⟨rfl, none, rfl⟩
  | succ f ih =>
    intro fuel' offset h h'
    rw [ow_scan_parse_friendly_name_loop]
    by_cases hlt : offset < info.length
    · cases fuel' with
      | zero => omega
      | succ f' =>
        rw [ow_scan_parse_friendly_name_loop, if_pos hlt, if_pos hlt]
        dsimp only
        by_cases hc : byteAt info.data offset = 0
            ∨ offset + byteAt info.data offset ≥ info.length
        · rw [if_pos hc, if_pos hc]
          exact ⟨rfl, none, rfl⟩
        · rw [if_neg hc, if_neg hc]
          by_cases hf : (byteAt info.data (offset + 1) = OW_SCAN_SHORT_DEVICE_NAME
                ∨ byteAt info.data (offset + 1) = OW_SCAN_DEVICE_NAME)
              ∧ byteAt info.data offset - 1 ≤ OW_MAX_NAME_LENGTH
          · rw [if_pos hf, if_pos hf]
            exact ⟨rfl, _, rfl⟩
          · rw [if_neg hf, if_neg hf]
            have hl : byteAt info.data offset ≠ 0 := fun h0 => hc (Or.inl h0)
            exact ih f' (offset + 1 + byteAt info.data offset) (by omega) (by omega)
    · rw [if_neg hlt]
      cases fuel' with
      | zero => rw [ow_scan_parse_friendly_name_loop, if_neg hlt]; exact ⟨rfl, none, rfl⟩
      | succ f' => rw [ow_scan_parse_friendly_name_loop, if_neg hlt]; exact ⟨rfl, none, rfl⟩

/-- The recorded flags walk: the result of the walk, and the recorded values of
`offset` start at `offset`, step by `1 + l` with `l ≥ 1`, stay at or below `n`, and
at most `(n - offset + 1) / 2` of them are below `n`. -/
theorem read_flags_offsets_spec (info : le_advertising_info) :
    ∀ fuel offset : Nat, offset ≤ info.length →
      (ow_scan_read_flags_offsets info fuel offset).2 = ow_scan_read_flags_loop info fuel offset
      ∧ (ow_scan_read_flags_offsets info fuel offset).1.head? = some offset
      ∧ List.Chain' (fun a b => 1 ≤ byteAt info.data a ∧ b = a + 1 + byteAt info.data a)
          (ow_scan_read_flags_offsets info fuel offset).1
      ∧ (∀ o ∈ (ow_scan_read_flags_offsets info fuel offset).1, o ≤ info.length)
      ∧ 2 * (ow_scan_read_flags_offsets info fuel offset).1.countP
            (fun o => decide (o < info.length)) ≤ info.length - offset + 1 := by
  intro fuel
  induction fuel with
  | zero =>
    intro offset hle
    rw [ow_scan_read_flags_offsets, ow_scan_read_flags_loop]
    by_cases hlt : offset < info.length
    · rw [if_pos hlt, if_pos hlt]
      refine ⟨rfl, rfl, List.chain'_singleton _, ?_, ?_⟩
      · intro o ho
        rw [List.mem_singleton.1 ho]
        exact hle
      · simp only [List.countP_cons, List.countP_nil, hlt, decide_True, if_true]
        omega
    · rw [if_neg hlt, if_neg hlt]
      refine ⟨rfl, rfl, List.chain'_singleton _, ?_, ?_⟩
      · intro o ho
        rw [List.mem_singleton.1 ho]
        exact hle
      · simp only [List.countP_cons, List.countP_nil, hlt, decide_False, Bool.false_eq_true,
          if_false]
        omega
  | succ f ih =>
    intro offset hle
    rw [ow_scan_read_flags_offsets, ow_scan_read_flags_loop]
    have single : ∀ (x : Option (Option Nat)), offset < info.length →
        (([offset], x) : List Nat × Option (Option Nat)).2 = x
        ∧ ([offset] : List Nat).head? = some offset
        ∧ List.Chain' (fun a b => 1 ≤ byteAt info.data a ∧ b = a + 1 + byteAt info.data a)
            [offset]
        ∧ (∀ o ∈ [offset], o ≤ info.length)
        ∧ 2 * ([offset] : List Nat).countP (fun o => decide (o < info.length))
            ≤ info.length - offset + 1 := by
      intro x hlt
      refine ⟨rfl, rfl, List.chain'_singleton _, ?_, ?_⟩
      · intro o ho
        rw [List.mem_singleton.1 ho]
        exact hle
      · simp only [List.countP_cons, List.countP_nil, hlt, decide_True, if_true]
        omega
    by_cases hlt : offset < info.length
    · rw [if_pos hlt, if_pos hlt]
      dsimp only
      by_cases hc : byteAt info.data offset = 0
          ∨ offset + byteAt info.data offset ≥ info.length
      · rw [if_pos hc, if_pos hc]
        exact single _ hlt
      · rw [if_neg hc, if_neg hc]
        by_cases hf : byteAt info.data (offset + 1) = OW_SCAN_FILTER_FLAGS_TYPE
            ∧ byteAt info.data offset ≥ 2
        · rw [if_pos hf, if_pos hf]
          exact single _ hlt
        · rw [if_neg hf, if_neg hf]
          have hl : byteAt info.data offset ≠ 0 := fun h0 => hc (Or.inl h0)
          have hv : offset + byteAt info.data offset < info.length := by
            by_contra hn
            exact hc (Or.inr (by omega))
          obtain ⟨h1, h2, h3, h4, h5⟩ := ih (offset + 1 + byteAt info.data offset) (by omega)
          refine ⟨h1, rfl, ?_, ?_, ?_⟩
          · rw [List.chain'_cons']
            refine ⟨?_, h3⟩
            intro y hy
            rw [h2] at hy
            simp only [Option.mem_def, Option.some.injEq] at hy
            exact ⟨by omega, hy.symm⟩
          · intro o ho
            rcases List.mem_cons.1 ho with h | h
            · rw [h]; exact hle
            · exact h4 o h
          · rw [List.countP_cons]
            simp only [hlt, decide_True, if_true]
            omega
    · rw [if_neg hlt, if_neg hlt]
      refine ⟨rfl, rfl, List.chain'_singleton _, ?_, ?_⟩
      · intro o ho
        rw [List.mem_singleton.1 ho]
        exact hle
      · simp only [List.countP_cons, List.countP_nil, hlt, decide_False, Bool.false_eq_true,
          if_false]
        omega

/-- The recorded name walk: the result of the walk, and the recorded values of
`offset` start at `offset`, step by `1 + l` with `l ≥ 1`, stay at or below `n`, and
at most `(n - offset + 1) / 2` of them are below `n`. -/
theorem parse_name_offsets_spec (info : le_advertising_info) :
    ∀ fuel offset : Nat, offset ≤ info.length →
      (ow_scan_parse_friendly_name_offsets info fuel offset).2 = ow_scan_parse_friendly_name_loop info fuel offset
      ∧ (ow_scan_parse_friendly_name_offsets info fuel offset).1.head? = some offset
      ∧ List.Chain' (fun a b => 1 ≤ byteAt info.data a ∧ b = a + 1 + byteAt info.data a)
          (ow_scan_parse_friendly_name_offsets info fuel offset).1
      ∧ (∀ o ∈ (ow_scan_parse_friendly_name_offsets info fuel offset).1, o ≤ info.length)
      ∧ 2 * (ow_scan_parse_friendly_name_offsets info fuel offset).1.countP
            (fun o => decide (o < info.length)) ≤ info.length - offset + 1 := by
  intro fuel
  induction fuel with
  | zero =>
    intro offset hle
    rw [ow_scan_parse_friendly_name_offsets, ow_scan_parse_friendly_name_loop]
    by_cases hlt : offset < info.length
    · rw [if_pos hlt, if_pos hlt]
      refine ⟨rfl, rfl, List.chain'_singleton _, ?_, ?_⟩
      · intro o ho
        rw [List.mem_singleton.1 ho]
        exact hle
      · simp only [List.countP_cons, List.countP_nil, hlt, decide_True, if_true]
        omega
    · rw [if_neg hlt, if_neg hlt]
      refine ⟨rfl, rfl, List.chain'_singleton _, ?_, ?_⟩
      · intro o ho
        rw [List.mem_singleton.1 ho]
        exact hle
      · simp only [List.countP_cons, List.countP_nil, hlt, decide_False, Bool.false_eq_true,
          if_false]
        omega
  | succ f ih =>
    intro offset hle
    rw [ow_scan_parse_friendly_name_offsets, ow_scan_parse_friendly_name_loop]
    have single : ∀ (x : Option (Option (List Byte))), offset < info.length →
        (([offset], x) : List Nat × Option (Option (List Byte))).2 = x
        ∧ ([offset] : List Nat).head? = some offset
        ∧ List.Chain' (fun a b => 1 ≤ byteAt info.data a ∧ b = a + 1 + byteAt info.data a)
            [offset]
        ∧ (∀ o ∈ [offset], o ≤ info.length)
        ∧ 2 * ([offset] : List Nat).countP (fun o => decide (o < info.length))
            ≤ info.length - offset + 1 := by
      intro x hlt
      refine ⟨rfl, rfl, List.chain'_singleton _, ?_, ?_⟩
      · intro o ho
        rw [List.mem_singleton.1 ho]
        exact hle
      · simp only [List.countP_cons, List.countP_nil, hlt, decide_True, if_true]
        omega
    by_cases hlt : offset < info.length
    · rw [if_pos hlt, if_pos hlt]
      dsimp only
      by_cases hc : byteAt info.data offset = 0
          ∨ offset + byteAt info.data offset ≥ info.length
      · rw [if_pos hc, if_pos hc]
        exact single _ hlt
      · rw [if_neg hc, if_neg hc]
        by_cases hf : (byteAt info.data (offset + 1) = OW_SCAN_SHORT_DEVICE_NAME
              ∨ byteAt info.data (offset + 1) = OW_SCAN_DEVICE_NAME)
            ∧ byteAt info.data offset - 1 ≤ OW_MAX_NAME_LENGTH
        · rw [if_pos hf, if_pos hf]
          exact single _ hlt
        · rw [if_neg hf, if_neg hf]
          have hl : byteAt info.data offset ≠ 0 := fun h0 => hc (Or.inl h0)
          have hv : offset + byteAt info.data offset < info.length := by
            by_contra hn
            exact hc (Or.inr (by omega))
          obtain ⟨h1, h2, h3, h4, h5⟩ := ih (offset + 1 + byteAt info.data offset) (by omega)
          refine ⟨h1, rfl, ?_, ?_, ?_⟩
          · rw [List.chain'_cons']
            refine ⟨?_, h3⟩
            intro y hy
            rw [h2] at hy
            simp only [Option.mem_def, Option.some.injEq] at hy
            exact ⟨by omega, hy.symm⟩
          · intro o ho
            rcases List.mem_cons.1 ho with h | h
            · rw [h]; exact hle
            · exact h4 o h
          · rw [List.countP_cons]
            simp only [hlt, decide_True, if_true]
            omega
    · rw [if_neg hlt, if_neg hlt]
      refine ⟨rfl, rfl, List.chain'_singleton _, ?_, ?_⟩
      · intro o ho
        rw [List.mem_singleton.1 ho]
        exact hle
      · simp only [List.countP_cons, List.countP_nil, hlt, decide_False, Bool.false_eq_true,
          if_false]
        omega


/-- C24. The TLV walks of `ow_scan_read_flags` and `ow_scan_parse_friendly_name` end
on every report, of declared length `n`: each returns a result, and already within
`ceil(n / 2)` iterations (any fuel from `(n + 1) / 2` on gives the same result). The
values `offset` takes, as the recorded walks list them, step from each iteration to
the next by `1 + l` with `l ≥ 1` (so by at least 2), never exceed `n` (so there is no
wrap-around, `n` being at most 255), and at most `(n + 1) / 2` of them are below `n`,
that is, start an iteration. -/
theorem C24_walks_end (info : le_advertising_info) :
    (∃ r, ow_scan_read_flags info = some r)
    ∧ (∀ fuel : Nat, (info.length + 1) / 2 ≤ fuel →
        ow_scan_read_flags_loop info fuel 0 = ow_scan_read_flags info)
    ∧ (ow_scan_read_flags_offsets info info.length 0).2 = ow_scan_read_flags info
    ∧ List.Chain' (fun a b => 1 ≤ byteAt info.data a ∧ b = a + 1 + byteAt info.data a)
        (ow_scan_read_flags_offsets info info.length 0).1
    ∧ (∀ o ∈ (ow_scan_read_flags_offsets info info.length 0).1, o ≤ info.length)
    ∧ (ow_scan_read_flags_offsets info info.length 0).1.countP
          (fun o => decide (o < info.length)) ≤ (info.length + 1) / 2
    ∧ (∃ r, ow_scan_parse_friendly_name info = some r)
    ∧ (∀ fuel : Nat, (info.length + 1) / 2 ≤ fuel →
        ow_scan_parse_friendly_name_loop info fuel 0 = ow_scan_parse_friendly_name info)
    ∧ (ow_scan_parse_friendly_name_offsets info info.length 0).2
        = ow_scan_parse_friendly_name info
    ∧ List.Chain' (fun a b => 1 ≤ byteAt info.data a ∧ b = a + 1 + byteAt info.data a)
        (ow_scan_parse_friendly_name_offsets info info.length 0).1
    ∧ (∀ o ∈ (ow_scan_parse_friendly_name_offsets info info.length 0).1, o ≤ info.length)
    ∧ (ow_scan_parse_friendly_name_offsets info info.length 0).1.countP
          (fun o => decide (o < info.length)) ≤ (info.length + 1) / 2 := by
  obtain ⟨f1, _, f3, f4, f5⟩ := read_flags_offsets_spec info info.length 0 (Nat.zero_le _)
  obtain ⟨n1, _, n3, n4, n5⟩ := parse_name_offsets_spec info info.length 0 (Nat.zero_le _)
  refine ⟨?_, ?_, f1, f3, f4, by omega, ?_, ?_, n1, n3, n4, by omega⟩
  · exact (read_flags_loop_ends info info.length info.length 0 (by omega) (by omega)).2
  · intro fuel hfuel
    exact (read_flags_loop_ends info fuel info.length 0 (by omega) (by omega)).1
  · exact (parse_name_loop_ends info info.length info.length 0 (by omega) (by omega)).2
  · intro fuel hfuel
    exact (parse_name_loop_ends info fuel info.length 0 (by omega) (by omega)).1

/-- Witness of C24. A report of five bytes with structures of length 1 at offsets 0, 2
and 4: both walks run three iterations, `ceil(5 / 2)`, and return absent already with
fuel 3. -/
theorem C24_walks_end_witness :
    (ow_scan_read_flags_offsets (report [0x01, 0xFF, 0x01, 0xFF, 0x01]) 5 0).1 = [0, 2, 4]
    ∧ (ow_scan_parse_friendly_name_offsets (report [0x01, 0xFF, 0x01, 0xFF, 0x01]) 5 0).1
        = [0, 2, 4]
    ∧ ow_scan_read_flags_loop (report [0x01, 0xFF, 0x01, 0xFF, 0x01]) 3 0 = some none
    ∧ ow_scan_parse_friendly_name_loop (report [0x01, 0xFF, 0x01, 0xFF, 0x01]) 3 0 = some none
    ∧ ow_scan_read_flags_loop (report [0x01, 0xFF, 0x01, 0xFF, 0x01]) 2 0 = none :=
  ⟨by decide, by decide,
   ((C24_walks_end (report [0x01, 0xFF, 0x01, 0xFF, 0x01])).2.1 3 (by decide)).trans
     (by decide),
   ((C24_walks_end (report [0x01, 0xFF, 0x01, 0xFF, 0x01])).2.2.2.2.2.2.2.1 3
     (by decide)).trans (by decide),
   by decide⟩

end Ow18b
